import Mathlib

/-!
# Ghost feedback system: authorization and account-security core

A shallow embedding of the account model (`src/models/Admin.js`), the
authorization middleware (`src/middleware/auth.js`), the session routes
(`src/routes/auth.js`) and the account and suggestion mutation routes of
`src/routes/admin.js`, followed by the properties proved about them.

Conventions of the embedding

* Time is a natural number of milliseconds (`Date.now()`); a request reads the
  clock once.
* A collection is the list of its documents.  `_id` is unique in a MongoDB
  collection, so an update addressed by `_id` is a map over the list.
* External libraries (jsonwebtoken, bcryptjs, express-validator, the Mongoose
  schema validators) are parameters collected in `Env`.
* A Mongoose document loaded from the store is the stored record; a path that
  is absent from the store is `none` and is read through its schema default.
-/

namespace GhostFeedback

/-! ## Object ids -/

/-- The 12-byte value of a BSON ObjectId. -/
abbrev ObjectId := Nat

/-- Lower-case hexadecimal digit of a value below sixteen. -/
def hexDigit (n : Nat) : Char :=
  if n < 10 then Char.ofNat (48 + n) else Char.ofNat (87 + n)

/-- The `k` least significant hexadecimal digits of `n`, most significant first. -/
def hexDigits : Nat → Nat → List Char
  | 0, _ => []
  | k + 1, n => hexDigits k (n / 16) ++ [hexDigit (n % 16)]

/-- `ObjectId.prototype.toString`: 24 lower-case hexadecimal characters. -/
def ObjectId.toString (i : ObjectId) : String :=
  String.mk (hexDigits 24 i)

/-- Value of a hexadecimal character, either case (`/^[0-9a-fA-F]{24}$/`). -/
def hexVal (c : Char) : Option Nat :=
  if 48 ≤ c.toNat ∧ c.toNat ≤ 57 then some (c.toNat - 48)
  else if 97 ≤ c.toNat ∧ c.toNat ≤ 102 then some (c.toNat - 87)
  else if 65 ≤ c.toNat ∧ c.toNat ≤ 70 then some (c.toNat - 55)
  else none

/-- Value of a string of hexadecimal characters, `none` when one is not. -/
def hexValue : List Char → Nat → Option Nat
  | [], acc => some acc
  | c :: cs, acc =>
    match hexVal c with
    | some d => hexValue cs (16 * acc + d)
    | none => none

/-- The cast Mongoose applies to a string used as `_id` in a query
(`new ObjectId(string)`): a string of 24 hexadecimal characters, in either
case, is the id with these bytes; any other string is a `CastError`.  (The
12-character strings some driver versions read as raw bytes are not modelled.) -/
def castObjectId (s : String) : Option ObjectId :=
  if s.data.length = 24 then hexValue s.data 0 else none

/-! ## Accounts (`src/models/Admin.js`) -/

/-- The names of `adminSchema.permissions`. -/
inductive Permission
  | viewSuggestions
  | editSuggestions
  | deleteSuggestions
  | manageSuggestions
  | manageAdmins
  | exportData
  | viewAnalytics
  deriving DecidableEq, Repr

/-- The value of `adminSchema.permissions`. -/
structure Permissions where
  viewSuggestions : Bool
  editSuggestions : Bool
  deleteSuggestions : Bool
  manageSuggestions : Bool
  manageAdmins : Bool
  exportData : Bool
  viewAnalytics : Bool
  deriving DecidableEq, Repr

/-- The property access `permissions[name]`. -/
def Permissions.get (p : Permissions) : Permission → Bool
  | .viewSuggestions => p.viewSuggestions
  | .editSuggestions => p.editSuggestions
  | .deleteSuggestions => p.deleteSuggestions
  | .manageSuggestions => p.manageSuggestions
  | .manageAdmins => p.manageAdmins
  | .exportData => p.exportData
  | .viewAnalytics => p.viewAnalytics

/-- The schema defaults of `adminSchema.permissions`. -/
def defaultPermissions : Permissions :=
  { viewSuggestions := true
    editSuggestions := false
    deleteSuggestions := false
    manageSuggestions := false
    manageAdmins := false
    exportData := true
    viewAnalytics := true }

/-- A document of the `Admin` collection.  `password` is `none` only in a
document loaded with `.select('-password')`; `loginAttempts` and `lockUntil`
are `none` when the path is absent from the store. -/
structure Admin where
  _id : ObjectId
  email : String
  password : Option String
  role : String
  firstName : Option String
  lastName : Option String
  isActive : Bool
  status : String
  lastLogin : Option Nat
  loginAttempts : Option Nat
  lockUntil : Option Nat
  permissions : Permissions
  deriving DecidableEq, Repr

/-- The virtual `fullName`. -/
def Admin.fullName (a : Admin) : String :=
  (a.firstName.getD "undefined") ++ " " ++ (a.lastName.getD "undefined")

/-- The virtual `isLocked`: `!!(this.lockUntil && this.lockUntil > Date.now())`. -/
def Admin.isLocked (a : Admin) (now : Nat) : Bool :=
  match a.lockUntil with
  | some u => decide (u > now)
  | none => false

/-- The in-memory value of `loginAttempts`: the schema default 0 when absent. -/
def Admin.attempts (a : Admin) : Nat :=
  a.loginAttempts.getD 0

/-- The projection `.select('-password')`. -/
def Admin.withoutPassword (a : Admin) : Admin :=
  { a with password := none }

/-- `Model.findById`. -/
def findById (db : List Admin) (id : ObjectId) : Option Admin :=
  db.find? (fun d => decide (d._id = id))

/-- `Model.findOne({ email })`. -/
def findOneByEmail (db : List Admin) (email : String) : Option Admin :=
  db.find? (fun d => decide (d.email = email))

/-- `String.prototype.toLowerCase`, on the letters A to Z. -/
def toLowerCase (s : String) : String :=
  String.mk (s.data.map Char.toLower)

/-- The static `findByEmail`. -/
def findByEmail (db : List Admin) (email : String) : Option Admin :=
  findOneByEmail db (toLowerCase email)

/-- The static `findByEmailForLogin`. -/
def findByEmailForLogin (db : List Admin) (email : String) : Option Admin :=
  findOneByEmail db (toLowerCase email)

/-- The update of the document with the given `_id` (`doc.updateOne`,
`findByIdAndUpdate`). -/
def updateById (db : List Admin) (id : ObjectId) (f : Admin → Admin) : List Admin :=
  db.map (fun d => if d._id = id then f d else d)

/-- The lock duration `2 * 60 * 60 * 1000` of `incLoginAttempts`. -/
def lockDuration : Nat := 2 * 60 * 60 * 1000

/-- The method `incLoginAttempts` of the loaded document `admin`: the update
it sends to the store. -/
def incLoginAttempts (db : List Admin) (admin : Admin) (now : Nat) : List Admin :=
  if (match admin.lockUntil with | some u => decide (u < now) | none => false) then
    updateById db admin._id (fun d => { d with lockUntil := none, loginAttempts := some 1 })
  else if decide (admin.attempts + 1 ≥ 5) && !admin.isLocked now then
    updateById db admin._id (fun d =>
      { d with loginAttempts := some (d.attempts + 1), lockUntil := some (now + lockDuration) })
  else
    updateById db admin._id (fun d => { d with loginAttempts := some (d.attempts + 1) })

/-- The method `resetLoginAttempts`: `$unset` of both paths. -/
def resetLoginAttempts (db : List Admin) (admin : Admin) : List Admin :=
  updateById db admin._id (fun d => { d with loginAttempts := none, lockUntil := none })

/-! ## JavaScript strings -/

/-- The characters matched by `\s` and removed by `String.prototype.trim`. -/
def isJsSpace (c : Char) : Bool :=
  decide (c.toNat ∈ [9, 10, 11, 12, 13, 32, 160, 5760, 8232, 8233, 8239, 8287, 12288, 65279])
    || (decide (8192 ≤ c.toNat) && decide (c.toNat ≤ 8202))

/-- `String.prototype.trim` on the characters of a string. -/
def trimChars (s : List Char) : List Char :=
  ((s.dropWhile isJsSpace).reverse.dropWhile isJsSpace).reverse

/-- `String.prototype.trim`. -/
def trim (s : String) : String :=
  String.mk (trimChars s.data)

/-- `replace(/\s+/g, ' ')`; the flag says that the preceding character was
white space and has been replaced already. -/
def collapseSpaces : Bool → List Char → List Char
  | _, [] => []
  | seen, c :: cs =>
    if isJsSpace c then
      if seen then collapseSpaces true cs else ' ' :: collapseSpaces true cs
    else c :: collapseSpaces false cs

/-- The name normalisation `trim().replace(/\s+/g, ' ')` of the save hook. -/
def normalizeName (s : String) : String :=
  String.mk (collapseSpaces false (trimChars s.data))

/-- `replace(/c/g, r)` for a single character `c`. -/
def replaceAll (c : Char) (r : List Char) : List Char → List Char
  | [] => []
  | x :: xs => if x = c then r ++ replaceAll c r xs else x :: replaceAll c r xs

/-- The string case of `sanitize` in `sanitizeInputs`. -/
def sanitize (s : String) : String :=
  String.mk
    (replaceAll '/' "&#x2F;".data
      (replaceAll '"' "&quot;".data
        (replaceAll '>' "&gt;".data
          (replaceAll '<' "&lt;".data s.data))))

/-- `String.prototype.length`: the number of UTF-16 code units. -/
def jsLength (s : String) : Nat :=
  (s.data.map (fun c => if c.toNat < 65536 then 1 else 2)).sum

/-- `String.prototype.includes`. -/
def includes (s sub : List Char) : Bool :=
  match s with
  | [] => sub.isEmpty
  | c :: cs => sub.isPrefixOf (c :: cs) || includes cs sub

/-- The two early exits of `sanitizeInputs`: whether the request is passed on
unsanitised. -/
def sanitizeSkipped (path method : String) : Bool :=
  (includes path.data "/admins".data && (method == "POST" || method == "PUT"))
    || (includes path.data "/suggestions".data && (method == "POST" || method == "PUT"))

/-- `split(' ')` on the characters of a string; the accumulator holds the
current piece reversed. -/
def splitOnSpace : List Char → List Char → List (List Char)
  | acc, [] => [acc.reverse]
  | acc, c :: cs => if c = ' ' then acc.reverse :: splitOnSpace [] cs else splitOnSpace (c :: acc) cs

/-- JavaScript truthiness of an optional string: present and not empty. -/
def truthy (s : Option String) : Option String :=
  match s with
  | some v => if v = "" then none else some v
  | none => none

/-! ## External libraries -/

/-- The claims signed into a token by `jwt.sign` in this program. -/
structure Claims where
  adminId : ObjectId
  email : String
  role : String
  deriving DecidableEq, Repr

/-- The `name` of an error thrown by `jwt.verify`. -/
inductive JwtError
  | JsonWebTokenError
  | TokenExpiredError
  | NotBeforeError
  deriving DecidableEq, Repr

/-- The outcome of `jwt.verify`. -/
inductive JwtResult
  | decoded (c : Claims)
  | thrown (e : JwtError)
  deriving DecidableEq, Repr

/-- The body of `POST /login`. -/
structure LoginBody where
  email : String
  password : String
  deriving DecidableEq, Repr

/-- The `permissions` object of a request body. -/
structure PermissionsBody where
  viewSuggestions : Option Bool
  editSuggestions : Option Bool
  deleteSuggestions : Option Bool
  manageSuggestions : Option Bool
  manageAdmins : Option Bool
  exportData : Option Bool
  viewAnalytics : Option Bool
  deriving DecidableEq, Repr

/-- The body of `POST /admins` and `PUT /admins/:id`, restricted to the paths
of `adminSchema` (Mongoose drops the others). -/
structure AdminBody where
  email : Option String
  password : Option String
  role : Option String
  firstName : Option String
  lastName : Option String
  permissions : Option PermissionsBody
  isActive : Option Bool
  status : Option String
  lastLogin : Option Nat
  loginAttempts : Option Nat
  lockUntil : Option Nat
  deriving DecidableEq, Repr

/-- A value sent for a date path: a falsy one (`null`, `""`, `0`, `false`)
with what Mongoose casts it to, or a truthy one that casts to the time `t`. -/
inductive DateInput
  | falsy (cast : Option Nat)
  | date (t : Nat)
  deriving DecidableEq, Repr

/-- What a value sent for a date path stores. -/
def DateInput.stored : DateInput → Option Nat
  | .falsy c => c
  | .date t => some t

/-- JavaScript truthiness of the value of a date path of a body. -/
def DateInput.isTruthy : Option DateInput → Bool
  | some (.date _) => true
  | _ => false

/-- The body of `PUT /suggestions/:id`, restricted to the paths of
`suggestionSchema`; a path is `none` when the body does not have it. -/
structure SuggestionBody where
  status : Option String
  reply : Option String
  priority : Option String
  assignedTo : Option String
  tags : Option (List String)
  suggestionText : Option String
  estimatedResolutionDate : Option DateInput
  actualResolutionDate : Option DateInput
  updatedAt : Option DateInput
  deriving DecidableEq, Repr

/-- The libraries and the process environment the program calls into.

* `jwtVerify token ignoreExpiration now` is `jwt.verify(token, JWT_SECRET, ..)`.
  Only `jwt.sign` of this program produces tokens that verify, so the decoded
  `adminId` is an object id.
* `jwtSign claims now` is `jwt.sign(claims, JWT_SECRET, { expiresIn })`.
* `bcryptCompare candidate hash` is `bcrypt.compare`; `bcryptHash rounds
  plaintext` is `bcrypt.hash(plaintext, await bcrypt.genSalt(rounds))`.
* `bcryptRounds` is `parseInt(process.env.BCRYPT_ROUNDS)`, `none` when that is
  `NaN` (the variable is unset or not a number).
* `loginFieldsValid` is the express-validator chain `validateAdminLogin`
  (`none`: validation failed), with its sanitizers applied.
* `adminFieldsValid` is the part of `validateAdminData` other than `role`.
* `suggestionFieldsValid` is the part of `validateSuggestionUpdate` other than
  `status`.
* `schemaValid` are the validators of `adminSchema` run by `save`;
  `adminUpdateValid` and `suggestionUpdateValid` are the casts and validators
  run by `findByIdAndUpdate` with `runValidators`.
* `writesDefaults` says whether `save` writes back a schema default that was
  applied to an absent path when the document was loaded. -/
structure Env where
  jwtVerify : String → Bool → Nat → JwtResult
  jwtSign : Claims → Nat → String
  bcryptCompare : String → String → Bool
  bcryptHash : Int → String → String
  bcryptRounds : Option Int
  loginFieldsValid : LoginBody → Option LoginBody
  adminFieldsValid : AdminBody → Option AdminBody
  suggestionFieldsValid : SuggestionBody → Option SuggestionBody
  schemaValid : Admin → Bool
  adminUpdateValid : AdminBody → Bool
  suggestionUpdateValid : SuggestionBody → Bool
  writesDefaults : Bool

/-! ## Saving an account -/

/-- The cost `parseInt(process.env.BCRYPT_ROUNDS) || 12` of the password hook. -/
def saltRounds (env : Env) : Int :=
  match env.bcryptRounds with
  | some n => if n = 0 then 12 else n
  | none => 12

/-- The two `pre('save')` hooks of `adminSchema`, in the order of their
registration; `none` is the error passed to `next`. -/
def preSave (env : Env) (passwordModified : Bool) (doc : Admin) : Option Admin :=
  let doc1 :=
    if passwordModified then { doc with password := doc.password.map (env.bcryptHash (saltRounds env)) }
    else doc
  if (truthy doc1.firstName).isNone && (truthy doc1.lastName).isNone then none
  else
    some { doc1 with
      firstName := if (truthy doc1.firstName).isSome then doc1.firstName.map normalizeName else doc1.firstName
      lastName := if (truthy doc1.lastName).isSome then doc1.lastName.map normalizeName else doc1.lastName
      status := if doc1.isActive then "active" else "inactive" }

/-- The method `save` of a document `doc` that was loaded from the store and
then assigned `lastLogin` or `password`: validation, hooks, and the write of
the modified paths.  The paths `loginAttempts` and `lockUntil` are not
assigned by any caller, so the stored values stay, except for a default
written back.  The result is the document after the hooks and the new store;
`none` is a rejected save. -/
def saveLoaded (env : Env) (db : List Admin) (doc : Admin) (passwordModified : Bool) :
    Option (Admin × List Admin) :=
  if !env.schemaValid doc then none
  else
    match preSave env passwordModified doc with
    | none => none
    | some doc1 =>
      some (doc1, updateById db doc._id (fun d =>
        { d with
          password := if passwordModified then doc1.password else d.password
          lastLogin := doc1.lastLogin
          firstName := doc1.firstName
          lastName := doc1.lastName
          status := doc1.status
          loginAttempts :=
            if env.writesDefaults && doc.loginAttempts.isNone then some 0 else d.loginAttempts }))

/-! ## Responses -/

/-- The account summary returned by the session routes. -/
structure AdminSummary where
  id : ObjectId
  email : String
  role : String
  firstName : Option String
  lastName : Option String
  fullName : String
  permissions : Permissions
  deriving DecidableEq, Repr

/-- The summary `{ id, email, role, firstName, lastName, fullName, permissions }`. -/
def Admin.summary (a : Admin) : AdminSummary :=
  { id := a._id
    email := a.email
    role := a.role
    firstName := a.firstName
    lastName := a.lastName
    fullName := a.fullName
    permissions := a.permissions }

/-- A document of the `Suggestion` collection. -/
structure Suggestion where
  _id : ObjectId
  category : ObjectId
  subcategory : ObjectId
  suggestionText : String
  status : String
  reply : String
  priority : String
  tags : List String
  assignedTo : Option String
  estimatedResolutionDate : Option Nat
  actualResolutionDate : Option Nat
  createdAt : Nat
  updatedAt : Nat
  deriving DecidableEq, Repr

/-- The `pagination` object of the answer of `GET /suggestions`. -/
structure Pagination where
  currentPage : Nat
  totalPages : Nat
  totalItems : Nat
  itemsPerPage : Nat
  hasNextPage : Bool
  hasPrevPage : Bool
  deriving DecidableEq, Repr

/-- An HTTP response: the status and the parts of the JSON body. -/
structure Response where
  status : Nat
  error : Option String := none
  message : Option String := none
  success : Bool := false
  valid : Bool := false
  token : Option String := none
  admin : Option AdminSummary := none
  lastLogin : Option Nat := none
  adminDoc : Option Admin := none
  admins : List Admin := []
  suggestion : Option Suggestion := none
  suggestions : List Suggestion := []
  pagination : Option Pagination := none
  deriving DecidableEq, Repr

/-- `res.status(code).json({ error })`. -/
def fail (code : Nat) (msg : String) : Response :=
  { status := code, error := some msg }

/-! ## Session routes (`src/routes/auth.js`) -/

/-- The body of `POST /login` after `sanitizeInputs` (the path `/login` is not
exempt). -/
def sanitizeLoginBody (b : LoginBody) : LoginBody :=
  if sanitizeSkipped "/login" "POST" then b
  else { email := sanitize b.email, password := sanitize b.password }

/-- The handler of `POST /login`. -/
def loginHandler (env : Env) (db : List Admin) (now : Nat) (b : LoginBody) :
    Response × List Admin :=
  match findByEmailForLogin db b.email with
  | none => (fail 401 "Invalid credentials", db)
  | some admin =>
    if admin.isLocked now then
      (fail 423 "Account is temporarily locked due to multiple failed login attempts. Please try again later.", db)
    else if !admin.isActive then (fail 401 "Account is deactivated", db)
    else
      match admin.password with
      | none => (fail 500 "Login failed. Please try again.", db)
      | some hash =>
        if !env.bcryptCompare b.password hash then
          (fail 401 "Invalid credentials", incLoginAttempts db admin now)
        else
          let db1 := resetLoginAttempts db admin
          match saveLoaded env db1 { admin with lastLogin := some now } false with
          | none => (fail 500 "Login failed. Please try again.", db1)
          | some (doc, db2) =>
            ({ status := 200
               success := true
               message := some "Login successful"
               token := some (env.jwtSign { adminId := doc._id, email := doc.email, role := doc.role } now)
               admin := some doc.summary }, db2)

/-- The route `POST /login`: `sanitizeInputs`, `validateAdminLogin`, handler. -/
def postLogin (env : Env) (db : List Admin) (now : Nat) (b : LoginBody) :
    Response × List Admin :=
  match env.loginFieldsValid (sanitizeLoginBody b) with
  | none => (fail 400 "Validation failed", db)
  | some b1 => loginHandler env db now b1

/-- The check `!admin || !admin.isActive || admin.isLocked` on the result of
`findById(..).select('-password')`: the live account when it passes. -/
def liveAccount (db : List Admin) (now : Nat) (id : ObjectId) : Option Admin :=
  match (findById db id).map Admin.withoutPassword with
  | none => none
  | some admin => if !admin.isActive || admin.isLocked now then none else some admin

/-- The route `POST /verify`. -/
def postVerify (env : Env) (db : List Admin) (now : Nat) (token : Option String) : Response :=
  match truthy token with
  | none => fail 400 "Token is required"
  | some t =>
    match env.jwtVerify t false now with
    | .thrown .JsonWebTokenError => fail 401 "Invalid token"
    | .thrown .TokenExpiredError => fail 401 "Token expired"
    | .thrown _ => fail 500 "Token verification failed"
    | .decoded c =>
      match liveAccount db now c.adminId with
      | none => fail 401 "Invalid or expired token"
      | some admin => { status := 200, valid := true, admin := some admin.summary }

/-- The route `POST /refresh`. -/
def postRefresh (env : Env) (db : List Admin) (now : Nat) (token : Option String) : Response :=
  match truthy token with
  | none => fail 400 "Token is required"
  | some t =>
    match env.jwtVerify t true now with
    | .thrown _ => fail 500 "Token refresh failed"
    | .decoded c =>
      match liveAccount db now c.adminId with
      | none => fail 401 "Invalid token"
      | some admin =>
        { status := 200
          success := true
          token := some (env.jwtSign { adminId := admin._id, email := admin.email, role := admin.role } now)
          admin := some admin.summary }

/-- The body of `POST /change-password`. -/
structure ChangePasswordBody where
  token : Option String
  currentPassword : Option String
  newPassword : Option String
  deriving DecidableEq, Repr

/-- The body of `POST /change-password` after `sanitizeInputs` (the path is
not exempt). -/
def sanitizeChangePasswordBody (b : ChangePasswordBody) : ChangePasswordBody :=
  if sanitizeSkipped "/change-password" "POST" then b
  else
    { token := b.token.map sanitize
      currentPassword := b.currentPassword.map sanitize
      newPassword := b.newPassword.map sanitize }

/-- The handler of `POST /change-password`. -/
def changePasswordHandler (env : Env) (db : List Admin) (now : Nat) (b : ChangePasswordBody) :
    Response × List Admin :=
  match truthy b.token, truthy b.currentPassword, truthy b.newPassword with
  | some t, some currentPassword, some newPassword =>
    match env.jwtVerify t false now with
    | .thrown .JsonWebTokenError => (fail 401 "Invalid token", db)
    | .thrown _ => (fail 500 "Password change failed", db)
    | .decoded c =>
      match findById db c.adminId with
      | none => (fail 401 "Invalid token", db)
      | some admin =>
        match admin.password with
        | none => (fail 500 "Password change failed", db)
        | some hash =>
          if !env.bcryptCompare currentPassword hash then
            (fail 400 "Current password is incorrect", db)
          else if jsLength newPassword < 8 then
            (fail 400 "New password must be at least 8 characters long", db)
          else
            match saveLoaded env db { admin with password := some newPassword }
                (decide (newPassword ≠ hash)) with
            | none => (fail 500 "Password change failed", db)
            | some (_, db1) =>
              ({ status := 200, success := true, message := some "Password changed successfully" }, db1)
  | _, _, _ => (fail 400 "All fields are required", db)

/-- The route `POST /change-password`: `sanitizeInputs`, handler. -/
def postChangePassword (env : Env) (db : List Admin) (now : Nat) (b : ChangePasswordBody) :
    Response × List Admin :=
  changePasswordHandler env db now (sanitizeChangePasswordBody b)

/-- The route `GET /profile`. -/
def getProfile (env : Env) (db : List Admin) (now : Nat) (token : Option String) : Response :=
  match truthy token with
  | none => fail 400 "Token is required"
  | some t =>
    match env.jwtVerify t false now with
    | .thrown .JsonWebTokenError => fail 401 "Invalid token"
    | .thrown _ => fail 500 "Profile retrieval failed"
    | .decoded c =>
      match liveAccount db now c.adminId with
      | none => fail 401 "Invalid token"
      | some admin => { status := 200, admin := some admin.summary, lastLogin := admin.lastLogin }

/-! ## Authorization middleware (`src/middleware/auth.js`) -/

/-- A request to the admin router: the `Authorization` header, the route
parameter `id`, the body, and the account attached by `authenticateToken`. -/
structure Req (β : Type) where
  authorization : Option String
  id : String
  body : β
  admin : Option Admin := none

/-- What a middleware does: call `next()` on the request, or answer. -/
inductive Step (β : Type)
  | next (req : Req β)
  | respond (r : Response)

/-- The token `authHeader && authHeader.split(' ')[1]`, when truthy. -/
def bearerToken (authHeader : Option String) : Option String :=
  match truthy authHeader with
  | none => none
  | some h => truthy ((splitOnSpace [] h.data)[1]?.map String.mk)

/-- The middleware `authenticateToken`. -/
def authenticateToken {β : Type} (env : Env) (db : List Admin) (now : Nat) (req : Req β) : Step β :=
  match bearerToken req.authorization with
  | none => .respond (fail 401 "Access token required")
  | some t =>
    match env.jwtVerify t false now with
    | .thrown .JsonWebTokenError => .respond (fail 401 "Invalid token")
    | .thrown .TokenExpiredError => .respond (fail 401 "Token expired")
    | .thrown _ => .respond (fail 500 "Authentication error")
    | .decoded c =>
      match (findById db c.adminId).map Admin.withoutPassword with
      | none => .respond (fail 401 "Invalid token - admin not found")
      | some admin =>
        if !admin.isActive then .respond (fail 401 "Account is deactivated")
        else if admin.isLocked now then .respond (fail 401 "Account is temporarily locked")
        else .next { req with admin := some admin }

/-- The middleware `requirePermission(permission)`. -/
def requirePermission {β : Type} (permission : Permission) (req : Req β) : Step β :=
  match req.admin with
  | none => .respond (fail 401 "Authentication required")
  | some admin =>
    if !admin.permissions.get permission then .respond (fail 403 "Insufficient permissions")
    else .next req

/-- The middleware `requireRole(roles)`; a single role is passed as the list
of that role (`Array.isArray(roles) ? roles : [roles]`). -/
def requireRole {β : Type} (roles : List String) (req : Req β) : Step β :=
  match req.admin with
  | none => .respond (fail 401 "Authentication required")
  | some admin =>
    if !roles.contains admin.role then .respond (fail 403 "Insufficient role permissions")
    else .next req

/-- The middleware `canManageAdmins`. -/
def canManageAdmins {β : Type} (req : Req β) : Step β :=
  match req.admin with
  | none => .respond (fail 401 "Authentication required")
  | some admin =>
    if admin.role ≠ "COO" then
      .respond (fail 403 "Only COO (Chief Operating Officer) can manage admin accounts")
    else .next req

/-- The middleware `canDeleteSuggestions`. -/
def canDeleteSuggestions {β : Type} (req : Req β) : Step β :=
  match req.admin with
  | none => .respond (fail 401 "Authentication required")
  | some admin =>
    if !admin.permissions.deleteSuggestions then
      .respond (fail 403 "Insufficient permissions to delete suggestions")
    else .next req

/-- The middleware `logAdminAction(action)`. -/
def logAdminAction {β : Type} (req : Req β) : Step β :=
  .next req

/-- Run the rest of a route after a middleware: its answer ends the request
and leaves the store `st` as it is. -/
def Step.andThen {β σ : Type} (s : Step β) (st : σ) (k : Req β → Response × σ) : Response × σ :=
  match s with
  | .respond r => (r, st)
  | .next req => k req

/-! ## Validation middleware (`src/middleware/validation.js`) -/

/-- The values accepted for `role` by `validateAdminData` and `adminSchema`. -/
def roles : List String := ["HR", "CEO", "COO", "CTO", "CFO", "CCO", "CPO"]

/-- The values accepted for `status` by `validateSuggestionUpdate`. -/
def statuses : List String := ["Pending", "Reviewed", "Resolved", "Escalated"]

/-- The chain `validateAdminData`; `body('role').trim().isIn([...])` is not
optional, so an absent role is validated as the empty string. -/
def validateAdminData (env : Env) (req : Req AdminBody) : Step AdminBody :=
  match env.adminFieldsValid req.body with
  | none => .respond (fail 400 "Validation failed")
  | some b1 =>
    if roles.contains (trim (b1.role.getD "")) then
      .next { req with body := { b1 with role := some (trim (b1.role.getD "")) } }
    else .respond (fail 400 "Validation failed")

/-- The chain `validateSuggestionUpdate`; `status` is optional. -/
def validateSuggestionUpdate (env : Env) (req : Req SuggestionBody) : Step SuggestionBody :=
  match env.suggestionFieldsValid req.body with
  | none => .respond (fail 400 "Validation failed")
  | some b1 =>
    match b1.status with
    | none => .next { req with body := b1 }
    | some st =>
      if statuses.contains st then .next { req with body := b1 }
      else .respond (fail 400 "Validation failed")

/-- The middleware `validateSuggestionUpdateBusinessLogic`: it only collects
recommendations and always calls `next()`. -/
def validateSuggestionUpdateBusinessLogic (req : Req SuggestionBody) : Step SuggestionBody :=
  .next req

/-- The strings of an account body after `sanitize`. -/
def sanitizeAdminBody (b : AdminBody) : AdminBody :=
  { b with
    email := b.email.map sanitize
    password := b.password.map sanitize
    role := b.role.map sanitize
    firstName := b.firstName.map sanitize
    lastName := b.lastName.map sanitize
    status := b.status.map sanitize }

/-- The middleware `sanitizeInputs` on an account route with the given path
and method. -/
def sanitizeInputs (path method : String) (req : Req AdminBody) : Step AdminBody :=
  if sanitizeSkipped path method then .next req
  else .next { req with body := sanitizeAdminBody req.body, id := sanitize req.id }

/-! ## Suggestion and account routes (`src/routes/admin.js`) -/

/-- `Suggestion.findById`. -/
def findSuggestionById (sdb : List Suggestion) (id : ObjectId) : Option Suggestion :=
  sdb.find? (fun d => decide (d._id = id))

/-- The `$set` of the paths of an update on a stored suggestion, with the
`trim` setters of the schema. -/
def applySuggestionUpdate (u : SuggestionBody) (d : Suggestion) : Suggestion :=
  { d with
    status := u.status.getD d.status
    reply := (u.reply.map trim).getD d.reply
    priority := u.priority.getD d.priority
    assignedTo := match u.assignedTo with | some v => some (trim v) | none => d.assignedTo
    tags := (u.tags.map (fun ts => ts.map trim)).getD d.tags
    suggestionText := (u.suggestionText.map trim).getD d.suggestionText
    estimatedResolutionDate :=
      match u.estimatedResolutionDate with | some v => v.stored | none => d.estimatedResolutionDate
    actualResolutionDate :=
      match u.actualResolutionDate with | some v => v.stored | none => d.actualResolutionDate
    updatedAt := match u.updatedAt with | some (.date t) => t | _ => d.updatedAt }

/-- The update document the handler of `PUT /suggestions/:id` builds from the
body: `updatedAt`, and `actualResolutionDate` when `status` is `Resolved` and
the body has no truthy `actualResolutionDate`. -/
def suggestionUpdateData (now : Nat) (body : SuggestionBody) : SuggestionBody :=
  let u := { body with updatedAt := some (.date now) }
  if decide (u.status = some "Resolved") && !DateInput.isTruthy u.actualResolutionDate then
    { u with actualResolutionDate := some (.date now) }
  else u

/-- The inline middleware of `PUT /suggestions/:id` that fetches the original
suggestion. -/
def fetchOriginalSuggestion (sdb : List Suggestion) (req : Req SuggestionBody) :
    Step SuggestionBody :=
  match castObjectId req.id with
  | none => .respond (fail 500 "Failed to fetch suggestion for validation")
  | some oid =>
    match findSuggestionById sdb oid with
    | none => .respond (fail 404 "Suggestion not found")
    | some _ => .next req

/-- The handler of `PUT /suggestions/:id`. -/
def putSuggestionHandler (env : Env) (sdb : List Suggestion) (now : Nat)
    (req : Req SuggestionBody) : Response × List Suggestion :=
  let updateData := suggestionUpdateData now req.body
  match castObjectId req.id with
  | none => (fail 500 "Failed to update suggestion", sdb)
  | some oid =>
    if !env.suggestionUpdateValid updateData then (fail 500 "Failed to update suggestion", sdb)
    else
      match findSuggestionById sdb oid with
      | none => (fail 404 "Suggestion not found", sdb)
      | some d =>
        ({ status := 200
           success := true
           message := some "Suggestion updated successfully"
           suggestion := some (applySuggestionUpdate updateData d) },
         sdb.map (fun x => if x._id = oid then applySuggestionUpdate updateData x else x))

/-- The route `PUT /suggestions/:id` of the admin router, behind
`router.use(authenticateToken)`. -/
def putSuggestion (env : Env) (db : List Admin) (sdb : List Suggestion) (now : Nat)
    (req : Req SuggestionBody) : Response × List Suggestion :=
  (authenticateToken env db now req).andThen sdb fun req =>
  (requirePermission .editSuggestions req).andThen sdb fun req =>
  (validateSuggestionUpdate env req).andThen sdb fun req =>
  (fetchOriginalSuggestion sdb req).andThen sdb fun req =>
  (validateSuggestionUpdateBusinessLogic req).andThen sdb fun req =>
  (logAdminAction req).andThen sdb fun req =>
  putSuggestionHandler env sdb now req

/-- The handler of `GET /admins` (the order of the list is not modelled). -/
def getAdminsHandler (db : List Admin) : Response × List Admin :=
  ({ status := 200, admins := db.map Admin.withoutPassword }, db)

/-- The route `GET /admins`. -/
def getAdmins (env : Env) (db : List Admin) (now : Nat) (req : Req Unit) : Response × List Admin :=
  (authenticateToken env db now req).andThen db fun req =>
  (canManageAdmins req).andThen db fun _ =>
  getAdminsHandler db

/-- The permission set of a new or replaced `permissions` object: the value
sent, or the schema default. -/
def applyPermissions (p : PermissionsBody) : Permissions :=
  { viewSuggestions := p.viewSuggestions.getD defaultPermissions.viewSuggestions
    editSuggestions := p.editSuggestions.getD defaultPermissions.editSuggestions
    deleteSuggestions := p.deleteSuggestions.getD defaultPermissions.deleteSuggestions
    manageSuggestions := p.manageSuggestions.getD defaultPermissions.manageSuggestions
    manageAdmins := p.manageAdmins.getD defaultPermissions.manageAdmins
    exportData := p.exportData.getD defaultPermissions.exportData
    viewAnalytics := p.viewAnalytics.getD defaultPermissions.viewAnalytics }

/-- The document `new Admin({ email, password, role, firstName, lastName,
permissions })` with the setters and defaults of the schema. -/
def newAdmin (id : ObjectId) (b : AdminBody) : Admin :=
  { _id := id
    email := toLowerCase (trim (b.email.getD ""))
    password := b.password
    role := b.role.getD "HR"
    firstName := b.firstName.map trim
    lastName := b.lastName.map trim
    isActive := true
    status := "active"
    lastLogin := none
    loginAttempts := some 0
    lockUntil := none
    permissions := match b.permissions with | some p => applyPermissions p | none => defaultPermissions }

/-- The method `save` of a new document: validation (with the required
password), hooks, and the insert under the unique index on `email`. -/
def saveNew (env : Env) (db : List Admin) (doc : Admin) : Option (Admin × List Admin) :=
  if !env.schemaValid doc || doc.password.isNone then none
  else
    match preSave env true doc with
    | none => none
    | some doc1 =>
      if db.any (fun d => decide (d.email = doc1.email)) then none
      else some (doc1, db ++ [doc1])

/-- The handler of `POST /admins`; `newId` is the id generated for the new
document. -/
def postAdminsHandler (env : Env) (db : List Admin) (newId : ObjectId) (req : Req AdminBody) :
    Response × List Admin :=
  match req.body.email with
  | none => (fail 500 "Failed to create admin", db)
  | some email =>
    match findByEmail db email with
    | some _ => (fail 400 "Admin with this email already exists", db)
    | none =>
      match saveNew env db (newAdmin newId req.body) with
      | none => (fail 500 "Failed to create admin", db)
      | some (doc, db1) =>
        ({ status := 201
           success := true
           message := some "Admin created successfully"
           adminDoc := some doc.withoutPassword }, db1)

/-- The route `POST /admins`. -/
def postAdmins (env : Env) (db : List Admin) (now : Nat) (newId : ObjectId)
    (req : Req AdminBody) : Response × List Admin :=
  (authenticateToken env db now req).andThen db fun req =>
  (canManageAdmins req).andThen db fun req =>
  (sanitizeInputs "/admins" "POST" req).andThen db fun req =>
  (validateAdminData env req).andThen db fun req =>
  (logAdminAction req).andThen db fun req =>
  postAdminsHandler env db newId req

/-- The `$set` of the paths of an update on a stored account, with the setters
of the schema; no save hook runs. -/
def applyAdminUpdate (u : AdminBody) (d : Admin) : Admin :=
  { d with
    email := (u.email.map (fun e => toLowerCase (trim e))).getD d.email
    password := match u.password with | some v => some v | none => d.password
    role := u.role.getD d.role
    firstName := match u.firstName with | some v => some (trim v) | none => d.firstName
    lastName := match u.lastName with | some v => some (trim v) | none => d.lastName
    isActive := u.isActive.getD d.isActive
    status := u.status.getD d.status
    lastLogin := match u.lastLogin with | some v => some v | none => d.lastLogin
    loginAttempts := match u.loginAttempts with | some v => some v | none => d.loginAttempts
    lockUntil := match u.lockUntil with | some v => some v | none => d.lockUntil
    permissions := match u.permissions with | some p => applyPermissions p | none => d.permissions }

/-- `Admin.findByIdAndUpdate(id, update, ..)` on the store: the cast of the
id, the validators and the unique index on `email` can reject (`none`); a
missing document is `some none`. -/
def findByIdAndUpdate (db : List Admin) (id : String) (valid : Bool) (f : Admin → Admin) :
    Option (Option (Admin × List Admin)) :=
  match castObjectId id with
  | none => none
  | some oid =>
    if !valid then none
    else
      match findById db oid with
      | none => some none
      | some d =>
        if db.any (fun x => decide (x._id ≠ oid) && decide (x.email = (f d).email)) then none
        else some (some (f d, updateById db oid f))

/-- The handler of `PUT /admins/:id`. -/
def putAdminHandler (env : Env) (db : List Admin) (req : Req AdminBody) : Response × List Admin :=
  match req.admin with
  | none => (fail 500 "Failed to update admin", db)
  | some me =>
    if decide (me._id.toString = req.id) && (truthy req.body.role).isSome then
      (fail 400 "You cannot change your own role", db)
    else
      match findByIdAndUpdate db req.id (env.adminUpdateValid req.body) (applyAdminUpdate req.body) with
      | none => (fail 500 "Failed to update admin", db)
      | some none => (fail 404 "Admin not found", db)
      | some (some (doc, db1)) =>
        ({ status := 200
           success := true
           message := some "Admin updated successfully"
           adminDoc := some doc.withoutPassword }, db1)

/-- The route `PUT /admins/:id`. -/
def putAdmin (env : Env) (db : List Admin) (now : Nat) (req : Req AdminBody) :
    Response × List Admin :=
  (authenticateToken env db now req).andThen db fun req =>
  (canManageAdmins req).andThen db fun req =>
  (sanitizeInputs ("/admins/" ++ req.id) "PUT" req).andThen db fun req =>
  (validateAdminData env req).andThen db fun req =>
  (logAdminAction req).andThen db fun req =>
  putAdminHandler env db req

/-- The handler of `PATCH /admins/:id/status`; the body is `{ isActive }`,
`none` when the body does not have it. -/
def patchAdminStatusHandler (db : List Admin) (req : Req (Option Bool)) : Response × List Admin :=
  match req.admin with
  | none => (fail 500 "Failed to update admin status", db)
  | some me =>
    if me._id.toString = req.id then (fail 400 "You cannot deactivate your own account", db)
    else
      match findByIdAndUpdate db req.id true
          (fun d => { d with isActive := req.body.getD d.isActive }) with
      | none => (fail 500 "Failed to update admin status", db)
      | some none => (fail 404 "Admin not found", db)
      | some (some (doc, db1)) =>
        ({ status := 200
           success := true
           message := some (if req.body = some true then "Admin activated successfully"
                            else "Admin deactivated successfully")
           adminDoc := some doc.withoutPassword }, db1)

/-- The route `PATCH /admins/:id/status`. -/
def patchAdminStatus (env : Env) (db : List Admin) (now : Nat) (req : Req (Option Bool)) :
    Response × List Admin :=
  (authenticateToken env db now req).andThen db fun req =>
  (canManageAdmins req).andThen db fun req =>
  (logAdminAction req).andThen db fun req =>
  patchAdminStatusHandler db req

/-! ## Categories (`src/models/Category.js`, `src/models/Subcategory.js`) -/

/-- A document of the `Category` collection. -/
structure Category where
  _id : ObjectId
  name : String
  isActive : Bool
  deriving DecidableEq, Repr

/-- A document of the `Subcategory` collection. -/
structure Subcategory where
  _id : ObjectId
  name : String
  category : ObjectId
  isActive : Bool
  deriving DecidableEq, Repr

/-- `Category.findOne({ name, isActive: true })`. -/
def findActiveCategory (cats : List Category) (name : String) : Option Category :=
  cats.find? (fun c => decide (c.name = name) && c.isActive)

/-- `Subcategory.findOne({ name, isActive: true })`. -/
def findActiveSubcategory (subs : List Subcategory) (name : String) : Option Subcategory :=
  subs.find? (fun c => decide (c.name = name) && c.isActive)

/-- `Subcategory.findOne({ name, category, isActive: true })`. -/
def findActiveSubcategoryOf (subs : List Subcategory) (name : String) (category : ObjectId) :
    Option Subcategory :=
  subs.find? (fun c => decide (c.name = name) && decide (c.category = category) && c.isActive)

/-! ## The suggestion query engine (`GET /suggestions`, `POST /export`) -/

/-- The body of `POST /submit` of the suggestions router. -/
structure SubmitBody where
  category : String
  subcategory : String
  suggestionText : String
  deriving DecidableEq, Repr

/-- The `filters` object of the body of `POST /export`. -/
structure ExportFilters where
  category : Option String
  subcategory : Option String
  status : Option String
  priority : Option String
  startDate : Option Nat
  endDate : Option Nat
  deriving DecidableEq, Repr

/-- The body of `POST /export`. -/
structure ExportBody where
  format : Option String
  filters : Option ExportFilters
  deriving DecidableEq, Repr

/-- What the suggestion routes call into, besides `Env`.

* `regexOther pattern` is MongoDB's `$regex` with `$options: 'i'` for a pattern
  that contains an operator other than `.` or a character outside ASCII:
  `none` when the pattern is not a valid regular expression (the query
  fails), else the test on a text.
* `sortSuggestions field descending docs` is the cursor method `sort`; the
  order among equal keys is MongoDB's.
* `submitFieldsValid` is the chain `validateSuggestionSubmission` and
  `exportFieldsValid` the chain `validateExportParams` (`none`: validation
  failed), with their sanitizers applied.
* `suggestionSchemaValid` are the validators of `suggestionSchema` run by
  `save`. -/
structure QueryEnv where
  regexOther : String → Option (String → Bool)
  sortSuggestions : String → Bool → List Suggestion → List Suggestion
  submitFieldsValid : SubmitBody → Option SubmitBody
  exportFieldsValid : ExportBody → Option ExportBody
  suggestionSchemaValid : Suggestion → Bool

/-- The characters that are operators in a regular expression:
`. * + ? ( ) [ ] { } | ^ $` and the backslash. -/
def isRegexOperator (c : Char) : Bool :=
  decide (c.toNat ∈ [46, 42, 43, 63, 40, 41, 91, 93, 123, 125, 124, 94, 36, 92])

/-- A pattern of ordinary characters and `.`, at the start of a text, the
letters A to Z compared without case: `.` stands for any character other than
a line feed. -/
def matchHere : List Char → List Char → Bool
  | [], _ => true
  | _ :: _, [] => false
  | p :: ps, t :: ts =>
    (if p = '.' then decide (t ≠ '\n') else decide (p.toLower = t.toLower)) && matchHere ps ts

/-- A pattern of ordinary characters and `.`, anywhere in a text (a regular
expression is not anchored). -/
def searchFrom (p : List Char) : List Char → Bool
  | [] => matchHere p []
  | t :: ts => matchHere p (t :: ts) || searchFrom p ts

/-- Whether a pattern is made of ASCII characters and has no operator other
than `.`. -/
def simplePattern (p : List Char) : Bool :=
  p.all (fun c => decide (c.toNat < 128) && (decide (c = '.') || !isRegexOperator c))

/-- Whether a search term is made of ASCII characters that are not operators
of regular expressions. -/
def plainTerm (p : List Char) : Bool :=
  p.all (fun c => decide (c.toNat < 128) && !isRegexOperator c)

/-- The test `{ $regex: pattern, $options: 'i' }`: the pattern is used as it
is, as a regular expression. -/
def regexI (qenv : QueryEnv) (pattern : String) : Option (String → Bool) :=
  if simplePattern pattern.data then some (fun text => searchFrom pattern.data text.data)
  else qenv.regexOther pattern

/-- The query of `GET /suggestions`: `page` and `limit` are the values of
`parseInt` (a value that is not a positive number is not modelled), the dates
the values of `new Date(..)`; a parameter is `none` when the query does not
have it. -/
structure ListQuery where
  page : Option Nat
  limit : Option Nat
  category : Option String
  subcategory : Option String
  status : Option String
  priority : Option String
  startDate : Option Nat
  endDate : Option Nat
  search : Option String
  sortBy : Option String
  sortOrder : Option String
  deriving DecidableEq, Repr

/-- A filter object after the cast of its values: the constraints on
`category`, `subcategory`, `status`, `priority` and `createdAt`, and the
pattern of the `$or` of the two `$regex` tests. -/
structure Filter where
  category : Option ObjectId
  subcategory : Option ObjectId
  status : Option String
  priority : Option String
  createdAtGte : Option Nat
  createdAtLte : Option Nat
  search : Option String
  deriving DecidableEq, Repr

/-- The filter object `POST /export` builds: `category` and `subcategory` hold
the values of the request. -/
structure RawFilter where
  category : Option String
  subcategory : Option String
  status : Option String
  priority : Option String
  createdAtGte : Option Nat
  createdAtLte : Option Nat
  deriving DecidableEq, Repr

/-- An equality constraint of a filter on a value. -/
def constraintHolds {α : Type} [DecidableEq α] (c : Option α) (v : α) : Bool :=
  match c with
  | none => true
  | some x => decide (v = x)

/-- Whether a suggestion satisfies a filter; `re` is the compiled pattern of
`search`. -/
def Filter.selects (f : Filter) (re : Option (String → Bool)) (s : Suggestion) : Bool :=
  constraintHolds f.category s.category
    && constraintHolds f.subcategory s.subcategory
    && constraintHolds f.status s.status
    && constraintHolds f.priority s.priority
    && (match f.createdAtGte with | some t => decide (t ≤ s.createdAt) | none => true)
    && (match f.createdAtLte with | some t => decide (s.createdAt ≤ t) | none => true)
    && (match re with | some test => test s.suggestionText || test s.reply | none => true)

/-- `Suggestion.find(filter)` and `Suggestion.countDocuments(filter)`: the
matching documents, `none` when the pattern of `search` is not valid. -/
def findSuggestions (qenv : QueryEnv) (f : Filter) (sdb : List Suggestion) :
    Option (List Suggestion) :=
  match f.search with
  | none => some (sdb.filter (f.selects none))
  | some pattern =>
    match regexI qenv pattern with
    | none => none
    | some test => some (sdb.filter (f.selects (some test)))

/-- The filter object the handler of `GET /suggestions` builds. -/
def listFilter (cats : List Category) (subs : List Subcategory) (q : ListQuery) : Filter :=
  { category :=
      match truthy q.category with
      | some name => (findActiveCategory cats name).map (fun c => c._id)
      | none => none
    subcategory :=
      match truthy q.subcategory with
      | some name => (findActiveSubcategory subs name).map (fun c => c._id)
      | none => none
    status := truthy q.status
    priority := truthy q.priority
    createdAtGte := q.startDate
    createdAtLte := q.endDate
    search := truthy q.search }

/-- `Math.ceil(total / limit)` on natural numbers, `limit` positive. -/
def ceilDiv (total limit : Nat) : Nat :=
  if total % limit = 0 then total / limit else total / limit + 1

/-- The handler of `GET /suggestions`. -/
def getSuggestionsHandler (qenv : QueryEnv) (cats : List Category) (subs : List Subcategory)
    (sdb : List Suggestion) (q : ListQuery) : Response :=
  let filter := listFilter cats subs q
  let page := q.page.getD 1
  let limit := q.limit.getD 20
  let skip := (page - 1) * limit
  match findSuggestions qenv filter sdb with
  | none => fail 500 "Failed to retrieve suggestions"
  | some matching =>
    let total := matching.length
    let totalPages := ceilDiv total limit
    { status := 200
      suggestions :=
        ((qenv.sortSuggestions (q.sortBy.getD "createdAt")
            (decide (q.sortOrder.getD "desc" = "desc")) matching).drop skip).take limit
      pagination := some
        { currentPage := page
          totalPages := totalPages
          totalItems := total
          itemsPerPage := limit
          hasNextPage := decide (page < totalPages)
          hasPrevPage := decide (page > 1) } }

/-- The route `GET /suggestions` of the admin router; the query of the request
is carried where a body is. -/
def getSuggestions (env : Env) (qenv : QueryEnv) (db : List Admin) (cats : List Category)
    (subs : List Subcategory) (sdb : List Suggestion) (now : Nat) (req : Req ListQuery) :
    Response :=
  ((authenticateToken env db now req).andThen () fun req =>
   (requirePermission .viewSuggestions req).andThen () fun req =>
   (getSuggestionsHandler qenv cats subs sdb req.body, ())).1

/-- The filter object the handler of `POST /export` builds from `filters`. -/
def exportFilter (filters : ExportFilters) : RawFilter :=
  { category := truthy filters.category
    subcategory := truthy filters.subcategory
    status := truthy filters.status
    priority := truthy filters.priority
    createdAtGte := filters.startDate
    createdAtLte := filters.endDate }

/-- The cast of the filter of `POST /export` against `suggestionSchema`: the
strings for `category` and `subcategory` are cast to object ids; `none` is a
`CastError`. -/
def castRawFilter (f : RawFilter) : Option Filter :=
  match f.category.map castObjectId, f.subcategory.map castObjectId with
  | some none, _ => none
  | _, some none => none
  | c, s =>
    some
      { category := c.bind id
        subcategory := s.bind id
        status := f.status
        priority := f.priority
        createdAtGte := f.createdAtGte
        createdAtLte := f.createdAtLte
        search := none }

/-- The `filters` of a body of `POST /export`, `{}` when absent. -/
def ExportBody.filtersOrEmpty (b : ExportBody) : ExportFilters :=
  b.filters.getD
    { category := none, subcategory := none, status := none, priority := none
      startDate := none, endDate := none }

/-- The handler of `POST /export`: the documents written to the file, newest
first (the encoding of the file is not modelled). -/
def postExportHandler (qenv : QueryEnv) (sdb : List Suggestion) (body : ExportBody) : Response :=
  match castRawFilter (exportFilter body.filtersOrEmpty) with
  | none => fail 500 "Failed to export suggestions"
  | some filter =>
    match findSuggestions qenv filter sdb with
    | none => fail 500 "Failed to export suggestions"
    | some matching =>
      { status := 200, suggestions := qenv.sortSuggestions "createdAt" true matching }

/-- The route `POST /export` of the admin router. -/
def postExport (env : Env) (qenv : QueryEnv) (db : List Admin) (sdb : List Suggestion)
    (now : Nat) (req : Req ExportBody) : Response :=
  ((authenticateToken env db now req).andThen () fun req =>
   (requirePermission .exportData req).andThen () fun req =>
   match qenv.exportFieldsValid req.body with
   | none => (fail 400 "Validation failed", ())
   | some body =>
     (logAdminAction { req with body := body }).andThen () fun req =>
     (postExportHandler qenv sdb req.body, ())).1

/-! ## Submitting a suggestion (`src/routes/suggestions.js`) -/

/-- The document `new Suggestion({ category, subcategory, suggestionText,
status: 'Pending', priority: 'Medium' })` with the setters and defaults of the
schema; `newId` is the generated id and `now` the time of the timestamps. -/
def newSuggestion (newId : ObjectId) (now : Nat) (category subcategory : ObjectId)
    (suggestionText : String) : Suggestion :=
  { _id := newId
    category := category
    subcategory := subcategory
    suggestionText := trim suggestionText
    status := "Pending"
    reply := ""
    priority := "Medium"
    tags := []
    assignedTo := none
    estimatedResolutionDate := none
    actualResolutionDate := none
    createdAt := now
    updatedAt := now }

/-- The `pre('save')` hook of `suggestionSchema`. -/
def suggestionPreSave (s : Suggestion) : Suggestion :=
  { s with
    suggestionText := if s.suggestionText = "" then s.suggestionText else normalizeName s.suggestionText
    reply := if s.reply = "" then s.reply else normalizeName s.reply }

/-- The handler of `POST /submit`. -/
def submitHandler (qenv : QueryEnv) (cats : List Category) (subs : List Subcategory)
    (sdb : List Suggestion) (now : Nat) (newId : ObjectId) (b : SubmitBody) :
    Response × List Suggestion :=
  match findActiveCategory cats b.category with
  | none => (fail 400 "Invalid category selected", sdb)
  | some categoryDoc =>
    match findActiveSubcategoryOf subs b.subcategory categoryDoc._id with
    | none => (fail 400 "Invalid subcategory selected", sdb)
    | some subcategoryDoc =>
      let suggestion := newSuggestion newId now categoryDoc._id subcategoryDoc._id b.suggestionText
      if !qenv.suggestionSchemaValid suggestion then
        (fail 500 "Failed to submit suggestion. Please try again.", sdb)
      else
        ({ status := 201
           success := true
           message := some "✅ Your suggestion has been submitted successfully." },
         sdb ++ [suggestionPreSave suggestion])

/-- The route `POST /submit`: `validateSuggestionSubmission`, handler. -/
def postSubmit (qenv : QueryEnv) (cats : List Category) (subs : List Subcategory)
    (sdb : List Suggestion) (now : Nat) (newId : ObjectId) (b : SubmitBody) :
    Response × List Suggestion :=
  match qenv.submitFieldsValid b with
  | none => (fail 400 "Validation failed", sdb)
  | some b1 => submitHandler qenv cats subs sdb now newId b1

/-! ## The default account (`createDefaultAdmin`) -/

/-- The static `createDefaultAdmin`; the arguments are `DEFAULT_ADMIN_EMAIL`
(taken to be set), `DEFAULT_ADMIN_PASSWORD` and `DEFAULT_ADMIN_ROLE` of the
process environment and the id generated for the new document.  An error is
logged and leaves the store as it is. -/
def createDefaultAdmin (env : Env) (db : List Admin) (newId : ObjectId)
    (email : String) (password role : Option String) : List Admin :=
  match findOneByEmail db email with
  | some _ => db
  | none =>
    match saveNew env db
        { _id := newId
          email := toLowerCase (trim email)
          password := password
          role := (truthy role).getD "COO"
          firstName := some "Admin"
          lastName := some "User"
          isActive := true
          status := "active"
          lastLogin := none
          loginAttempts := some 0
          lockUntil := none
          permissions :=
            { viewSuggestions := true
              editSuggestions := true
              deleteSuggestions := true
              manageSuggestions := true
              manageAdmins := true
              exportData := true
              viewAnalytics := true } } with
    | none => db
    | some p => p.2

/-! ## Chains of middleware -/

/-- Two middlewares in a row: the second runs when the first calls `next()`. -/
def Step.bind {β : Type} (s : Step β) (g : Req β → Step β) : Step β :=
  match s with
  | .respond r => .respond r
  | .next req => g req

/-- The answer of a chain of middleware, `none` when it calls `next()`. -/
def Step.answer {β : Type} : Step β → Option Response
  | .respond r => some r
  | .next _ => none

/-- The account a chain of middleware hands to the handler. -/
def Step.attached {β : Type} : Step β → Option Admin
  | .respond _ => none
  | .next req => req.admin

/-- Whether a text contains a term as a substring, the letters A to Z compared
without case. -/
def containsIgnoreCase (term text : String) : Bool :=
  includes (text.data.map Char.toLower) (term.data.map Char.toLower)

/-! ## Sequences of login requests -/

/-- A request to `POST /login` with the time at which it is served. -/
structure LoginReq where
  now : Nat
  body : LoginBody
  deriving DecidableEq, Repr

/-- The store after a sequence of login requests served one after the other. -/
def runLogins (env : Env) (db : List Admin) : List LoginReq → List Admin
  | [] => db
  | r :: rs => runLogins env (postLogin env db r.now r.body).2 rs

/-- The account a login request addresses, and the result of
`comparePassword` on it: the request passes the validators, its email finds
the account, and the account has a stored hash. -/
def loginAttempt (env : Env) (db : List Admin) (r : LoginReq) : Option (Admin × Bool) :=
  match env.loginFieldsValid (sanitizeLoginBody r.body) with
  | none => none
  | some b =>
    match findByEmailForLogin db b.email with
    | none => none
    | some a =>
      match a.password with
      | none => none
      | some hash => some (a, env.bcryptCompare b.password hash)

/-- The state of the account `i` after a reset: stored, counter 0 or absent,
no lock expiry. -/
def lockoutCleared (db : List Admin) (i : ObjectId) : Prop :=
  (∃ d, findById db i = some d) ∧
    ∀ d ∈ db, d._id = i → d.loginAttempts.getD 0 = 0 ∧ d.lockUntil = none

/-! ## Further middleware arguments and request sequences -/

/-- The argument of `requireRole`: an array of roles or a single role. -/
inductive RolesArg
  | many (roles : List String)
  | one (role : String)
  deriving DecidableEq, Repr

/-- `Array.isArray(roles) ? roles : [roles]`. -/
def allowedRoles : RolesArg → List String
  | .many roles => roles
  | .one role => [role]

/-- The property access `permissions[name]` on the `permissions` object of a
request body. -/
def PermissionsBody.get (p : PermissionsBody) : Permission → Option Bool
  | .viewSuggestions => p.viewSuggestions
  | .editSuggestions => p.editSuggestions
  | .deleteSuggestions => p.deleteSuggestions
  | .manageSuggestions => p.manageSuggestions
  | .manageAdmins => p.manageAdmins
  | .exportData => p.exportData
  | .viewAnalytics => p.viewAnalytics

/-- A request to `POST /admins` with the time at which it is served and the id
generated for the new document. -/
structure CreateReq where
  now : Nat
  newId : ObjectId
  req : Req AdminBody

/-- The store after a sequence of requests to `POST /admins` served one after
the other. -/
def runCreates (env : Env) (db : List Admin) : List CreateReq → List Admin
  | [] => db
  | c :: cs => runCreates env (postAdmins env db c.now c.newId c.req).2 cs

/-- The state of the emails of a collection as Mongoose stores them: every
email is in lower case and no two documents have the same email. -/
def emailsCanonical (db : List Admin) : Prop :=
  (∀ d ∈ db, toLowerCase d.email = d.email) ∧ (db.map (fun d => d.email)).Nodup

/-! ## The password chain of `validateAdminData` -/

/-- The characters `.` of a JavaScript regular expression does not match. -/
def isLineTerminator (c : Char) : Bool :=
  decide (c.toNat ∈ [10, 13, 8232, 8233])

/-- The class `[a-z]`. -/
def isLowerLetter (c : Char) : Bool :=
  decide (97 ≤ c.toNat) && decide (c.toNat ≤ 122)

/-- The class `[A-Z]`. -/
def isUpperLetter (c : Char) : Bool :=
  decide (65 ≤ c.toNat) && decide (c.toNat ≤ 90)

/-- The class `\d`. -/
def isDigitChar (c : Char) : Bool :=
  decide (48 ≤ c.toNat) && decide (c.toNat ≤ 57)

/-- The class `[@$!%*?&]`. -/
def isSpecialChar (c : Char) : Bool :=
  decide (c.toNat ∈ [64, 36, 33, 37, 42, 63, 38])

/-- The chain on `password` of `validateAdminData`, for a password that is
present: `isLength({ min: 8 })`, which counts code points, and the match of
`/^(?=.*[a-z])(?=.*[A-Z])(?=.*\d)(?=.*[@$!%*?&])[A-Za-z\d@$!%*?&]/`, which
asks for the four kinds of characters on the first line and for a first
character of the class; the characters after the first are not restricted. -/
def passwordValid (p : String) : Bool :=
  let line := p.data.takeWhile (fun c => !isLineTerminator c)
  decide (8 ≤ p.data.length)
    && line.any isLowerLetter && line.any isUpperLetter
    && line.any isDigitChar && line.any isSpecialChar
    && (match p.data with
        | c :: _ => isLowerLetter c || isUpperLetter c || isDigitChar c || isSpecialChar c
        | [] => false)

/-! ## Decoding of HTML entities (`src/scripts/cleanupHtmlEntities.js`) -/

/-- `replace(/pattern/g, replacement)` for a pattern of ordinary characters
that is not empty: the matches are replaced from left to right and do not
overlap.  The counter is the number of characters of the current match still
to be skipped. -/
def replaceLiteral (pattern replacement : List Char) : Nat → List Char → List Char
  | _, [] => []
  | skip + 1, _ :: cs => replaceLiteral pattern replacement skip cs
  | 0, c :: cs =>
    if pattern.isPrefixOf (c :: cs) then
      replacement ++ replaceLiteral pattern replacement (pattern.length - 1) cs
    else c :: replaceLiteral pattern replacement 0 cs

/-- The function `decodeHtmlEntities` on the characters of a string. -/
def decodeChars (text : List Char) : List Char :=
  replaceLiteral "&#x2F;".data ['/'] 0
    (replaceLiteral "&#x27;".data [Char.ofNat 39] 0
      (replaceLiteral "&quot;".data ['"'] 0
        (replaceLiteral "&gt;".data ['>'] 0
          (replaceLiteral "&lt;".data ['<'] 0
            (replaceLiteral "&amp;".data ['&'] 0 text)))))

/-- The function `decodeHtmlEntities`. -/
def decodeHtmlEntities (text : String) : String :=
  String.mk (decodeChars text.data)

/-- The six entities `decodeHtmlEntities` replaces. -/
def htmlEntities : List (List Char) :=
  ["&amp;".data, "&lt;".data, "&gt;".data, "&quot;".data, "&#x27;".data, "&#x2F;".data]

/-- Whether a text contains one of the six entities as a substring. -/
def hasEntity (text : List Char) : Bool :=
  htmlEntities.any (fun e => includes text e)

/-- The entity `sanitize` writes for a character. -/
def entityOf (c : Char) : List Char :=
  if c = '<' then "&lt;".data
  else if c = '>' then "&gt;".data
  else if c = '"' then "&quot;".data
  else if c = '/' then "&#x2F;".data
  else [c]

/-- Whether two texts differ at a position both have. -/
def clash : List Char → List Char → Bool
  | a :: as, b :: bs => a != b || clash as bs
  | _, _ => false

/-- A text in which the characters of `escaped` are written as entities. -/
def escapeChars (escaped : List Char) : List Char → List Char
  | [] => []
  | c :: cs => (if c ∈ escaped then entityOf c else [c]) ++ escapeChars escaped cs

/-! ## Sample data -/

/-- The claims of the sample tokens of the COO. -/
def sampleClaims : Claims :=
  { adminId := 171, email := "coo@x.io", role := "COO" }

/-- The claims of a sample token issued to the account of the COO when it had
another email and the role HR. -/
def staleClaims : Claims :=
  { adminId := 171, email := "ada@x.io", role := "HR" }

/-- A sample environment: the token `good` is valid, `old` is validly signed
and expired, `hr` is a valid token of the second account, `stale` is a valid
token with the outdated claims, any other token is not valid; the hash of `p`
with cost 12 is `$12$p`, and no cost is configured; an account body is valid
when its password, if present, passes the password chain of
`validateAdminData`. -/
def sampleEnv : Env :=
  { jwtVerify := fun t ignoreExpiration _ =>
      if t = "good" then .decoded sampleClaims
      else if t = "old" then
        (if ignoreExpiration then .decoded sampleClaims else .thrown .TokenExpiredError)
      else if t = "hr" then .decoded { adminId := 2, email := "hr@x.io", role := "HR" }
      else if t = "stale" then .decoded staleClaims
      else .thrown .JsonWebTokenError
    jwtSign := fun c _ => "signed:" ++ c.email
    bcryptCompare := fun p h => decide (h = "$12$" ++ p)
    bcryptHash := fun rounds p => (if rounds = 12 then "$12$" else "$other$") ++ p
    bcryptRounds := none
    loginFieldsValid := fun b => some b
    adminFieldsValid := fun b =>
      if (b.password.map passwordValid).getD true then some b else none
    suggestionFieldsValid := fun b => some b
    schemaValid := fun _ => true
    adminUpdateValid := fun _ => true
    suggestionUpdateValid := fun _ => true
    writesDefaults := true }

/-- A sample account with role COO, the id `0000000000000000000000ab` and
every permission. -/
def sampleCoo : Admin :=
  { _id := 171
    email := "coo@x.io"
    password := some "$12$Secret#12"
    role := "COO"
    firstName := some "Ada"
    lastName := some "Coo"
    isActive := true
    status := "active"
    lastLogin := none
    loginAttempts := some 0
    lockUntil := none
    permissions :=
      { viewSuggestions := true
        editSuggestions := true
        deleteSuggestions := true
        manageSuggestions := true
        manageAdmins := true
        exportData := true
        viewAnalytics := true } }

/-- A sample account with role HR, id 2 and the default permissions. -/
def sampleHr : Admin :=
  { sampleCoo with
    _id := 2, email := "hr@x.io", role := "HR", firstName := some "Bob"
    permissions := defaultPermissions }

/-- A sample store. -/
def sampleDb : List Admin := [sampleCoo, sampleHr]

/-- The sample COO with the default permissions, so without `editSuggestions`. -/
def sampleCooPlain : Admin :=
  { sampleCoo with permissions := defaultPermissions }

/-- A sample login request at time `t` with a wrong password. -/
def sampleBadLogin (t : Nat) : LoginReq :=
  { now := t, body := { email := "coo@x.io", password := "wrong" } }

/-- A sample login request at time `t` with the right password. -/
def sampleGoodLogin (t : Nat) : LoginReq :=
  { now := t, body := { email := "COO@x.io", password := "Secret#12" } }

/-- A sample suggestion that is pending and has no resolution date. -/
def samplePending : Suggestion :=
  { _id := 171
    category := 1
    subcategory := 2
    suggestionText := "Please repair the coffee machine"
    status := "Pending"
    reply := "Done"
    priority := "Medium"
    tags := []
    assignedTo := none
    estimatedResolutionDate := none
    actualResolutionDate := none
    createdAt := 1
    updatedAt := 1 }

/-- The sample suggestion after it was resolved at time 10. -/
def sampleResolved : Suggestion :=
  { _id := 171
    category := 1
    subcategory := 2
    suggestionText := "Please repair the coffee machine"
    status := "Resolved"
    reply := "Done"
    priority := "Medium"
    tags := []
    assignedTo := none
    estimatedResolutionDate := none
    actualResolutionDate := some 10
    createdAt := 1
    updatedAt := 10 }

/-- A body without any path. -/
def emptySuggestionBody : SuggestionBody :=
  { status := none
    reply := none
    priority := none
    assignedTo := none
    tags := none
    suggestionText := none
    estimatedResolutionDate := none
    actualResolutionDate := none
    updatedAt := none }

/-- A sample request of the COO to resolve the sample suggestion (again). -/
def sampleResolveReq : Req SuggestionBody :=
  { authorization := some "Bearer good"
    id := "0000000000000000000000ab"
    body := { emptySuggestionBody with status := some "Resolved" } }

/-- A sample request of the HR account to deactivate the COO. -/
def sampleHrStatusReq : Req (Option Bool) :=
  { authorization := some "Bearer hr"
    id := "0000000000000000000000ab"
    body := some false }

/-- A sample request of the COO to deactivate the account with the id
`0000000000000000000000AB`: the COO's own id, written in upper case. -/
def sampleSelfStatusReq : Req (Option Bool) :=
  { authorization := some "Bearer good"
    id := "0000000000000000000000AB"
    body := some false }

/-- A sample request of the COO to make the account with the id
`0000000000000000000000AB` an HR account. -/
def sampleSelfRoleReq : Req AdminBody :=
  { authorization := some "Bearer good"
    id := "0000000000000000000000AB"
    body :=
      { email := some "coo@x.io"
        password := none
        role := some "HR"
        firstName := some "Ada"
        lastName := some "Coo"
        permissions := none
        isActive := none
        status := none
        lastLogin := none
        loginAttempts := none
        lockUntil := none } }

/-- A sample body of `POST /change-password` with the expired sample token. -/
def sampleChangePassword : ChangePasswordBody :=
  { token := some "old", currentPassword := some "Secret#12", newPassword := some "NewSecret#34" }

/-- A sample store in which the COO is deactivated. -/
def sampleDbDeactivated : List Admin :=
  [{ sampleCoo with isActive := false, status := "inactive" }, sampleHr]

/-- A sample body of `POST /change-password` with the valid sample token of
the COO. -/
def sampleChangePasswordGood : ChangePasswordBody :=
  { token := some "good", currentPassword := some "Secret#12", newPassword := some "NewSecret#34" }

/-- A sample request of the COO to give the HR account a new password. -/
def samplePasswordUpdateReq : Req AdminBody :=
  { authorization := some "Bearer good"
    id := "000000000000000000000002"
    body :=
      { email := some "hr@x.io"
        password := some "NewSecret!34"
        role := some "HR"
        firstName := some "Bob"
        lastName := some "Coo"
        permissions := none
        isActive := none
        status := none
        lastLogin := none
        loginAttempts := none
        lockUntil := none } }

/-- A sample sort: by `createdAt` or `updatedAt`; another field leaves the
order. -/
def sampleSort (field : String) (descending : Bool) (docs : List Suggestion) : List Suggestion :=
  if field = "createdAt" then
    docs.insertionSort (fun a b => if descending then b.createdAt ≤ a.createdAt else a.createdAt ≤ b.createdAt)
  else if field = "updatedAt" then
    docs.insertionSort (fun a b => if descending then b.updatedAt ≤ a.updatedAt else a.updatedAt ≤ b.updatedAt)
  else docs

/-- A sample query environment: every pattern with an operator other than `.`
is rejected, every validator accepts. -/
def sampleQueryEnv : QueryEnv :=
  { regexOther := fun _ => none
    sortSuggestions := sampleSort
    submitFieldsValid := fun b => some b
    exportFieldsValid := fun b => some b
    suggestionSchemaValid := fun _ => true }

/-- Sample categories: `Workplace` is active, `Archive` is not. -/
def sampleCategories : List Category :=
  [{ _id := 1, name := "Workplace", isActive := true },
   { _id := 12, name := "Archive", isActive := false }]

/-- Sample subcategories: `Equipment` of `Workplace` is active, `Parking` of
`Workplace` is not, `Old` belongs to `Archive`. -/
def sampleSubcategories : List Subcategory :=
  [{ _id := 2, name := "Equipment", category := 1, isActive := true },
   { _id := 3, name := "Parking", category := 1, isActive := false },
   { _id := 13, name := "Old", category := 12, isActive := true }]

/-- Forty-five sample suggestions, created at the times 0 to 44. -/
def sampleSuggestions : List Suggestion :=
  (List.range 45).map (fun i => { samplePending with _id := 1000 + i, createdAt := i })

/-- A query with no parameter. -/
def emptyListQuery : ListQuery :=
  { page := none
    limit := none
    category := none
    subcategory := none
    status := none
    priority := none
    startDate := none
    endDate := none
    search := none
    sortBy := none
    sortOrder := none }

/-- A sample suggestion about a printer, of the archived category. -/
def samplePrinter : Suggestion :=
  { samplePending with
    _id := 7, category := 12, subcategory := 13
    suggestionText := "The abc printer is broken", reply := "" }

/-- A sample body of `POST /export` whose category filter is the id of the
archived category. -/
def sampleExportBody : ExportBody :=
  { format := none
    filters := some
      { category := some "00000000000000000000000c"
        subcategory := none
        status := none
        priority := none
        startDate := none
        endDate := none } }

/-- A sample submission under the active category and subcategory. -/
def sampleSubmit : SubmitBody :=
  { category := "Workplace", subcategory := "Equipment"
    suggestionText := "  Please repair   the coffee machine " }

/-- A sample request of the COO to export the suggestions filtered by the id
of the archived category. -/
def sampleExportReq : Req ExportBody :=
  { authorization := some "Bearer good", id := "", body := sampleExportBody }

/-- A sample request of the COO to create an account. -/
def sampleCreateReq : Req AdminBody :=
  { authorization := some "Bearer good"
    id := ""
    body :=
      { email := some "new@x.io"
        password := some "NewSecret!34"
        role := some "CTO"
        firstName := some "Eve"
        lastName := some "Cto"
        permissions := none
        isActive := none
        status := none
        lastLogin := none
        loginAttempts := none
        lockUntil := none } }

/-- The sample environment with the password chain of `validateAdminData`
stated as its validator of account bodies. -/
def sampleEnvStrict : Env :=
  { sampleEnv with
    adminFieldsValid := fun b =>
      if (b.password.map passwordValid).getD true then some b else none }

/-- A sample request of the COO to deactivate the HR account. -/
def sampleDeactivateHrReq : Req (Option Bool) :=
  { authorization := some "Bearer good"
    id := "000000000000000000000002"
    body := some false }

/-- A sample request of the COO to create an account whose password contains
a slash. -/
def sampleCreateSlashReq : Req AdminBody :=
  { sampleCreateReq with
    body := { sampleCreateReq.body with password := some "Abcdef1!/x" } }

/-- The login request with the email and the password of the account created
by `sampleCreateSlashReq`. -/
def sampleSlashLogin : LoginBody :=
  { email := "new@x.io", password := "Abcdef1!/x" }

/-- The sample store with the COO account locked until time 100. -/
def sampleDbLocked : List Admin :=
  [{ sampleCoo with loginAttempts := some 5, lockUntil := some 100 }, sampleHr]

/-- A sample request with the COO account attached. -/
def sampleCooAttachedReq : Req Unit :=
  { authorization := some "Bearer good", id := "", body := (), admin := some sampleCoo }

/-! ## Lemmas on the store -/

theorem findOneByEmail_updateById (db : List Admin) (i : ObjectId) (f : Admin → Admin) (e : String)
    (hf : ∀ d, (f d).email = d.email) :
    findOneByEmail (updateById db i f) e
      = (findOneByEmail db e).map (fun d => if d._id = i then f d else d) := by
  unfold findOneByEmail updateById
  rw [List.find?_map]
  congr 2
  funext d
  by_cases h : d._id = i <;> simp [h, hf]

theorem findById_updateById (db : List Admin) (i j : ObjectId) (f : Admin → Admin)
    (hf : ∀ d, (f d)._id = d._id) :
    findById (updateById db i f) j
      = (findById db j).map (fun d => if d._id = i then f d else d) := by
  unfold findById updateById
  rw [List.find?_map]
  congr 2
  funext d
  by_cases h : d._id = i <;> simp [h, hf]

theorem findById_updateById_isSome {db : List Admin} {i j : ObjectId} {f : Admin → Admin}
    (hf : ∀ d, (f d)._id = d._id) (h : ∃ d, findById db j = some d) :
    ∃ d, findById (updateById db i f) j = some d := by
  obtain ⟨d0, hd0⟩ := h
  rw [findById_updateById db i j f hf, hd0]
  exact ⟨_, rfl⟩

theorem findOneByEmail_mem {db : List Admin} {e : String} {a : Admin}
    (h : findOneByEmail db e = some a) : a ∈ db := by
  unfold findOneByEmail at h
  exact List.mem_of_find?_eq_some h

theorem findById_isSome_of_mem {db : List Admin} {a : Admin} (h : a ∈ db) :
    ∃ d, findById db a._id = some d := by
  unfold findById
  cases hfind : db.find? (fun d => decide (d._id = a._id)) with
  | some d => exact ⟨d, rfl⟩
  | none =>
    have := List.find?_eq_none.mp hfind a h
    simp at this

theorem loginAttempt_updateById (env : Env) (db : List Admin) (i : ObjectId) (f : Admin → Admin)
    (r : LoginReq) (he : ∀ d, (f d).email = d.email) (hp : ∀ d, (f d).password = d.password) :
    loginAttempt env (updateById db i f) r
      = (loginAttempt env db r).map (fun p => (if p.1._id = i then f p.1 else p.1, p.2)) := by
  unfold loginAttempt findByEmailForLogin
  cases env.loginFieldsValid (sanitizeLoginBody r.body) with
  | none => rfl
  | some b =>
    simp only [findOneByEmail_updateById db i f _ he]
    cases findOneByEmail db (toLowerCase b.email) with
    | none => rfl
    | some a =>
      by_cases h : a._id = i
      · simp only [Option.map_some', h, if_true, hp]
        cases a.password <;> simp [h]
      · simp only [Option.map_some', h, if_false]
        cases a.password <;> simp [h]

/-- A login request with a wrong password on an active, unlocked account is
answered 401 and sends the update of `incLoginAttempts`. -/
theorem postLogin_wrong (env : Env) (db : List Admin) (r : LoginReq) (a : Admin)
    (hatt : loginAttempt env db r = some (a, false))
    (hlock : a.isLocked r.now = false) (hact : a.isActive = true) :
    postLogin env db r.now r.body
      = (fail 401 "Invalid credentials", incLoginAttempts db a r.now) := by
  unfold loginAttempt at hatt
  unfold postLogin loginHandler
  cases hv : env.loginFieldsValid (sanitizeLoginBody r.body) with
  | none => simp [hv] at hatt
  | some b =>
    simp only [hv] at hatt ⊢
    cases hf : findByEmailForLogin db b.email with
    | none => simp [hf] at hatt
    | some a1 =>
      simp only [hf] at hatt ⊢
      cases hpw : a1.password with
      | none => simp [hpw] at hatt
      | some hash =>
        simp only [hpw, Option.some.injEq, Prod.mk.injEq] at hatt
        obtain ⟨rfl, hcmp⟩ := hatt
        simp [hlock, hact, hpw, hcmp]

/-- A login request on a locked account is answered 423 and changes nothing. -/
theorem postLogin_locked (env : Env) (db : List Admin) (r : LoginReq) (a : Admin) (ok : Bool)
    (hatt : loginAttempt env db r = some (a, ok)) (hlock : a.isLocked r.now = true) :
    postLogin env db r.now r.body
      = (fail 423 "Account is temporarily locked due to multiple failed login attempts. Please try again later.", db) := by
  unfold loginAttempt at hatt
  unfold postLogin loginHandler
  cases hv : env.loginFieldsValid (sanitizeLoginBody r.body) with
  | none => simp [hv] at hatt
  | some b =>
    simp only [hv] at hatt ⊢
    cases hf : findByEmailForLogin db b.email with
    | none => simp [hf] at hatt
    | some a1 =>
      simp only [hf] at hatt ⊢
      cases hpw : a1.password with
      | none => simp [hpw] at hatt
      | some hash =>
        simp only [hpw, Option.some.injEq, Prod.mk.injEq] at hatt
        obtain ⟨rfl, _⟩ := hatt
        simp [hlock]

theorem mem_updateById {db : List Admin} {i : ObjectId} {f : Admin → Admin} {d : Admin}
    (hd : d ∈ updateById db i f) (hi : d._id = i) :
    ∃ d0 ∈ db, d0._id = i ∧ d = f d0 := by
  unfold updateById at hd
  obtain ⟨d0, hmem, rfl⟩ := List.mem_map.mp hd
  by_cases h : d0._id = i
  · exact ⟨d0, hmem, h, by simp [h]⟩
  · simp only [h, if_false] at hi

theorem incLoginAttempts_below (db : List Admin) (a : Admin) (now : Nat)
    (hlock : a.lockUntil = none) (hlt : a.attempts + 1 < 5) :
    incLoginAttempts db a now
      = updateById db a._id (fun d => { d with loginAttempts := some (d.attempts + 1) }) := by
  unfold incLoginAttempts
  have h : ¬ (a.attempts + 1 ≥ 5) := by omega
  simp [hlock, h]

theorem incLoginAttempts_reach (db : List Admin) (a : Admin) (now : Nat)
    (hlock : a.lockUntil = none) (hge : 5 ≤ a.attempts + 1) :
    incLoginAttempts db a now
      = updateById db a._id (fun d =>
          { d with loginAttempts := some (d.attempts + 1), lockUntil := some (now + lockDuration) }) := by
  unfold incLoginAttempts
  simp [hlock, hge, Admin.isLocked]

theorem isLocked_of_lockUntil_none {a : Admin} (now : Nat) (h : a.lockUntil = none) :
    a.isLocked now = false := by
  simp [Admin.isLocked, h]

/-- Failed logins that keep the counter below five only count: every login
request that addressed the account before addresses the counted account after. -/
theorem runLogins_wrong (env : Env) : ∀ (rs : List LoginReq) (db : List Admin) (a : Admin),
    a.isActive = true → a.lockUntil = none → a.attempts + rs.length ≤ 4 →
    (∀ r ∈ rs, loginAttempt env db r = some (a, false)) →
    ∃ a1 : Admin, a1.isActive = true ∧ a1.lockUntil = none ∧
      a1.attempts = a.attempts + rs.length ∧
      ∀ r ok, loginAttempt env db r = some (a, ok) →
        loginAttempt env (runLogins env db rs) r = some (a1, ok) := by
  intro rs
  induction rs with
  | nil =>
    intro db a hact hlock _ _
    exact ⟨a, hact, hlock, by simp, fun r ok h => by simpa [runLogins] using h⟩
  | cons r rs ih =>
    intro db a hact hlock hlen hwrong
    simp only [List.length_cons] at hlen
    have hstep := postLogin_wrong env db r a (hwrong r (List.mem_cons_self _ _))
      (isLocked_of_lockUntil_none r.now hlock) hact
    rw [incLoginAttempts_below db a r.now hlock (by omega)] at hstep
    have htrans : ∀ q ok, loginAttempt env db q = some (a, ok) →
        loginAttempt env (postLogin env db r.now r.body).2 q
          = some ({ a with loginAttempts := some (a.attempts + 1) }, ok) := by
      intro q ok hq
      have hupd := loginAttempt_updateById env db a._id
        (fun d => { d with loginAttempts := some (d.attempts + 1) }) q (fun _ => rfl) (fun _ => rfl)
      rw [hstep]
      simp only
      rw [hupd, hq]
      simp
    obtain ⟨a1, h1, h2, h3, h4⟩ := ih (postLogin env db r.now r.body).2
      { a with loginAttempts := some (a.attempts + 1) } hact hlock
      (by simp only [Admin.attempts, Option.getD_some] at *; omega)
      (fun q hq => htrans q false (hwrong q (List.mem_cons_of_mem _ hq)))
    refine ⟨a1, h1, h2, ?_, ?_⟩
    · rw [h3]
      simp only [Admin.attempts, Option.getD_some, List.length_cons]
      omega
    · intro q ok hq
      simp only [runLogins]
      exact h4 q ok (htrans q ok hq)

/-- C1.  For every active account that starts with failed counter 0 and no
lock, after five consecutive login requests with a wrong password a sixth
login request served less than two hours after the fifth is answered with
status 423 and without a token, whether its password is correct or not, and
leaves the store as it is. -/
theorem login_locked_after_five_failures (env : Env) (db : List Admin) (a : Admin)
    (r1 r2 r3 r4 r5 r6 : LoginReq) (ok : Bool)
    (hact : a.isActive = true) (hcount : a.attempts = 0) (hlock : a.lockUntil = none)
    (hwrong : ∀ r ∈ [r1, r2, r3, r4, r5], loginAttempt env db r = some (a, false))
    (hsixth : loginAttempt env db r6 = some (a, ok))
    (htime : r6.now < r5.now + 2 * 60 * 60 * 1000) :
    (postLogin env (runLogins env db [r1, r2, r3, r4, r5]) r6.now r6.body).1.status = 423 ∧
    (postLogin env (runLogins env db [r1, r2, r3, r4, r5]) r6.now r6.body).1.token = none ∧
    (postLogin env (runLogins env db [r1, r2, r3, r4, r5]) r6.now r6.body).2
      = runLogins env db [r1, r2, r3, r4, r5] := by
  obtain ⟨a4, h1, h2, h3, h4⟩ := runLogins_wrong env [r1, r2, r3, r4] db a hact hlock
    (by simp [hcount]) (fun r hr => hwrong r (by simp at hr ⊢; tauto))
  have hrun : runLogins env db [r1, r2, r3, r4, r5]
      = (postLogin env (runLogins env db [r1, r2, r3, r4]) r5.now r5.body).2 := by
    simp [runLogins]
  have h5 := postLogin_wrong env (runLogins env db [r1, r2, r3, r4]) r5 a4
    (h4 r5 false (hwrong r5 (by simp))) (isLocked_of_lockUntil_none r5.now h2) h1
  rw [incLoginAttempts_reach _ a4 r5.now h2 (by rw [h3, hcount]; simp)] at h5
  have hupd := loginAttempt_updateById env (runLogins env db [r1, r2, r3, r4]) a4._id
    (fun d => { d with loginAttempts := some (d.attempts + 1),
                       lockUntil := some (r5.now + lockDuration) }) r6
    (fun _ => rfl) (fun _ => rfl)
  obtain ⟨a5, h6, hlocked⟩ : ∃ a5 : Admin,
      loginAttempt env (runLogins env db [r1, r2, r3, r4, r5]) r6 = some (a5, ok) ∧
      a5.isLocked r6.now = true := by
    refine ⟨({ a4 with loginAttempts := some (a4.attempts + 1),
                       lockUntil := some (r5.now + lockDuration) } : Admin), ?_, ?_⟩
    · rw [hrun, h5]
      simp only
      rw [hupd, h4 r6 ok hsixth]
      simp only [Option.map_some', if_true]
    · simp only [Admin.isLocked, lockDuration]
      exact decide_eq_true htime
  rw [postLogin_locked env _ r6 a5 ok h6 hlocked]
  exact ⟨rfl, rfl, rfl⟩

theorem loginAttempt_spec {env : Env} {db : List Admin} {r : LoginReq} {a : Admin} {ok : Bool}
    (hatt : loginAttempt env db r = some (a, ok)) :
    ∃ b hash, env.loginFieldsValid (sanitizeLoginBody r.body) = some b ∧
      findByEmailForLogin db b.email = some a ∧ a.password = some hash ∧
      env.bcryptCompare b.password hash = ok := by
  unfold loginAttempt at hatt
  cases hv : env.loginFieldsValid (sanitizeLoginBody r.body) with
  | none => simp [hv] at hatt
  | some b =>
    simp only [hv] at hatt
    cases hf : findByEmailForLogin db b.email with
    | none => simp [hf] at hatt
    | some a1 =>
      simp only [hf] at hatt
      cases hpw : a1.password with
      | none => simp [hpw] at hatt
      | some hash =>
        simp only [hpw, Option.some.injEq, Prod.mk.injEq] at hatt
        obtain ⟨rfl, hcmp⟩ := hatt
        exact ⟨b, hash, rfl, hf, hpw, hcmp⟩

/-- A login request with the right password on an active, unlocked account
resets the counters and then saves the last-login time. -/
theorem postLogin_right (env : Env) (db : List Admin) (r : LoginReq) (a : Admin)
    (hatt : loginAttempt env db r = some (a, true))
    (hlock : a.isLocked r.now = false) (hact : a.isActive = true) :
    (postLogin env db r.now r.body).2
      = match saveLoaded env (resetLoginAttempts db a) { a with lastLogin := some r.now } false with
        | none => resetLoginAttempts db a
        | some p => p.2 := by
  obtain ⟨b, hash, hv, hf, hpw, hcmp⟩ := loginAttempt_spec hatt
  unfold postLogin loginHandler
  simp only [hv, hf]
  generalize saveLoaded env (resetLoginAttempts db a) { a with lastLogin := some r.now } false = S
  simp only [hlock, hact, hpw, hcmp]
  cases S with
  | none => simp
  | some p => simp

theorem loginAttempt_mem {env : Env} {db : List Admin} {r : LoginReq} {a : Admin} {ok : Bool}
    (hatt : loginAttempt env db r = some (a, ok)) : a ∈ db := by
  unfold loginAttempt findByEmailForLogin at hatt
  cases hv : env.loginFieldsValid (sanitizeLoginBody r.body) with
  | none => simp [hv] at hatt
  | some b =>
    simp only [hv] at hatt
    cases hf : findOneByEmail db (toLowerCase b.email) with
    | none => simp [hf] at hatt
    | some a1 =>
      simp only [hf] at hatt
      cases hpw : a1.password with
      | none => simp [hpw] at hatt
      | some hash =>
        simp only [hpw, Option.some.injEq, Prod.mk.injEq] at hatt
        obtain ⟨rfl, _⟩ := hatt
        exact findOneByEmail_mem hf

/-- What `save` of a loaded document writes: an update of the stored document
that keeps `_id` and `lockUntil` and leaves `loginAttempts` or makes it 0. -/
theorem saveLoaded_store {env : Env} {db : List Admin} {doc : Admin} {pm : Bool}
    {p : Admin × List Admin} (h : saveLoaded env db doc pm = some p) :
    ∃ F : Admin → Admin, p.2 = updateById db doc._id F ∧
      ∀ d, (F d)._id = d._id ∧ (F d).lockUntil = d.lockUntil ∧
        ((F d).loginAttempts = d.loginAttempts ∨ (F d).loginAttempts = some 0) := by
  unfold saveLoaded at h
  by_cases hvalid : env.schemaValid doc = true
  · cases hpre : preSave env pm doc with
    | none => simp [hvalid, hpre] at h
    | some doc1 =>
      simp only [hvalid, hpre, Bool.not_true, Bool.false_eq_true, if_false, Option.some.injEq] at h
      subst h
      refine ⟨_, rfl, fun d => ⟨rfl, rfl, ?_⟩⟩
      simp only
      split
      · exact Or.inr rfl
      · exact Or.inl rfl
  · simp [hvalid] at h

theorem lockoutCleared_reset (db : List Admin) (a : Admin) (h : a ∈ db) :
    lockoutCleared (resetLoginAttempts db a) a._id := by
  unfold resetLoginAttempts
  refine ⟨findById_updateById_isSome (fun _ => rfl) (findById_isSome_of_mem h), ?_⟩
  intro d hd hid
  obtain ⟨x, _, _, rfl⟩ := mem_updateById hd hid
  exact ⟨rfl, rfl⟩

theorem lockoutCleared_update (db : List Admin) (i : ObjectId) (F : Admin → Admin)
    (hF : ∀ d, (F d)._id = d._id ∧ (F d).lockUntil = d.lockUntil ∧
        ((F d).loginAttempts = d.loginAttempts ∨ (F d).loginAttempts = some 0))
    (h : lockoutCleared db i) : lockoutCleared (updateById db i F) i := by
  obtain ⟨hsome, hall⟩ := h
  refine ⟨findById_updateById_isSome (fun d => (hF d).1) hsome, ?_⟩
  intro d hd hid
  obtain ⟨x, hx, hxid, rfl⟩ := mem_updateById hd hid
  obtain ⟨h1, h2⟩ := hall x hx hxid
  obtain ⟨_, hl, hc⟩ := hF x
  refine ⟨?_, by rw [hl, h2]⟩
  rcases hc with hc | hc
  · rw [hc, h1]
  · rw [hc]; rfl

/-- C2.  For every active, unlocked account, whatever its failed counter and
lock expiry were, a login request with the correct password leaves the stored
account (it is still stored) with failed counter 0, absent counting as 0, and
without lock expiry; this is the store after the save that records the
last-login time, or after the reset when that save is rejected. -/
theorem login_success_resets_lockout (env : Env) (db : List Admin) (r : LoginReq) (a : Admin)
    (hatt : loginAttempt env db r = some (a, true))
    (hact : a.isActive = true) (hunl : a.isLocked r.now = false) :
    (∃ d, findById (postLogin env db r.now r.body).2 a._id = some d) ∧
    ∀ d ∈ (postLogin env db r.now r.body).2, d._id = a._id →
      d.loginAttempts.getD 0 = 0 ∧ d.lockUntil = none := by
  rw [postLogin_right env db r a hatt hunl hact]
  have hreset := lockoutCleared_reset db a (loginAttempt_mem hatt)
  cases hS : saveLoaded env (resetLoginAttempts db a) { a with lastLogin := some r.now } false with
  | none => exact hreset
  | some p =>
    obtain ⟨F, hp, hF⟩ := saveLoaded_store hS
    simp only
    rw [hp]
    exact lockoutCleared_update _ a._id F hF hreset

/-- Witness of C1 on the sample store: five failed logins at times 1 to 5, then
the right password at time 100. -/
theorem login_locked_after_five_failures_witness :
    (postLogin sampleEnv
      (runLogins sampleEnv sampleDb
        [sampleBadLogin 1, sampleBadLogin 2, sampleBadLogin 3, sampleBadLogin 4, sampleBadLogin 5])
      100 (sampleGoodLogin 100).body).1.status = 423 :=
  (login_locked_after_five_failures sampleEnv sampleDb sampleCoo
    (sampleBadLogin 1) (sampleBadLogin 2) (sampleBadLogin 3) (sampleBadLogin 4) (sampleBadLogin 5)
    (sampleGoodLogin 100) true (by decide) (by decide) (by decide) (by decide) (by decide)
    (by decide)).1

/-- Witness of C2 on the sample store after four failed logins. -/
theorem login_success_resets_lockout_witness :
    loginAttempt sampleEnv (runLogins sampleEnv sampleDb
        [sampleBadLogin 1, sampleBadLogin 2, sampleBadLogin 3, sampleBadLogin 4]) (sampleGoodLogin 9)
      = some ({ sampleCoo with loginAttempts := some 4 }, true) ∧
    ∀ d ∈ (postLogin sampleEnv (runLogins sampleEnv sampleDb
        [sampleBadLogin 1, sampleBadLogin 2, sampleBadLogin 3, sampleBadLogin 4]) 9
        (sampleGoodLogin 9).body).2,
      d._id = 171 → d.loginAttempts.getD 0 = 0 ∧ d.lockUntil = none :=
  ⟨by decide,
   (login_success_resets_lockout sampleEnv (runLogins sampleEnv sampleDb
      [sampleBadLogin 1, sampleBadLogin 2, sampleBadLogin 3, sampleBadLogin 4]) (sampleGoodLogin 9)
      { sampleCoo with loginAttempts := some 4 } (by decide) (by decide) (by decide)).2⟩

/-! ## The authorization guard -/

theorem isLocked_withoutPassword (a : Admin) (now : Nat) :
    a.withoutPassword.isLocked now = a.isLocked now := rfl

theorem isActive_withoutPassword (a : Admin) : a.withoutPassword.isActive = a.isActive := rfl

/-- When `authenticateToken` calls `next()`. -/
theorem authenticateToken_next {β : Type} (env : Env) (db : List Admin) (now : Nat)
    (req req1 : Req β) :
    authenticateToken env db now req = .next req1 ↔
      ∃ t c a, bearerToken req.authorization = some t ∧
        env.jwtVerify t false now = .decoded c ∧
        findById db c.adminId = some a ∧ a.isActive = true ∧ a.isLocked now = false ∧
        req1 = { req with admin := some a.withoutPassword } := by
  constructor
  · intro h
    unfold authenticateToken at h
    cases hb : bearerToken req.authorization with
    | none => simp [hb] at h
    | some t =>
      simp only [hb] at h
      cases hv : env.jwtVerify t false now with
      | thrown e => cases e <;> simp [hv] at h
      | decoded c =>
        simp only [hv] at h
        cases hf : findById db c.adminId with
        | none => simp [hf] at h
        | some a =>
          simp only [hf, Option.map_some', isActive_withoutPassword,
            isLocked_withoutPassword] at h
          by_cases hact : a.isActive = true
          · by_cases hlock : a.isLocked now = true
            · simp [hact, hlock] at h
            · simp only [Bool.not_eq_true] at hlock
              simp only [hact, hlock, Bool.not_true, Bool.false_eq_true, if_false,
                Step.next.injEq] at h
              exact ⟨t, c, a, rfl, hv, hf, hact, hlock, h.symm⟩
          · simp only [Bool.not_eq_true] at hact
            simp [hact] at h
  · rintro ⟨t, c, a, hb, hv, hf, hact, hlock, rfl⟩
    simp only [authenticateToken, hb, hv, hf, Option.map_some', isActive_withoutPassword,
      isLocked_withoutPassword, hact, hlock, Bool.not_true, Bool.false_eq_true, if_false]

/-- C7.  `authenticateToken` calls the next handler exactly when the
Authorization header carries a token that verifies (signature and expiry) and
whose `adminId` finds a stored account that is active and not locked, and the
account it attaches is that stored record without its password.  With the
token missing or empty, invalid, or expired, or the account not found,
inactive, or locked, it answers 401 instead of calling the handler. -/
theorem authenticateToken_spec {β : Type} (env : Env) (db : List Admin) (now : Nat)
    (req : Req β) :
    (∀ req1, authenticateToken env db now req = .next req1 ↔
      ∃ t c a, bearerToken req.authorization = some t ∧
        env.jwtVerify t false now = .decoded c ∧
        findById db c.adminId = some a ∧ a.isActive = true ∧ a.isLocked now = false ∧
        req1 = { req with admin := some a.withoutPassword }) ∧
    (bearerToken req.authorization = none →
      authenticateToken env db now req = .respond (fail 401 "Access token required")) ∧
    (∀ t, bearerToken req.authorization = some t →
      (env.jwtVerify t false now = .thrown .JsonWebTokenError →
        authenticateToken env db now req = .respond (fail 401 "Invalid token")) ∧
      (env.jwtVerify t false now = .thrown .TokenExpiredError →
        authenticateToken env db now req = .respond (fail 401 "Token expired")) ∧
      (∀ c, env.jwtVerify t false now = .decoded c →
        (findById db c.adminId = none →
          authenticateToken env db now req
            = .respond (fail 401 "Invalid token - admin not found")) ∧
        (∀ a, findById db c.adminId = some a →
          (a.isActive = false →
            authenticateToken env db now req = .respond (fail 401 "Account is deactivated")) ∧
          (a.isActive = true → a.isLocked now = true →
            authenticateToken env db now req
              = .respond (fail 401 "Account is temporarily locked"))))) := by
  refine ⟨fun req1 => authenticateToken_next env db now req req1, ?_, ?_⟩
  · intro hb
    simp only [authenticateToken, hb]
  · intro t hb
    refine ⟨?_, ?_, ?_⟩
    · intro hv
      simp only [authenticateToken, hb, hv]
    · intro hv
      simp only [authenticateToken, hb, hv]
    · intro c hv
      refine ⟨?_, ?_⟩
      · intro hf
        simp only [authenticateToken, hb, hv, hf, Option.map_none']
      · intro a hf
        refine ⟨?_, ?_⟩
        · intro hact
          simp only [authenticateToken, hb, hv, hf, Option.map_some', isActive_withoutPassword,
            hact, Bool.not_false, if_true]
        · intro hact hlock
          simp only [authenticateToken, hb, hv, hf, Option.map_some', isActive_withoutPassword,
            isLocked_withoutPassword, hact, hlock, Bool.not_true, Bool.false_eq_true, if_false,
            if_true]

/-- Witness of C7: the sample token of the COO passes and attaches the stored
account; the expired sample token is answered 401. -/
theorem authenticateToken_spec_witness :
    authenticateToken sampleEnv sampleDb 5 sampleResolveReq
      = .next { sampleResolveReq with admin := some sampleCoo.withoutPassword } ∧
    authenticateToken sampleEnv sampleDb 5 { sampleResolveReq with authorization := some "Bearer old" }
      = .respond (fail 401 "Token expired") :=
  ⟨((authenticateToken_spec sampleEnv sampleDb 5 sampleResolveReq).1 _).mpr
      ⟨"good", sampleClaims, sampleCoo, by decide, by decide, by decide, by decide, by decide,
        rfl⟩,
   ((authenticateToken_spec sampleEnv sampleDb 5
      { sampleResolveReq with authorization := some "Bearer old" }).2.2 "old" (by decide)).2.1
      (by decide)⟩

/-- C4.  For an account of any role attached to the request,
`requirePermission(name)` calls the next handler exactly when the account's
`permissions[name]` is true and otherwise answers 403; and a request to
`PUT /suggestions/:id` authenticated as an account whose `editSuggestions` is
false is answered 403 and changes no suggestion, whatever the role. -/
theorem requirePermission_spec (a : Admin) (p : Permission) :
    (∀ (β : Type) (req : Req β), req.admin = some a →
      (requirePermission p req = .next req ↔ a.permissions.get p = true) ∧
      (a.permissions.get p = false →
        requirePermission p req = .respond (fail 403 "Insufficient permissions"))) ∧
    (∀ (env : Env) (db : List Admin) (sdb : List Suggestion) (now : Nat)
      (req : Req SuggestionBody),
      authenticateToken env db now req = .next { req with admin := some a } →
      a.permissions.editSuggestions = false →
      putSuggestion env db sdb now req = (fail 403 "Insufficient permissions", sdb)) := by
  refine ⟨?_, ?_⟩
  · intro β req hreq
    cases hp : a.permissions.get p
    · simp [requirePermission, hreq, hp]
    · simp [requirePermission, hreq, hp]
  · intro env db sdb now req hauth hperm
    simp [putSuggestion, hauth, Step.andThen, requirePermission, Permissions.get, hperm]

/-- Witness of C4: a COO whose `editSuggestions` is false gets 403 on
`PUT /suggestions/:id`. -/
theorem requirePermission_spec_witness :
    sampleCooPlain.role = "COO" ∧
    putSuggestion sampleEnv [sampleCooPlain] [sampleResolved] 5 sampleResolveReq
      = (fail 403 "Insufficient permissions", [sampleResolved]) :=
  ⟨by decide,
   (requirePermission_spec sampleCooPlain.withoutPassword .editSuggestions).2
    sampleEnv [sampleCooPlain] [sampleResolved] 5 sampleResolveReq
    ((authenticateToken_next sampleEnv [sampleCooPlain] 5 sampleResolveReq _).mpr
      ⟨"good", sampleClaims, sampleCooPlain,
        by decide, by decide, by decide, by decide, by decide, rfl⟩) (by decide)⟩

/-- C5.  `canManageAdmins` calls the next handler exactly when the role of the
attached account is `COO`, whatever its permissions; and the four account
routes (list, create, update, toggle status) answer a request authenticated
as an account of any other role with 403 and leave the accounts as they are. -/
theorem canManageAdmins_spec (a : Admin) :
    (∀ (β : Type) (req : Req β), req.admin = some a →
      (canManageAdmins req = .next req ↔ a.role = "COO") ∧
      (a.role ≠ "COO" → canManageAdmins req
        = .respond (fail 403 "Only COO (Chief Operating Officer) can manage admin accounts"))) ∧
    (∀ (perms : Permissions) (β : Type) (req : Req β),
      (canManageAdmins { req with admin := some { a with permissions := perms } }
          = .next { req with admin := some { a with permissions := perms } })
        ↔ (canManageAdmins { req with admin := some a } = .next { req with admin := some a })) ∧
    (a.role ≠ "COO" → ∀ (env : Env) (db : List Admin) (now : Nat),
      (∀ req : Req Unit, authenticateToken env db now req = .next { req with admin := some a } →
        getAdmins env db now req
          = (fail 403 "Only COO (Chief Operating Officer) can manage admin accounts", db)) ∧
      (∀ (newId : ObjectId) (req : Req AdminBody),
        authenticateToken env db now req = .next { req with admin := some a } →
        postAdmins env db now newId req
          = (fail 403 "Only COO (Chief Operating Officer) can manage admin accounts", db)) ∧
      (∀ req : Req AdminBody,
        authenticateToken env db now req = .next { req with admin := some a } →
        putAdmin env db now req
          = (fail 403 "Only COO (Chief Operating Officer) can manage admin accounts", db)) ∧
      (∀ req : Req (Option Bool),
        authenticateToken env db now req = .next { req with admin := some a } →
        patchAdminStatus env db now req
          = (fail 403 "Only COO (Chief Operating Officer) can manage admin accounts", db))) := by
  refine ⟨?_, ?_, ?_⟩
  · intro β req hreq
    by_cases hr : a.role = "COO"
    · simp [canManageAdmins, hreq, hr]
    · simp [canManageAdmins, hreq, hr]
  · intro perms β req
    by_cases hr : a.role = "COO"
    · simp [canManageAdmins, hr]
    · simp [canManageAdmins, hr]
  · intro hr env db now
    refine ⟨?_, ?_, ?_, ?_⟩
    · intro req hauth
      simp [getAdmins, hauth, Step.andThen, canManageAdmins, hr]
    · intro newId req hauth
      simp [postAdmins, hauth, Step.andThen, canManageAdmins, hr]
    · intro req hauth
      simp [putAdmin, hauth, Step.andThen, canManageAdmins, hr]
    · intro req hauth
      simp [patchAdminStatus, hauth, Step.andThen, canManageAdmins, hr]

/-! ## Resolving a suggestion -/

theorem fail_status (code : Nat) (msg : String) : (fail code msg).status = code := rfl

/-- An answer of `authenticateToken` has status 401 or 500. -/
theorem authenticateToken_respond {β : Type} (env : Env) (db : List Admin) (now : Nat)
    (req : Req β) (r : Response) (h : authenticateToken env db now req = .respond r) :
    r.status = 401 ∨ r.status = 500 := by
  unfold authenticateToken at h
  cases hb : bearerToken req.authorization with
  | none =>
    simp only [hb, Step.respond.injEq] at h
    subst h
    exact Or.inl rfl
  | some t =>
    simp only [hb] at h
    cases hv : env.jwtVerify t false now with
    | thrown e =>
      cases e <;> simp only [hv, Step.respond.injEq] at h <;> subst h
      · exact Or.inl rfl
      · exact Or.inl rfl
      · exact Or.inr rfl
    | decoded c =>
      simp only [hv] at h
      cases hf : (findById db c.adminId).map Admin.withoutPassword with
      | none =>
        simp only [hf, Step.respond.injEq] at h
        subst h
        exact Or.inl rfl
      | some a =>
        simp only [hf] at h
        split at h
        · simp only [Step.respond.injEq] at h
          subst h
          exact Or.inl rfl
        · split at h
          · simp only [Step.respond.injEq] at h
            subst h
            exact Or.inl rfl
          · cases h

theorem findSuggestionById_map (sdb : List Suggestion) (oid j : ObjectId)
    (f : Suggestion → Suggestion) (hf : ∀ d, (f d)._id = d._id) :
    findSuggestionById (sdb.map (fun x => if x._id = oid then f x else x)) j
      = (findSuggestionById sdb j).map (fun x => if x._id = oid then f x else x) := by
  unfold findSuggestionById
  rw [List.find?_map]
  congr 2
  funext d
  by_cases h : d._id = oid <;> simp [h, hf]

/-- A request to `PUT /suggestions/:id` that is answered 200 has applied the
update document built from the validated body to the addressed suggestion. -/
theorem putSuggestion_ok (env : Env) (db : List Admin) (sdb : List Suggestion) (now : Nat)
    (req : Req SuggestionBody) (b : SuggestionBody) (oid : ObjectId)
    (hval : env.suggestionFieldsValid req.body = some b)
    (hid : castObjectId req.id = some oid)
    (hok : (putSuggestion env db sdb now req).1.status = 200) :
    (∃ d, findSuggestionById sdb oid = some d) ∧
    (putSuggestion env db sdb now req).2
      = sdb.map (fun x =>
          if x._id = oid then applySuggestionUpdate (suggestionUpdateData now b) x else x) := by
  unfold putSuggestion at hok ⊢
  cases hauth : authenticateToken env db now req with
  | respond r =>
    simp only [hauth, Step.andThen] at hok
    rcases authenticateToken_respond env db now req r hauth with h | h <;> omega
  | next req1 =>
    obtain ⟨t, c, a, _, _, _, _, _, rfl⟩ := (authenticateToken_next env db now req req1).mp hauth
    simp only [hauth, Step.andThen] at hok ⊢
    unfold requirePermission at hok ⊢
    simp only at hok ⊢
    by_cases hperm : a.withoutPassword.permissions.get .editSuggestions = true
    · simp only [hperm, Bool.not_true, Bool.false_eq_true, if_false] at hok ⊢
      unfold validateSuggestionUpdate at hok ⊢
      simp only [hval] at hok ⊢
      cases hst : b.status with
      | none =>
        simp only [hst] at hok ⊢
        unfold fetchOriginalSuggestion at hok ⊢
        simp only [hid] at hok ⊢
        cases hfind : findSuggestionById sdb oid with
        | none => simp [hfind, fail] at hok
        | some d =>
          simp only [hfind, validateSuggestionUpdateBusinessLogic, logAdminAction,
            putSuggestionHandler, hid] at hok ⊢
          by_cases hvalid : env.suggestionUpdateValid (suggestionUpdateData now b) = true
          · simp [hvalid]
          · simp [hvalid, fail] at hok
      | some st =>
        simp only [hst] at hok ⊢
        by_cases hmem : statuses.contains st = true
        · simp only [hmem, if_true] at hok ⊢
          unfold fetchOriginalSuggestion at hok ⊢
          simp only [hid] at hok ⊢
          cases hfind : findSuggestionById sdb oid with
          | none => simp [hfind, fail] at hok
          | some d =>
            simp only [hfind, validateSuggestionUpdateBusinessLogic, logAdminAction,
              putSuggestionHandler, hid] at hok ⊢
            by_cases hvalid : env.suggestionUpdateValid (suggestionUpdateData now b) = true
            · simp [hvalid]
            · simp [hvalid, fail] at hok
        · rw [if_neg hmem] at hok
          simp [fail] at hok
    · simp [hperm, fail] at hok

/-- C3, amended.  An update answered 200 whose validated body sets `status` to
`Resolved` stores as `actualResolutionDate` the date of the body when the body
has a truthy one, and the current time otherwise, whether or not the stored
suggestion already had an `actualResolutionDate`: the guard reads the body,
not the stored suggestion. -/
theorem resolve_stores_body_date_or_now (env : Env) (db : List Admin) (sdb : List Suggestion)
    (now : Nat) (req : Req SuggestionBody) (b : SuggestionBody) (oid : ObjectId)
    (hval : env.suggestionFieldsValid req.body = some b)
    (hstatus : b.status = some "Resolved")
    (hid : castObjectId req.id = some oid)
    (hok : (putSuggestion env db sdb now req).1.status = 200) :
    (∃ s, findSuggestionById (putSuggestion env db sdb now req).2 oid = some s) ∧
    ∀ s ∈ (putSuggestion env db sdb now req).2, s._id = oid →
      s.actualResolutionDate
        = match b.actualResolutionDate with
          | some (.date t) => some t
          | _ => some now := by
  obtain ⟨⟨d, hd⟩, hstore⟩ := putSuggestion_ok env db sdb now req b oid hval hid hok
  rw [hstore]
  refine ⟨?_, ?_⟩
  · rw [findSuggestionById_map sdb oid oid (applySuggestionUpdate (suggestionUpdateData now b))
      (fun _ => rfl), hd]
    exact ⟨_, rfl⟩
  · intro s hs hsid
    obtain ⟨x, _, rfl⟩ := List.mem_map.mp hs
    by_cases hx : x._id = oid
    · simp only [hx, if_true, applySuggestionUpdate, suggestionUpdateData, hstatus]
      cases hdate : b.actualResolutionDate with
      | none => simp [DateInput.isTruthy, DateInput.stored]
      | some v =>
        cases v with
        | falsy cst => simp [DateInput.isTruthy, DateInput.stored]
        | date t => simp [DateInput.isTruthy, DateInput.stored]
    · simp only [hx, if_false] at hsid

/-- Witness of C3 as amended, on the sample suggestion. -/
theorem resolve_stores_body_date_or_now_witness :
    sampleResolveReq.body.status = some "Resolved" ∧
    (putSuggestion sampleEnv sampleDb [sampleResolved] 50 sampleResolveReq).1.status = 200 ∧
    ∀ s ∈ (putSuggestion sampleEnv sampleDb [sampleResolved] 50 sampleResolveReq).2,
      s._id = 171 → s.actualResolutionDate = some 50 :=
  ⟨by decide, by decide,
   (resolve_stores_body_date_or_now sampleEnv sampleDb [sampleResolved] 50 sampleResolveReq
    sampleResolveReq.body 171 (by decide) (by decide) (by decide) (by decide)).2⟩

/-- Counterexample to C3 as stated: the pending sample suggestion is resolved
by an update at time 10, which stores 10 as `actualResolutionDate`; the same
update at time 50, on the now resolved suggestion, is answered 200 and stores
50 in its place. -/
theorem reresolve_overwrites_resolution_date :
    (putSuggestion sampleEnv sampleDb [samplePending] 10 sampleResolveReq).2 = [sampleResolved] ∧
    sampleResolved.status = "Resolved" ∧
    sampleResolved.actualResolutionDate = some 10 ∧
    sampleResolveReq.body.status = some "Resolved" ∧
    (putSuggestion sampleEnv sampleDb [sampleResolved] 50 sampleResolveReq).1.status = 200 ∧
    (putSuggestion sampleEnv sampleDb [sampleResolved] 50 sampleResolveReq).2.map
        (fun s => s.actualResolutionDate) = [some 50] := by
  decide

/-- Witness of C5: the sample HR account is refused on the status route. -/
theorem canManageAdmins_spec_witness :
    patchAdminStatus sampleEnv sampleDb 5 sampleHrStatusReq
      = (fail 403 "Only COO (Chief Operating Officer) can manage admin accounts", sampleDb) :=
  ((canManageAdmins_spec sampleHr.withoutPassword).2.2 (by decide) sampleEnv sampleDb 5).2.2.2
    sampleHrStatusReq
    ((authenticateToken_next sampleEnv sampleDb 5 sampleHrStatusReq _).mpr
      ⟨"hr", { adminId := 2, email := "hr@x.io", role := "HR" }, sampleHr,
        by decide, by decide, by decide, by decide, by decide, rfl⟩)

/-! ## Live accounts behind a token -/

theorem liveAccount_some (db : List Admin) (now : Nat) (id : ObjectId) (x : Admin) :
    liveAccount db now id = some x ↔
      ∃ a, findById db id = some a ∧ a.isActive = true ∧ a.isLocked now = false ∧
        x = a.withoutPassword := by
  unfold liveAccount
  cases hf : findById db id with
  | none => simp
  | some a =>
    simp only [Option.map_some', isActive_withoutPassword, isLocked_withoutPassword]
    by_cases hact : a.isActive = true
    · by_cases hlock : a.isLocked now = true
      · simp [hact, hlock]
      · simp only [Bool.not_eq_true] at hlock
        simp only [hact, hlock, Bool.not_true, Bool.or_self, Bool.false_eq_true, if_false,
          Option.some.injEq]
        constructor
        · intro h
          exact ⟨a, rfl, hact, hlock, h.symm⟩
        · rintro ⟨a1, h1, _, _, rfl⟩
          cases h1
          rfl
    · simp only [Bool.not_eq_true] at hact
      simp [hact]

theorem liveAccount_none (db : List Admin) (now : Nat) (id : ObjectId) :
    liveAccount db now id = none ↔
      ¬ ∃ a, findById db id = some a ∧ a.isActive = true ∧ a.isLocked now = false := by
  constructor
  · rintro h ⟨a, hf, hact, hlock⟩
    have := (liveAccount_some db now id a.withoutPassword).mpr ⟨a, hf, hact, hlock, rfl⟩
    rw [h] at this
    cases this
  · intro h
    cases hl : liveAccount db now id with
    | none => rfl
    | some x =>
      obtain ⟨a, hf, hact, hlock, _⟩ := (liveAccount_some db now id x).mp hl
      exact absurd ⟨a, hf, hact, hlock⟩ h

theorem truthy_some {t : String} (ht : t ≠ "") : truthy (some t) = some t := by
  simp [truthy, ht]

/-- C8.  For a token that verifies (valid signature, not expired), `POST
/verify` reports `valid: true` exactly when the encoded account id finds a
stored account that is active and not locked, and then returns the summary of
that account; when the account is missing, inactive or locked the answer is
401 and not `valid: true`. -/
theorem verify_valid_iff_live (env : Env) (db : List Admin) (now : Nat) (t : String)
    (c : Claims) (ht : t ≠ "") (hv : env.jwtVerify t false now = .decoded c) :
    ((postVerify env db now (some t)).valid = true ↔
      ∃ a, findById db c.adminId = some a ∧ a.isActive = true ∧ a.isLocked now = false) ∧
    (∀ a, findById db c.adminId = some a → a.isActive = true → a.isLocked now = false →
      postVerify env db now (some t)
        = { status := 200, valid := true, admin := some a.withoutPassword.summary }) ∧
    ((¬ ∃ a, findById db c.adminId = some a ∧ a.isActive = true ∧ a.isLocked now = false) →
      postVerify env db now (some t) = fail 401 "Invalid or expired token" ∧
      (postVerify env db now (some t)).valid = false) := by
  have hpos : ∀ a, findById db c.adminId = some a → a.isActive = true → a.isLocked now = false →
      postVerify env db now (some t)
        = { status := 200, valid := true, admin := some a.withoutPassword.summary } := by
    intro a hf hact hlock
    have hl := (liveAccount_some db now c.adminId a.withoutPassword).mpr ⟨a, hf, hact, hlock, rfl⟩
    simp only [postVerify, truthy_some ht, hv, hl]
  have hneg : (¬ ∃ a, findById db c.adminId = some a ∧ a.isActive = true ∧ a.isLocked now = false) →
      postVerify env db now (some t) = fail 401 "Invalid or expired token" := by
    intro h
    have hl := (liveAccount_none db now c.adminId).mpr h
    simp only [postVerify, truthy_some ht, hv, hl]
  refine ⟨?_, hpos, fun h => ⟨hneg h, by rw [hneg h]; rfl⟩⟩
  constructor
  · intro hvalid
    by_contra hcon
    rw [hneg hcon] at hvalid
    cases hvalid
  · rintro ⟨a, hf, hact, hlock⟩
    rw [hpos a hf hact hlock]

/-- Witness of C8: the valid sample token of the stored, active, unlocked COO. -/
theorem verify_valid_iff_live_witness :
    (postVerify sampleEnv sampleDb 5 (some "good")).valid = true :=
  (verify_valid_iff_live sampleEnv sampleDb 5 "good" sampleClaims (by decide) (by decide)).1.mpr
    ⟨sampleCoo, by decide, by decide, by decide⟩

/-- C9.  For a token whose signature verifies, expired or not, `POST /refresh`
issues a token exactly when the encoded account id finds a stored account that
is active and not locked, and the token is signed for the id, email and role
of that stored account; when the account is missing, deactivated or locked
the answer is 401 without a token. -/
theorem refresh_issues_iff_live (env : Env) (db : List Admin) (now : Nat) (t : String)
    (c : Claims) (ht : t ≠ "") (hv : env.jwtVerify t true now = .decoded c) :
    ((postRefresh env db now (some t)).token.isSome = true ↔
      ∃ a, findById db c.adminId = some a ∧ a.isActive = true ∧ a.isLocked now = false) ∧
    (∀ a, findById db c.adminId = some a → a.isActive = true → a.isLocked now = false →
      postRefresh env db now (some t)
        = { status := 200
            success := true
            token := some (env.jwtSign { adminId := a._id, email := a.email, role := a.role } now)
            admin := some a.withoutPassword.summary }) ∧
    ((¬ ∃ a, findById db c.adminId = some a ∧ a.isActive = true ∧ a.isLocked now = false) →
      postRefresh env db now (some t) = fail 401 "Invalid token" ∧
      (postRefresh env db now (some t)).token = none) := by
  have hpos : ∀ a, findById db c.adminId = some a → a.isActive = true → a.isLocked now = false →
      postRefresh env db now (some t)
        = { status := 200
            success := true
            token := some (env.jwtSign { adminId := a._id, email := a.email, role := a.role } now)
            admin := some a.withoutPassword.summary } := by
    intro a hf hact hlock
    have hl := (liveAccount_some db now c.adminId a.withoutPassword).mpr ⟨a, hf, hact, hlock, rfl⟩
    simp only [postRefresh, truthy_some ht, hv, hl]
    rfl
  have hneg : (¬ ∃ a, findById db c.adminId = some a ∧ a.isActive = true ∧ a.isLocked now = false) →
      postRefresh env db now (some t) = fail 401 "Invalid token" := by
    intro h
    have hl := (liveAccount_none db now c.adminId).mpr h
    simp only [postRefresh, truthy_some ht, hv, hl]
  refine ⟨?_, hpos, fun h => ⟨hneg h, by rw [hneg h]; rfl⟩⟩
  constructor
  · intro htok
    by_contra hcon
    rw [hneg hcon] at htok
    cases htok
  · rintro ⟨a, hf, hact, hlock⟩
    rw [hpos a hf hact hlock]
    rfl

/-- Witness of C9: the expired sample token of the COO is refreshed. -/
theorem refresh_issues_iff_live_witness :
    sampleEnv.jwtVerify "old" false 5 = .thrown .TokenExpiredError ∧
    (postRefresh sampleEnv sampleDb 5 (some "old")).token = some "signed:coo@x.io" :=
  ⟨by decide,
   congrArg Response.token
    ((refresh_issues_iff_live sampleEnv sampleDb 5 "old" sampleClaims (by decide) (by decide)).2.1
      sampleCoo (by decide) (by decide) (by decide))⟩

/-! ## Changing one's own account -/

theorem sanitizeSkipped_admins_put (id : String) :
    sanitizeSkipped ("/admins/" ++ id) "PUT" = true := by
  have h : ("/admins/" ++ id).data = '/' :: 'a' :: 'd' :: 'm' :: 'i' :: 'n' :: 's' :: '/' :: id.data := by
    rw [String.data_append]
    rfl
  have h2 : "/admins".data = ['/', 'a', 'd', 'm', 'i', 'n', 's'] := rfl
  simp [sanitizeSkipped, h, h2, includes]

theorem roles_contains_truthy {r : String} (h : roles.contains r = true) :
    (truthy (some r)).isSome = true := by
  by_cases hr : r = ""
  · subst hr
    exact absurd h (by decide)
  · simp [truthy, hr]

/-- A request that passes `validateAdminData` carries a role of the list. -/
theorem validateAdminData_next (env : Env) (req req1 : Req AdminBody)
    (h : validateAdminData env req = .next req1) :
    req1.admin = req.admin ∧ req1.id = req.id ∧
      ∃ r, req1.body.role = some r ∧ roles.contains r = true := by
  unfold validateAdminData at h
  cases hval : env.adminFieldsValid req.body with
  | none => simp [hval] at h
  | some b1 =>
    simp only [hval] at h
    generalize trim (b1.role.getD "") = r at h
    by_cases hin : roles.contains r = true
    · rw [if_pos hin] at h
      cases h
      exact ⟨rfl, rfl, r, rfl, hin⟩
    · rw [if_neg hin] at h
      cases h

/-- An answer of `validateAdminData` has status 400. -/
theorem validateAdminData_respond (env : Env) (req : Req AdminBody) (r : Response)
    (h : validateAdminData env req = .respond r) : r.status = 400 := by
  unfold validateAdminData at h
  cases hval : env.adminFieldsValid req.body with
  | none =>
    simp only [hval, Step.respond.injEq] at h
    subst h
    rfl
  | some b1 =>
    simp only [hval] at h
    generalize trim (b1.role.getD "") = x at h
    by_cases hin : roles.contains x = true
    · rw [if_pos hin] at h
      cases h
    · rw [if_neg hin, Step.respond.injEq] at h
      subst h
      rfl

/-- The handler of `PUT /admins/:id` refuses a request that addresses the
requester by the string of its id and carries a role. -/
theorem putAdminHandler_self (env : Env) (db : List Admin) (req : Req AdminBody) (me : Admin)
    (r : String) (hme : req.admin = some me) (hid : req.id = me._id.toString)
    (hrole : req.body.role = some r) (hr : roles.contains r = true) :
    putAdminHandler env db req = (fail 400 "You cannot change your own role", db) := by
  unfold putAdminHandler
  simp only [hme, hrole]
  rw [if_pos (by rw [roles_contains_truthy hr, hid]; simp)]

/-- With the id written as `_id.toString()` writes it, the two routes refuse
to touch the account of the requester: `PATCH /admins/:id/status` answers 400,
and `PUT /admins/:id` is not answered 200, for every body, since a body that
passes `validateAdminData` has a role; the store stays as it is. -/
theorem self_update_rejected_same_spelling (env : Env) (db : List Admin) (now : Nat)
    (me : Admin) :
    (∀ req : Req (Option Bool),
      authenticateToken env db now req = .next { req with admin := some me } →
      me.role = "COO" → req.id = me._id.toString →
      patchAdminStatus env db now req = (fail 400 "You cannot deactivate your own account", db)) ∧
    (∀ req : Req AdminBody,
      authenticateToken env db now req = .next { req with admin := some me } →
      req.id = me._id.toString →
      (putAdmin env db now req).2 = db ∧ (putAdmin env db now req).1.status ≠ 200) := by
  refine ⟨?_, ?_⟩
  · intro req hauth hrole hid
    unfold patchAdminStatus
    rw [hauth]
    simp only [Step.andThen, canManageAdmins]
    rw [if_neg (by simp [hrole])]
    simp only [logAdminAction, patchAdminStatusHandler]
    rw [if_pos hid.symm]
  · intro req hauth hid
    unfold putAdmin
    rw [hauth]
    simp only [Step.andThen, canManageAdmins]
    by_cases hrole : me.role = "COO"
    · rw [if_neg (by simp [hrole])]
      simp only [sanitizeInputs, sanitizeSkipped_admins_put, if_true]
      cases hval : validateAdminData env { req with admin := some me } with
      | respond r =>
        have h400 := validateAdminData_respond env _ r hval
        refine ⟨rfl, ?_⟩
        show r.status ≠ 200
        omega
      | next req1 =>
        obtain ⟨hadm, hid1, r, hr1, hr2⟩ := validateAdminData_next env _ req1 hval
        simp only [logAdminAction]
        rw [putAdminHandler_self env db req1 me r hadm (by rw [hid1]; exact hid) hr1 hr2]
        refine ⟨rfl, ?_⟩
        show (400 : Nat) ≠ 200
        omega
    · rw [if_pos hrole]
      refine ⟨rfl, ?_⟩
      show (403 : Nat) ≠ 200
      omega

/-- C6 at the failing input.  The sample COO has the id
`0000000000000000000000ab`.  Its requests address `0000000000000000000000AB`,
which Mongoose casts to the same id while the comparison with
`req.admin._id.toString()` fails: the status route deactivates the COO's own
account and the update route changes the COO's own role to HR, both answered
200. -/
theorem own_account_changed_through_other_spelling :
    castObjectId sampleSelfStatusReq.id = some sampleCoo._id ∧
    (patchAdminStatus sampleEnv sampleDb 5 sampleSelfStatusReq).1.status = 200 ∧
    (findById (patchAdminStatus sampleEnv sampleDb 5 sampleSelfStatusReq).2 sampleCoo._id).map
        (fun d => d.isActive) = some false ∧
    (putAdmin sampleEnv sampleDb 5 sampleSelfRoleReq).1.status = 200 ∧
    (findById (putAdmin sampleEnv sampleDb 5 sampleSelfRoleReq).2 sampleCoo._id).map
        (fun d => d.role) = some "HR" := by
  decide

/-! ## Status of the answer to a token that fails verification -/

/-- The answers of the five token-accepting operations to a token that fails
verification, when the other fields of the request are present. -/
theorem token_failure_statuses (env : Env) (db : List Admin) (now : Nat) (t : String)
    (ht : t ≠ "") :
    (env.jwtVerify t false now = .thrown .JsonWebTokenError →
      (postVerify env db now (some t)).status = 401 ∧
      (getProfile env db now (some t)).status = 401 ∧
      ∀ cur new : String, cur ≠ "" → new ≠ "" →
        (changePasswordHandler env db now
          { token := some t, currentPassword := some cur, newPassword := some new }).1.status = 401) ∧
    (env.jwtVerify t false now = .thrown .TokenExpiredError →
      (postVerify env db now (some t)).status = 401 ∧
      (getProfile env db now (some t)).status = 500 ∧
      ∀ cur new : String, cur ≠ "" → new ≠ "" →
        (changePasswordHandler env db now
          { token := some t, currentPassword := some cur, newPassword := some new }).1.status = 500) ∧
    (∀ e, env.jwtVerify t true now = .thrown e → (postRefresh env db now (some t)).status = 500) := by
  refine ⟨?_, ?_, ?_⟩
  · intro hv
    refine ⟨?_, ?_, ?_⟩
    · simp [postVerify, truthy_some ht, hv, fail]
    · simp [getProfile, truthy_some ht, hv, fail]
    · intro cur new hc hn
      simp [changePasswordHandler, truthy_some ht, truthy_some hc, truthy_some hn, hv, fail]
  · intro hv
    refine ⟨?_, ?_, ?_⟩
    · simp [postVerify, truthy_some ht, hv, fail]
    · simp [getProfile, truthy_some ht, hv, fail]
    · intro cur new hc hn
      simp [changePasswordHandler, truthy_some ht, truthy_some hc, truthy_some hn, hv, fail]
  · intro e hv
    simp [postRefresh, truthy_some ht, hv, fail]

/-- C10 at the failing inputs.  On the sample environment the token `forged`
has an invalid signature and the token `old` is expired: `POST /refresh`
answers the first with 500, and `POST /change-password` and `GET /profile`
answer the second with 500, while `authenticateToken` and `POST /verify`
answer both with 401. -/
theorem token_failure_answered_500 :
    sampleEnv.jwtVerify "forged" true 5 = .thrown .JsonWebTokenError ∧
    (postRefresh sampleEnv sampleDb 5 (some "forged")).status = 500 ∧
    sampleEnv.jwtVerify "old" false 5 = .thrown .TokenExpiredError ∧
    (postChangePassword sampleEnv sampleDb 5 sampleChangePassword).1.status = 500 ∧
    (getProfile sampleEnv sampleDb 5 (some "old")).status = 500 ∧
    (postVerify sampleEnv sampleDb 5 (some "forged")).status = 401 ∧
    (postVerify sampleEnv sampleDb 5 (some "old")).status = 401 := by
  decide

/-! ## The lockout counter -/

/-- C17.  For every stored account whose lock expiry is set and lies strictly
before the current time, the update of a failed login attempt stores failed
counter 1, whatever the counter was, and no lock expiry; on an active account
this is what a login request with a wrong password does, answered 401. -/
theorem failed_login_after_expired_lock (db : List Admin) (admin : Admin) (now u : Nat)
    (hfind : findById db admin._id = some admin)
    (hu : admin.lockUntil = some u) (hlt : u < now) :
    findById (incLoginAttempts db admin now) admin._id
      = some { admin with loginAttempts := some 1, lockUntil := none } ∧
    (∀ d ∈ incLoginAttempts db admin now, d._id = admin._id →
      d.loginAttempts = some 1 ∧ d.lockUntil = none) ∧
    (∀ (env : Env) (r : LoginReq), r.now = now → admin.isActive = true →
      loginAttempt env db r = some (admin, false) →
      postLogin env db r.now r.body
        = (fail 401 "Invalid credentials", incLoginAttempts db admin now)) := by
  have hinc : incLoginAttempts db admin now
      = updateById db admin._id (fun d => { d with lockUntil := none, loginAttempts := some 1 }) := by
    unfold incLoginAttempts
    simp [hu, hlt]
  refine ⟨?_, ?_, ?_⟩
  · rw [hinc, findById_updateById db admin._id admin._id
      (fun d => { d with lockUntil := none, loginAttempts := some 1 }) (fun _ => rfl), hfind]
    simp
  · intro d hd hid
    rw [hinc] at hd
    obtain ⟨x, _, _, rfl⟩ := mem_updateById hd hid
    exact ⟨rfl, rfl⟩
  · intro env r hr hact hatt
    subst hr
    have hunl : admin.isLocked r.now = false := by
      simp only [Admin.isLocked, hu, decide_eq_false_iff_not, not_lt]
      exact Nat.le_of_lt hlt
    exact postLogin_wrong env db r admin hatt hunl hact

/-- Witness of C17: the sample COO with counter 5 and a lock that expired at
time 50 fails a login at time 60. -/
theorem failed_login_after_expired_lock_witness :
    findById
        (incLoginAttempts [{ sampleCoo with loginAttempts := some 5, lockUntil := some 50 }]
          { sampleCoo with loginAttempts := some 5, lockUntil := some 50 } 60) 171
      = some { sampleCoo with loginAttempts := some 1, lockUntil := none } :=
  (failed_login_after_expired_lock
    [{ sampleCoo with loginAttempts := some 5, lockUntil := some 50 }]
    { sampleCoo with loginAttempts := some 5, lockUntil := some 50 } 60 50
    (by decide) (by decide) (by decide)).1

/-- C18.  For every stored account with no lock expiry and failed counter `c`
(an absent counter is 0), the update of a failed login attempt at time `now`
stores counter `c + 1`, and stores the lock expiry `now + 7200000` exactly
when `c + 1 ≥ 5`; for `c + 1 < 5` the lock expiry stays unset.  On an active
account this is what a login request with a wrong password does. -/
theorem failed_login_counts_and_locks (db : List Admin) (admin : Admin) (now : Nat)
    (hfind : findById db admin._id = some admin) (hlock : admin.lockUntil = none) :
    findById (incLoginAttempts db admin now) admin._id
      = some { admin with
          loginAttempts := some (admin.loginAttempts.getD 0 + 1)
          lockUntil := if admin.loginAttempts.getD 0 + 1 ≥ 5 then some (now + 7200000) else none } ∧
    (∀ d, findById (incLoginAttempts db admin now) admin._id = some d →
      (d.lockUntil = some (now + 7200000) ↔ admin.loginAttempts.getD 0 + 1 ≥ 5) ∧
      (admin.loginAttempts.getD 0 + 1 < 5 → d.lockUntil = none)) ∧
    (∀ (env : Env) (r : LoginReq), r.now = now → admin.isActive = true →
      loginAttempt env db r = some (admin, false) →
      postLogin env db r.now r.body
        = (fail 401 "Invalid credentials", incLoginAttempts db admin now)) := by
  have hmain : findById (incLoginAttempts db admin now) admin._id
      = some { admin with
          loginAttempts := some (admin.loginAttempts.getD 0 + 1)
          lockUntil := if admin.loginAttempts.getD 0 + 1 ≥ 5 then some (now + 7200000) else none } := by
    by_cases hge : 5 ≤ admin.attempts + 1
    · rw [incLoginAttempts_reach db admin now hlock hge,
        findById_updateById db admin._id admin._id
          (fun d => { d with loginAttempts := some (d.attempts + 1),
                             lockUntil := some (now + lockDuration) }) (fun _ => rfl), hfind]
      have hge2 : admin.loginAttempts.getD 0 + 1 ≥ 5 := hge
      simp [Admin.attempts, lockDuration, hge2]
    · rw [incLoginAttempts_below db admin now hlock (by omega),
        findById_updateById db admin._id admin._id
          (fun d => { d with loginAttempts := some (d.attempts + 1) }) (fun _ => rfl), hfind]
      have hge2 : ¬ admin.loginAttempts.getD 0 + 1 ≥ 5 := hge
      simp [Admin.attempts, hge2, hlock]
  refine ⟨hmain, ?_, ?_⟩
  · intro d hd
    rw [hmain] at hd
    simp only [Option.some.injEq] at hd
    subst hd
    by_cases hge : admin.loginAttempts.getD 0 + 1 ≥ 5
    · simp only [hge, if_true, true_iff]
      exact ⟨trivial, fun h => absurd h (by omega)⟩
    · simp only [hge, if_false, false_iff]
      exact ⟨by simp, fun _ => trivial⟩
  · intro env r hr hact hatt
    subst hr
    exact postLogin_wrong env db r admin hatt (isLocked_of_lockUntil_none r.now hlock) hact

/-- Witness of C18: the fifth failed login of the sample COO, at time 60. -/
theorem failed_login_counts_and_locks_witness :
    findById
        (incLoginAttempts [{ sampleCoo with loginAttempts := some 4 }]
          { sampleCoo with loginAttempts := some 4 } 60) 171
      = some { sampleCoo with loginAttempts := some 5, lockUntil := some 7200060 } :=
  (failed_login_counts_and_locks [{ sampleCoo with loginAttempts := some 4 }]
    { sampleCoo with loginAttempts := some 4 } 60 (by decide) (by decide)).1

/-! ## Tokens and the live account -/

/-- The token of an account whose active flag is false is refused, with 401,
by `authenticateToken`, `POST /verify`, `POST /refresh` and `GET /profile`. -/
theorem deactivated_token_rejected {β : Type} (env : Env) (db : List Admin) (now : Nat)
    (req : Req β) (t : String) (c : Claims) (a : Admin) (ht : t ≠ "")
    (hb : bearerToken req.authorization = some t)
    (hv : env.jwtVerify t false now = .decoded c) (hr : env.jwtVerify t true now = .decoded c)
    (hf : findById db c.adminId = some a) (hact : a.isActive = false) :
    authenticateToken env db now req = .respond (fail 401 "Account is deactivated") ∧
    postVerify env db now (some t) = fail 401 "Invalid or expired token" ∧
    postRefresh env db now (some t) = fail 401 "Invalid token" ∧
    getProfile env db now (some t) = fail 401 "Invalid token" := by
  have hl : liveAccount db now c.adminId = none := by
    rw [liveAccount_none]
    rintro ⟨a1, hf1, hact1, _⟩
    rw [hf] at hf1
    cases hf1
    rw [hact] at hact1
    cases hact1
  refine ⟨?_, ?_, ?_, ?_⟩
  · simp only [authenticateToken, hb, hv, hf, Option.map_some', isActive_withoutPassword, hact,
      Bool.not_false, if_true]
  · simp only [postVerify, truthy_some ht, hv, hl]
  · simp only [postRefresh, truthy_some ht, hr, hl]
  · simp only [getProfile, truthy_some ht, hv, hl]

/-- C11 at the failing input.  In the sample store the COO is deactivated and
`good` is its valid token: `authenticateToken`, `POST /verify`, `POST /refresh`
and `GET /profile` answer 401, but `POST /change-password` with the current
password answers 200 and stores the hash of the new password. -/
theorem deactivated_account_changes_password :
    (findById sampleDbDeactivated 171).map (fun d => d.isActive) = some false ∧
    (authenticateToken sampleEnv sampleDbDeactivated 5 sampleResolveReq).answer
      = some (fail 401 "Account is deactivated") ∧
    (postVerify sampleEnv sampleDbDeactivated 5 (some "good")).status = 401 ∧
    (postRefresh sampleEnv sampleDbDeactivated 5 (some "good")).status = 401 ∧
    (getProfile sampleEnv sampleDbDeactivated 5 (some "good")).status = 401 ∧
    (postChangePassword sampleEnv sampleDbDeactivated 5 sampleChangePasswordGood).1.status = 200 ∧
    (findById (postChangePassword sampleEnv sampleDbDeactivated 5 sampleChangePasswordGood).2
        171).map (fun d => d.password) = some (some "$12$NewSecret#34") := by
  decide

/-- What `authenticateToken` does with a token that verifies: it reads the
account id of the claims and nothing else of them. -/
theorem authenticateToken_decoded {β : Type} (env : Env) (db : List Admin) (now : Nat)
    (req : Req β) (t : String) (c : Claims)
    (hb : bearerToken req.authorization = some t)
    (hv : env.jwtVerify t false now = .decoded c) :
    authenticateToken env db now req
      = match findById db c.adminId with
        | none => .respond (fail 401 "Invalid token - admin not found")
        | some a =>
          if a.isActive = false then .respond (fail 401 "Account is deactivated")
          else if a.isLocked now = true then .respond (fail 401 "Account is temporarily locked")
          else .next { req with admin := some a.withoutPassword } := by
  simp only [authenticateToken, hb, hv]
  cases findById db c.adminId with
  | none => rfl
  | some a =>
    simp only [Option.map_some', isActive_withoutPassword, isLocked_withoutPassword,
      Bool.not_eq_true']

/-- C12.  Two requests that differ only in their tokens, both tokens verifying
and encoding the same account id with any email and role claims, get the same
answer and the same attached account from `authenticateToken`, and the same
answer from `authenticateToken` followed by `requirePermission`, `requireRole`
or `canManageAdmins`, in every stored state; when the stored account is active
and not locked, the answer is decided by its stored permissions and role. -/
theorem guards_ignore_token_claims {β : Type} (env : Env) (db : List Admin) (now : Nat)
    (req : Req β) (h1 h2 : Option String) (t1 t2 : String) (c1 c2 : Claims)
    (hb1 : bearerToken h1 = some t1) (hb2 : bearerToken h2 = some t2)
    (hv1 : env.jwtVerify t1 false now = .decoded c1)
    (hv2 : env.jwtVerify t2 false now = .decoded c2)
    (hid : c1.adminId = c2.adminId) :
    ((authenticateToken env db now { req with authorization := h1 }).answer
      = (authenticateToken env db now { req with authorization := h2 }).answer) ∧
    ((authenticateToken env db now { req with authorization := h1 }).attached
      = (authenticateToken env db now { req with authorization := h2 }).attached) ∧
    (∀ (p : Permission) (roles : List String),
      (((authenticateToken env db now { req with authorization := h1 }).bind
            (requirePermission p)).answer
        = ((authenticateToken env db now { req with authorization := h2 }).bind
            (requirePermission p)).answer) ∧
      (((authenticateToken env db now { req with authorization := h1 }).bind
            (requireRole roles)).answer
        = ((authenticateToken env db now { req with authorization := h2 }).bind
            (requireRole roles)).answer) ∧
      (((authenticateToken env db now { req with authorization := h1 }).bind
            canManageAdmins).answer
        = ((authenticateToken env db now { req with authorization := h2 }).bind
            canManageAdmins).answer)) ∧
    (∀ a, findById db c1.adminId = some a → a.isActive = true → a.isLocked now = false →
      ∀ (p : Permission) (roles : List String),
        ((authenticateToken env db now { req with authorization := h1 }).bind
            (requirePermission p)).answer
          = (if a.permissions.get p then none else some (fail 403 "Insufficient permissions")) ∧
        ((authenticateToken env db now { req with authorization := h1 }).bind
            (requireRole roles)).answer
          = (if roles.contains a.role then none
             else some (fail 403 "Insufficient role permissions")) ∧
        ((authenticateToken env db now { req with authorization := h1 }).bind
            canManageAdmins).answer
          = (if a.role = "COO" then none
             else some (fail 403
               "Only COO (Chief Operating Officer) can manage admin accounts"))) := by
  have e1 := authenticateToken_decoded env db now { req with authorization := h1 } t1 c1 hb1 hv1
  have e2 := authenticateToken_decoded env db now { req with authorization := h2 } t2 c2 hb2 hv2
  rw [← hid] at e2
  rw [e1, e2]
  refine ⟨?_, ?_, ?_, ?_⟩
  · cases findById db c1.adminId with
    | none => rfl
    | some a =>
      simp only
      split
      · rfl
      · split <;> rfl
  · cases findById db c1.adminId with
    | none => rfl
    | some a =>
      simp only
      split
      · rfl
      · split <;> rfl
  · intro p roles
    cases findById db c1.adminId with
    | none => exact ⟨rfl, rfl, rfl⟩
    | some a =>
      simp only
      split
      · exact ⟨rfl, rfl, rfl⟩
      · split
        · exact ⟨rfl, rfl, rfl⟩
        · refine ⟨?_, ?_, ?_⟩
          · simp only [Step.bind, requirePermission]
            split <;> rfl
          · simp only [Step.bind, requireRole]
            split <;> rfl
          · simp only [Step.bind, canManageAdmins]
            split <;> rfl
  · intro a hf hact hlock p roles
    simp only [hf, hact, hlock, Bool.true_eq_false, Bool.false_eq_true, if_false]
    refine ⟨?_, ?_, ?_⟩
    · simp only [Step.bind, requirePermission]
      cases hp : (a.withoutPassword).permissions.get p
      · have hp2 : a.permissions.get p = false := hp
        simp [hp2, Step.answer]
      · have hp2 : a.permissions.get p = true := hp
        simp [hp2, Step.answer]
    · simp only [Step.bind, requireRole]
      cases hr : roles.contains (a.withoutPassword).role
      · have hr2 : roles.contains a.role = false := hr
        simp only [hr2]
        simp [Step.answer]
      · have hr2 : roles.contains a.role = true := hr
        simp only [hr2]
        simp [Step.answer]
    · simp only [Step.bind, canManageAdmins]
      by_cases hr : a.role = "COO"
      · have hr2 : (a.withoutPassword).role = "COO" := hr
        simp [hr, hr2, Step.answer]
      · have hr2 : ¬ (a.withoutPassword).role = "COO" := hr
        simp [hr, hr2, Step.answer]

/-- Witness of C12: on the sample store the token `stale` carries the role HR
and another email for the id of the COO; `canManageAdmins` lets it through as
it does the token `good`, since the stored role is COO. -/
theorem guards_ignore_token_claims_witness :
    staleClaims.role ≠ sampleClaims.role ∧
    ((authenticateToken sampleEnv sampleDb 5
        { sampleResolveReq with authorization := some "Bearer stale" }).bind canManageAdmins).answer
      = ((authenticateToken sampleEnv sampleDb 5
        { sampleResolveReq with authorization := some "Bearer good" }).bind canManageAdmins).answer :=
  ⟨by decide,
   ((guards_ignore_token_claims sampleEnv sampleDb 5 sampleResolveReq
      (some "Bearer stale") (some "Bearer good") "stale" "good" staleClaims sampleClaims
      (by decide) (by decide) (by decide) (by decide) rfl).2.2.1 .editSuggestions []).2.2⟩

/-! ## Pagination of the listing -/

/-- The page count of the listing is the ceiling of the quotient. -/
theorem ceilDiv_eq_ceil (total size : Nat) (hsize : 1 ≤ size) :
    ceilDiv total size = ⌈(total : ℚ) / (size : ℚ)⌉₊ := by
  have hs : (0 : ℚ) < (size : ℚ) := by exact_mod_cast hsize
  have hdecomp : size * (total / size) + total % size = total := Nat.div_add_mod total size
  unfold ceilDiv
  by_cases hmod : total % size = 0
  · rw [if_pos hmod]
    have ht : total = size * (total / size) := by omega
    have hq : (total : ℚ) / (size : ℚ) = ((total / size : ℕ) : ℚ) := by
      rw [div_eq_iff (ne_of_gt hs)]
      have : ((size * (total / size) : ℕ) : ℚ) = (total : ℚ) := by exact_mod_cast ht.symm
      rw [← this]
      push_cast
      ring
    rw [hq, Nat.ceil_natCast]
  · rw [if_neg hmod]
    symm
    rw [Nat.ceil_eq_iff (Nat.succ_ne_zero (total / size))]
    have hlt : total % size < size := Nat.mod_lt _ (by omega)
    have hpos : 0 < total % size := Nat.pos_of_ne_zero hmod
    constructor
    · rw [lt_div_iff₀ hs]
      have : (total / size + 1 - 1) * size < total := by
        simp only [Nat.add_sub_cancel]
        calc total / size * size = size * (total / size) := Nat.mul_comm _ _
          _ < total := by omega
      exact_mod_cast this
    · rw [div_le_iff₀ hs]
      have : total ≤ (total / size + 1) * size := by
        have : (total / size + 1) * size = size * (total / size) + size := by ring
        omega
      exact_mod_cast this

/-- C13.  For every page `page ≥ 1` and page size `size ≥ 1`, when `matching`
is the list of the suggestions that match the filter, the listing answers with
the sorted matches after dropping `(page - 1) * size` and taking `size`, with
`totalItems` the length of `matching`, `totalPages` the ceiling of that length
over `size`, `hasNextPage = (page < totalPages)` and `hasPrevPage = (page > 1)`;
for page 2, size 20 and 45 matches (the sort keeping the number of documents)
these are 20 items, 3 pages, `hasNextPage` and `hasPrevPage` true. -/
theorem listing_pagination (qenv : QueryEnv) (cats : List Category) (subs : List Subcategory)
    (sdb : List Suggestion) (q : ListQuery) (page size : Nat) (matching : List Suggestion)
    (hp : q.page = some page) (hl : q.limit = some size) (hpage : 1 ≤ page) (hsize : 1 ≤ size)
    (hfind : findSuggestions qenv (listFilter cats subs q) sdb = some matching) :
    (getSuggestionsHandler qenv cats subs sdb q).status = 200 ∧
    (getSuggestionsHandler qenv cats subs sdb q).suggestions
      = ((qenv.sortSuggestions (q.sortBy.getD "createdAt")
            (decide (q.sortOrder.getD "desc" = "desc")) matching).drop
          ((page - 1) * size)).take size ∧
    ∃ pg, (getSuggestionsHandler qenv cats subs sdb q).pagination = some pg ∧
      pg.currentPage = page ∧ pg.itemsPerPage = size ∧
      pg.totalItems = matching.length ∧
      pg.totalPages = ⌈(matching.length : ℚ) / (size : ℚ)⌉₊ ∧
      pg.hasNextPage = decide (page < pg.totalPages) ∧
      pg.hasPrevPage = decide (page > 1) ∧
      (page = 2 → size = 20 → matching.length = 45 →
        (qenv.sortSuggestions (q.sortBy.getD "createdAt")
            (decide (q.sortOrder.getD "desc" = "desc")) matching).length = matching.length →
        (getSuggestionsHandler qenv cats subs sdb q).suggestions.length = 20 ∧
        pg.totalPages = 3 ∧ pg.hasNextPage = true ∧ pg.hasPrevPage = true) := by
  have hres : getSuggestionsHandler qenv cats subs sdb q
      = { status := 200
          suggestions :=
            ((qenv.sortSuggestions (q.sortBy.getD "createdAt")
                (decide (q.sortOrder.getD "desc" = "desc")) matching).drop
              ((page - 1) * size)).take size
          pagination := some
            { currentPage := page
              totalPages := ceilDiv matching.length size
              totalItems := matching.length
              itemsPerPage := size
              hasNextPage := decide (page < ceilDiv matching.length size)
              hasPrevPage := decide (page > 1) } } := by
    simp only [getSuggestionsHandler, hfind, hp, hl, Option.getD_some]
  rw [hres]
  refine ⟨rfl, rfl, _, rfl, rfl, rfl, rfl, ceilDiv_eq_ceil _ _ hsize, rfl, rfl, ?_⟩
  intro h2 h20 h45 hsort
  subst h2 h20
  simp only [h45] at hsort ⊢
  refine ⟨?_, by decide, by decide, by decide⟩
  simp [List.length_take, List.length_drop, hsort]

/-- Witness of C13: page 2 of size 20 over the 45 sample suggestions. -/
theorem listing_pagination_witness :
    (getSuggestionsHandler sampleQueryEnv sampleCategories sampleSubcategories sampleSuggestions
        { emptyListQuery with page := some 2, limit := some 20 }).suggestions
      = ((sampleSort "createdAt" true sampleSuggestions).drop 20).take 20 :=
  (listing_pagination sampleQueryEnv sampleCategories sampleSubcategories sampleSuggestions
    { emptyListQuery with page := some 2, limit := some 20 } 2 20 sampleSuggestions
    rfl rfl (by decide) (by decide) (by decide)).2.1

/-! ## Submitting a suggestion -/

theorem findActiveCategory_none {cats : List Category} {name : String}
    (h : ∀ c ∈ cats, c.isActive = true → c.name ≠ name) : findActiveCategory cats name = none := by
  unfold findActiveCategory
  rw [List.find?_eq_none]
  intro c hc hp
  simp only [Bool.and_eq_true, decide_eq_true_eq] at hp
  exact h c hc hp.2 hp.1

theorem findActiveCategory_some {cats : List Category} {name : String} {c : Category}
    (h : findActiveCategory cats name = some c) : c ∈ cats ∧ c.name = name ∧ c.isActive = true := by
  unfold findActiveCategory at h
  have hp := List.find?_some h
  simp only [Bool.and_eq_true, decide_eq_true_eq] at hp
  exact ⟨List.mem_of_find?_eq_some h, hp.1, hp.2⟩

theorem findActiveSubcategoryOf_none {subs : List Subcategory} {name : String} {cat : ObjectId}
    (h : ∀ sc ∈ subs, sc.isActive = true → sc.category = cat → sc.name ≠ name) :
    findActiveSubcategoryOf subs name cat = none := by
  unfold findActiveSubcategoryOf
  rw [List.find?_eq_none]
  intro sc hsc hp
  simp only [Bool.and_eq_true, decide_eq_true_eq] at hp
  exact h sc hsc hp.2 hp.1.2 hp.1.1

theorem findActiveSubcategoryOf_some {subs : List Subcategory} {name : String} {cat : ObjectId}
    {sc : Subcategory} (h : findActiveSubcategoryOf subs name cat = some sc) :
    sc ∈ subs ∧ sc.name = name ∧ sc.category = cat ∧ sc.isActive = true := by
  unfold findActiveSubcategoryOf at h
  have hp := List.find?_some h
  simp only [Bool.and_eq_true, decide_eq_true_eq] at hp
  exact ⟨List.mem_of_find?_eq_some h, hp.1.1, hp.1.2, hp.2⟩

/-- C14.  A submission is answered with an error and leaves the suggestion
collection as it is when it fails the validators, when no active category has
its category name, or when no active subcategory of the category found has its
subcategory name; and whenever the collection changes, both lookups have
succeeded on active records with these names, the answer is 201, and the
collection has grown by one suggestion that references the ids of the category
and subcategory found. -/
theorem submit_writes_only_after_both_lookups (qenv : QueryEnv) (cats : List Category)
    (subs : List Subcategory) (sdb : List Suggestion) (now : Nat) (newId : ObjectId)
    (b : SubmitBody) :
    (qenv.submitFieldsValid b = none →
      postSubmit qenv cats subs sdb now newId b = (fail 400 "Validation failed", sdb)) ∧
    (∀ b1, qenv.submitFieldsValid b = some b1 →
      (∀ c ∈ cats, c.isActive = true → c.name ≠ b1.category) →
      postSubmit qenv cats subs sdb now newId b = (fail 400 "Invalid category selected", sdb)) ∧
    (∀ b1 c, qenv.submitFieldsValid b = some b1 → findActiveCategory cats b1.category = some c →
      (∀ sc ∈ subs, sc.isActive = true → sc.category = c._id → sc.name ≠ b1.subcategory) →
      postSubmit qenv cats subs sdb now newId b = (fail 400 "Invalid subcategory selected", sdb)) ∧
    ((postSubmit qenv cats subs sdb now newId b).2 ≠ sdb →
      ∃ b1 c sc s, qenv.submitFieldsValid b = some b1 ∧
        findActiveCategory cats b1.category = some c ∧
        findActiveSubcategoryOf subs b1.subcategory c._id = some sc ∧
        c ∈ cats ∧ c.name = b1.category ∧ c.isActive = true ∧
        sc ∈ subs ∧ sc.name = b1.subcategory ∧ sc.category = c._id ∧ sc.isActive = true ∧
        (postSubmit qenv cats subs sdb now newId b).1.status = 201 ∧
        (postSubmit qenv cats subs sdb now newId b).2 = sdb ++ [s] ∧
        s.category = c._id ∧ s.subcategory = sc._id) := by
  refine ⟨?_, ?_, ?_, ?_⟩
  · intro hv
    simp only [postSubmit, hv]
  · intro b1 hv hnone
    simp only [postSubmit, hv, submitHandler, findActiveCategory_none hnone]
  · intro b1 c hv hc hnone
    simp only [postSubmit, hv, submitHandler, hc, findActiveSubcategoryOf_none hnone]
  · intro hne
    unfold postSubmit at hne ⊢
    cases hv : qenv.submitFieldsValid b with
    | none => simp [hv] at hne
    | some b1 =>
      simp only [hv] at hne ⊢
      unfold submitHandler at hne ⊢
      cases hc : findActiveCategory cats b1.category with
      | none => simp [hc] at hne
      | some c =>
        simp only [hc] at hne ⊢
        cases hs : findActiveSubcategoryOf subs b1.subcategory c._id with
        | none => simp [hs] at hne
        | some sc =>
          simp only [hs] at hne ⊢
          by_cases hvalid : qenv.suggestionSchemaValid
              (newSuggestion newId now c._id sc._id b1.suggestionText) = true
          · obtain ⟨h1, h2, h3⟩ := findActiveCategory_some hc
            obtain ⟨h4, h5, h6, h7⟩ := findActiveSubcategoryOf_some hs
            simp only [hvalid, Bool.not_true, Bool.false_eq_true, if_false]
            exact ⟨b1, c, sc, suggestionPreSave (newSuggestion newId now c._id sc._id b1.suggestionText),
              rfl, hc, hs, h1, h2, h3, h4, h5, h6, h7, trivial, rfl, rfl, rfl⟩
          · simp [hvalid] at hne

/-- Witness of C14: the archived category is refused, the active one is
written with the ids found. -/
theorem submit_writes_only_after_both_lookups_witness :
    postSubmit sampleQueryEnv sampleCategories sampleSubcategories [] 9 77
        { sampleSubmit with category := "Archive" }
      = (fail 400 "Invalid category selected", []) ∧
    (postSubmit sampleQueryEnv sampleCategories sampleSubcategories [] 9 77 sampleSubmit).2.map
        (fun s => (s.category, s.subcategory)) = [(1, 2)] :=
  ⟨(submit_writes_only_after_both_lookups sampleQueryEnv sampleCategories sampleSubcategories []
      9 77 { sampleSubmit with category := "Archive" }).2.1
      { sampleSubmit with category := "Archive" } rfl (by decide),
   by decide⟩

/-! ## The search filter -/

theorem matchHere_plain : ∀ (p t : List Char), (∀ c ∈ p, isRegexOperator c = false) →
    matchHere p t = (p.map Char.toLower).isPrefixOf (t.map Char.toLower)
  | [], _, _ => by simp [matchHere]
  | _ :: _, [], _ => by simp [matchHere, List.isPrefixOf]
  | c :: ps, t :: ts, h => by
    have hc : c ≠ '.' := by
      intro hdot
      have := h c (List.mem_cons_self _ _)
      rw [hdot] at this
      exact absurd this (by decide)
    have ih := matchHere_plain ps ts (fun x hx => h x (List.mem_cons_of_mem _ hx))
    simp only [matchHere, hc, if_false, ih, List.map_cons, List.isPrefixOf]
    rfl

theorem searchFrom_plain (p : List Char) (hp : ∀ c ∈ p, isRegexOperator c = false) :
    ∀ t : List Char, searchFrom p t = includes (t.map Char.toLower) (p.map Char.toLower)
  | [] => by
    cases p with
    | nil => simp [searchFrom, matchHere, includes]
    | cons c cs => simp [searchFrom, matchHere, includes]
  | t :: ts => by
    have ih := searchFrom_plain p hp ts
    simp only [searchFrom, matchHere_plain p (t :: ts) hp, ih, List.map_cons, includes]

theorem plainTerm_spec {p : List Char} (hp : plainTerm p = true) :
    ∀ c ∈ p, isRegexOperator c = false := by
  unfold plainTerm at hp
  rw [List.all_eq_true] at hp
  intro c hc
  have := hp c hc
  simp only [Bool.and_eq_true, Bool.not_eq_true'] at this
  exact this.2

theorem simplePattern_of_plain {p : List Char} (hp : plainTerm p = true) :
    simplePattern p = true := by
  unfold plainTerm at hp
  unfold simplePattern
  rw [List.all_eq_true] at hp ⊢
  intro c hc
  have := hp c hc
  simp only [Bool.and_eq_true, Bool.not_eq_true', decide_eq_true_eq] at this
  simp [this.1, this.2]

/-- C15, amended.  For every search term of ASCII characters without an
operator character of regular expressions, the listing selects exactly the
suggestions that satisfy the other constraints of the filter and whose body or
reply contains the term as a substring, the letters A to Z compared without
case. -/
theorem search_selects_substring_for_plain_terms (qenv : QueryEnv) (cats : List Category)
    (subs : List Subcategory) (sdb : List Suggestion) (q : ListQuery) (term : String)
    (hq : q.search = some term) (hne : term ≠ "") (hplain : plainTerm term.data = true) :
    findSuggestions qenv (listFilter cats subs q) sdb
      = some (sdb.filter (fun s =>
          (listFilter cats subs q).selects none s &&
            (containsIgnoreCase term s.suggestionText || containsIgnoreCase term s.reply))) := by
  have hs : (listFilter cats subs q).search = some term := by
    simp [listFilter, hq, truthy, hne]
  unfold findSuggestions
  simp only [hs, regexI, simplePattern_of_plain hplain, if_true]
  congr 2
  funext s
  simp only [Filter.selects, searchFrom_plain term.data (plainTerm_spec hplain),
    containsIgnoreCase, Bool.and_true]

/-- Witness of C15 as amended: the term `PRINTER` selects the sample suggestion
about the printer and not the one about the coffee machine. -/
theorem search_selects_substring_for_plain_terms_witness :
    findSuggestions sampleQueryEnv
        (listFilter sampleCategories sampleSubcategories
          { emptyListQuery with search := some "PRINTER" }) [samplePrinter, samplePending]
      = some [samplePrinter] :=
  (search_selects_substring_for_plain_terms sampleQueryEnv sampleCategories sampleSubcategories
    [samplePrinter, samplePending] { emptyListQuery with search := some "PRINTER" } "PRINTER"
    rfl (by decide) (by decide)).trans (by decide)

/-- Counterexample to C15 as stated: neither the body nor the reply of the
sample suggestion about the printer contains `a.c`, but the listing with the
search term `a.c` selects it, since `.` matches the `b` of `abc`. -/
theorem search_term_is_a_pattern :
    containsIgnoreCase "a.c" samplePrinter.suggestionText = false ∧
    containsIgnoreCase "a.c" samplePrinter.reply = false ∧
    (getSuggestionsHandler sampleQueryEnv sampleCategories sampleSubcategories
        [samplePrinter, samplePending] { emptyListQuery with search := some "a.c" }).suggestions
      = [samplePrinter] := by
  decide

/-! ## Category constraints of the filters -/

/-- The listing resolves names: a category or subcategory constraint of its
filter is the id of an active record that has the name of the request. -/
theorem listFilter_constraints_are_active (cats : List Category) (subs : List Subcategory)
    (q : ListQuery) :
    (∀ id, (listFilter cats subs q).category = some id →
      ∃ c ∈ cats, c._id = id ∧ c.isActive = true ∧ q.category = some c.name) ∧
    (∀ id, (listFilter cats subs q).subcategory = some id →
      ∃ sc ∈ subs, sc._id = id ∧ sc.isActive = true ∧ q.subcategory = some sc.name) := by
  refine ⟨?_, ?_⟩
  · intro id h
    simp only [listFilter] at h
    cases hq : q.category with
    | none => simp [hq, truthy] at h
    | some name =>
      by_cases hname : name = ""
      · simp [hq, truthy, hname] at h
      · simp only [hq, truthy, hname, if_false] at h
        cases hc : findActiveCategory cats name with
        | none => simp [hc] at h
        | some c =>
          simp only [hc, Option.map_some', Option.some.injEq] at h
          obtain ⟨h1, h2, h3⟩ := findActiveCategory_some hc
          exact ⟨c, h1, h, h3, by rw [h2]⟩
  · intro id h
    simp only [listFilter] at h
    cases hq : q.subcategory with
    | none => simp [hq, truthy] at h
    | some name =>
      by_cases hname : name = ""
      · simp [hq, truthy, hname] at h
      · simp only [hq, truthy, hname, if_false] at h
        cases hc : findActiveSubcategory subs name with
        | none => simp [hc] at h
        | some sc =>
          simp only [hc, Option.map_some', Option.some.injEq] at h
          unfold findActiveSubcategory at hc
          have hp := List.find?_some hc
          simp only [Bool.and_eq_true, decide_eq_true_eq] at hp
          exact ⟨sc, List.mem_of_find?_eq_some hc, h, hp.2, by rw [hp.1]⟩

/-- C16 at the failing input.  No active sample category has the id
`00000000000000000000000c`: it is the id of the archived category.  The export
with this string as `filters.category` places the string in its filter, the
query casts it to the id, and the answer, 200, holds the suggestion of the
archived category; the listing asked for the name `Archive` places no category
constraint in its filter. -/
theorem export_filter_holds_raw_category :
    (sampleCategories.filter (fun c => c.isActive)).map (fun c => c._id) = [1] ∧
    (exportFilter sampleExportBody.filtersOrEmpty).category = some "00000000000000000000000c" ∧
    (castRawFilter (exportFilter sampleExportBody.filtersOrEmpty)).map (fun f => f.category)
      = some (some 12) ∧
    (postExport sampleEnv sampleQueryEnv sampleDb [samplePrinter, samplePending] 5
        sampleExportReq).status = 200 ∧
    (postExport sampleEnv sampleQueryEnv sampleDb [samplePrinter, samplePending] 5
        sampleExportReq).suggestions = [samplePrinter] ∧
    (listFilter sampleCategories sampleSubcategories
        { emptyListQuery with category := some "Archive" }).category = none := by
  decide

/-! ## Hashing of the stored password -/

theorem updateById_passwords (db : List Admin) (i : ObjectId) (f : Admin → Admin)
    (hf : ∀ d, (f d).password = d.password) :
    (updateById db i f).map (fun d => d.password) = db.map (fun d => d.password) := by
  unfold updateById
  rw [List.map_map]
  apply List.map_congr_left
  intro d _
  by_cases h : d._id = i <;> simp [h, hf]

theorem incLoginAttempts_passwords (db : List Admin) (admin : Admin) (now : Nat) :
    (incLoginAttempts db admin now).map (fun d => d.password) = db.map (fun d => d.password) := by
  unfold incLoginAttempts
  split
  · exact updateById_passwords db _ _ (fun _ => rfl)
  · split
    · exact updateById_passwords db _ _ (fun _ => rfl)
    · exact updateById_passwords db _ _ (fun _ => rfl)

theorem saveLoaded_unmodified_passwords (env : Env) (db : List Admin) (doc : Admin)
    (p : Admin × List Admin) (h : saveLoaded env db doc false = some p) :
    p.2.map (fun d => d.password) = db.map (fun d => d.password) := by
  unfold saveLoaded at h
  by_cases hvalid : env.schemaValid doc = true
  · cases hpre : preSave env false doc with
    | none => simp [hvalid, hpre] at h
    | some doc1 =>
      simp only [hvalid, hpre, Bool.not_true, Bool.false_eq_true, if_false,
        Option.some.injEq] at h
      subst h
      exact updateById_passwords db _ _ (fun _ => rfl)
  · simp [hvalid] at h

/-- What the password hook of `save` leaves in the document. -/
theorem preSave_password (env : Env) (pm : Bool) (doc doc1 : Admin)
    (h : preSave env pm doc = some doc1) :
    doc1.password = if pm then doc.password.map (env.bcryptHash (saltRounds env))
                    else doc.password := by
  cases pm
  · simp only [preSave, Bool.false_eq_true, if_false] at h
    split at h
    · cases h
    · simp only [Option.some.injEq] at h
      subst h
      rfl
  · simp only [preSave, if_true] at h
    split at h
    · cases h
    · simp only [Option.some.injEq] at h
      subst h
      rfl

/-- A login request leaves every stored password as it is. -/
theorem postLogin_passwords (env : Env) (db : List Admin) (now : Nat) (b : LoginBody) :
    (postLogin env db now b).2.map (fun d => d.password) = db.map (fun d => d.password) := by
  unfold postLogin
  cases env.loginFieldsValid (sanitizeLoginBody b) with
  | none => rfl
  | some b1 =>
    simp only
    unfold loginHandler
    cases findByEmailForLogin db b1.email with
    | none => rfl
    | some admin =>
      simp only
      have hreset : (resetLoginAttempts db admin).map (fun d => d.password)
          = db.map (fun d => d.password) :=
        updateById_passwords db _ _ (fun _ => rfl)
      have hsave := saveLoaded_unmodified_passwords env (resetLoginAttempts db admin)
        { admin with lastLogin := some now }
      generalize saveLoaded env (resetLoginAttempts db admin)
        { admin with lastLogin := some now } false = S at hsave
      split
      · rfl
      · split
        · rfl
        · cases admin.password with
          | none => rfl
          | some hash =>
            simp only
            split
            · exact incLoginAttempts_passwords db admin now
            · cases S with
              | none => exact hreset
              | some p =>
                simp only
                rw [hsave p rfl, hreset]

/-- C19.  The save hook hashes the password exactly when the password was
modified: a save with an unmodified password (as the last-login save of a
login request) leaves every stored password as it is, and a save with a
modified password stores the hash of the new plaintext computed with the
configured cost, which is 12 when none is configured. -/
theorem save_hashes_iff_password_modified (env : Env) (db : List Admin) (doc : Admin) :
    (∀ pm doc1, preSave env pm doc = some doc1 →
      doc1.password = if pm then doc.password.map (env.bcryptHash (saltRounds env))
                      else doc.password) ∧
    (∀ p, saveLoaded env db doc false = some p →
      p.2.map (fun d => d.password) = db.map (fun d => d.password)) ∧
    (∀ p plaintext, doc.password = some plaintext → saveLoaded env db doc true = some p →
      ∀ d ∈ p.2, d._id = doc._id →
        d.password = some (env.bcryptHash (saltRounds env) plaintext)) ∧
    (env.bcryptRounds = none → saltRounds env = 12) ∧
    (∀ n, env.bcryptRounds = some n → n ≠ 0 → saltRounds env = n) ∧
    (∀ now b, (postLogin env db now b).2.map (fun d => d.password)
      = db.map (fun d => d.password)) := by
  refine ⟨fun pm => preSave_password env pm doc, saveLoaded_unmodified_passwords env db doc,
    ?_, ?_, ?_,
    postLogin_passwords env db⟩
  · intro p plaintext hpw h d hd hid
    unfold saveLoaded at h
    by_cases hvalid : env.schemaValid doc = true
    · cases hpre : preSave env true doc with
      | none => simp [hvalid, hpre] at h
      | some doc1 =>
        simp only [hvalid, hpre, Bool.not_true, Bool.false_eq_true, if_false,
          Option.some.injEq] at h
        subst h
        obtain ⟨x, _, _, rfl⟩ := mem_updateById hd hid
        simp only [if_true]
        rw [preSave_password env true doc doc1 hpre, hpw]
        rfl
    · simp [hvalid] at h
  · intro h
    simp [saltRounds, h]
  · intro n h hn
    simp [saltRounds, h, hn]

/-- Witness of C19: the last-login save of a sample login keeps the stored
hashes, and the sample password change stores the hash of cost 12. -/
theorem save_hashes_iff_password_modified_witness :
    (postLogin sampleEnv sampleDb 9 (sampleGoodLogin 9).body).2.map (fun d => d.password)
      = sampleDb.map (fun d => d.password) ∧
    saltRounds sampleEnv = 12 ∧
    (findById (postChangePassword sampleEnv sampleDb 5 sampleChangePasswordGood).2 171).map
        (fun d => d.password) = some (some (sampleEnv.bcryptHash 12 "NewSecret#34")) :=
  ⟨(save_hashes_iff_password_modified sampleEnv sampleDb sampleCoo).2.2.2.2.2 9
      (sampleGoodLogin 9).body,
   (save_hashes_iff_password_modified sampleEnv sampleDb sampleCoo).2.2.2.1 rfl,
   by decide⟩

/-- C20 at the failing input.  The sample COO updates the HR account with the
password `NewSecret!34`, which passes the password chain of
`validateAdminData`: `PUT /admins/:id` answers 200 and the stored password is
that plaintext, not its hash; creating an account with the same password,
changing a password and the default account store the hash. -/
theorem update_admin_stores_plaintext_password :
    passwordValid "NewSecret!34" = true ∧
    (sampleEnvStrict.adminFieldsValid samplePasswordUpdateReq.body).isSome = true ∧
    (putAdmin sampleEnvStrict sampleDb 5 samplePasswordUpdateReq).1.status = 200 ∧
    (findById (putAdmin sampleEnvStrict sampleDb 5 samplePasswordUpdateReq).2 2).map
        (fun d => d.password) = some (some "NewSecret!34") ∧
    sampleEnvStrict.bcryptHash (saltRounds sampleEnvStrict) "NewSecret!34"
      = "$12$NewSecret!34" ∧
    (findById (postAdmins sampleEnvStrict sampleDb 5 9 sampleCreateReq).2 9).map
        (fun d => d.password) = some (some "$12$NewSecret!34") ∧
    (findById (postChangePassword sampleEnvStrict sampleDb 5 sampleChangePasswordGood).2 171).map
        (fun d => d.password) = some (some "$12$NewSecret#34") ∧
    (createDefaultAdmin sampleEnvStrict [] 9 "admin@company.com" (some "admin123") none).map
        (fun d => d.password) = [some "$12$admin123"] := by
  decide

/-! ## Roles -/

/-- C21.  `requireRole` lets a request through exactly when the role of the
attached account is a member of the list of roles it was given, answers 403
otherwise and 401 when no account is attached; a single role behaves as the
list of that role alone. -/
theorem requireRole_spec {β : Type} (arg : RolesArg) (req : Req β) :
    (req.admin = none →
      requireRole (allowedRoles arg) req = .respond (fail 401 "Authentication required")) ∧
    (∀ a, req.admin = some a →
      (requireRole (allowedRoles arg) req = .next req ↔ a.role ∈ allowedRoles arg) ∧
      (a.role ∉ allowedRoles arg →
        requireRole (allowedRoles arg) req
          = .respond (fail 403 "Insufficient role permissions"))) ∧
    (∀ r : String, allowedRoles (.one r) = allowedRoles (.many [r])) := by
  refine ⟨?_, ?_, fun _ => rfl⟩
  · intro h
    simp [requireRole, h]
  · intro a h
    by_cases hr : a.role ∈ allowedRoles arg
    · simp [requireRole, h, hr]
    · simp [requireRole, h, hr]

/-- Witness of C21: the COO account passes `requireRole('COO')`. -/
theorem requireRole_spec_witness :
    requireRole (allowedRoles (.one "COO")) sampleCooAttachedReq = .next sampleCooAttachedReq :=
  ((requireRole_spec (.one "COO") sampleCooAttachedReq).2.1 sampleCoo rfl).1.mpr (by decide)

/-! ## Logins that change nothing -/

/-- C26.  A login request whose email finds a locked account is answered 423
whatever password it carries and leaves the store as it is (the failed
counter, the lock expiry and the last login time with it); so does every
sequence of such requests. -/
theorem locked_login_changes_nothing (env : Env) (db : List Admin) :
    (∀ (now : Nat) (b v : LoginBody) (a : Admin),
      env.loginFieldsValid (sanitizeLoginBody b) = some v →
      findByEmailForLogin db v.email = some a → a.isLocked now = true →
      postLogin env db now b
        = (fail 423 "Account is temporarily locked due to multiple failed login attempts. Please try again later.", db)) ∧
    (∀ rs : List LoginReq,
      (∀ r ∈ rs, ∃ v a, env.loginFieldsValid (sanitizeLoginBody r.body) = some v ∧
        findByEmailForLogin db v.email = some a ∧ a.isLocked r.now = true) →
      runLogins env db rs = db) := by
  have h1 : ∀ (now : Nat) (b v : LoginBody) (a : Admin),
      env.loginFieldsValid (sanitizeLoginBody b) = some v →
      findByEmailForLogin db v.email = some a → a.isLocked now = true →
      postLogin env db now b
        = (fail 423 "Account is temporarily locked due to multiple failed login attempts. Please try again later.", db) := by
    intro now b v a hv hf hl
    simp [postLogin, loginHandler, hv, hf, hl]
  refine ⟨h1, ?_⟩
  intro rs
  induction rs with
  | nil => intro _; rfl
  | cons r rs ih =>
    intro h
    obtain ⟨v, a, hv, hf, hl⟩ := h r (List.mem_cons_self _ _)
    simp only [runLogins]
    rw [h1 r.now r.body v a hv hf hl]
    exact ih (fun q hq => h q (List.mem_cons_of_mem _ hq))

/-- Witness of C26: a login with the right password on the locked COO account. -/
theorem locked_login_changes_nothing_witness :
    postLogin sampleEnv sampleDbLocked 50 (sampleGoodLogin 50).body
      = (fail 423 "Account is temporarily locked due to multiple failed login attempts. Please try again later.", sampleDbLocked) :=
  (locked_login_changes_nothing sampleEnv sampleDbLocked).1 50 (sampleGoodLogin 50).body
    (sanitizeLoginBody (sampleGoodLogin 50).body)
    { sampleCoo with loginAttempts := some 5, lockUntil := some 100 }
    (by decide) (by decide) (by decide)

/-- C27.  A login request whose email finds no account and a login request
with a wrong password for an account that exists, is active and is not locked
get the same answer: status 401 with the error `Invalid credentials`. -/
theorem unknown_email_answered_as_wrong_password (env : Env) (db : List Admin)
    (now1 : Nat) (b1 v1 : LoginBody) (r2 : LoginReq) (a : Admin)
    (hv1 : env.loginFieldsValid (sanitizeLoginBody b1) = some v1)
    (hnone : findByEmailForLogin db v1.email = none)
    (hatt : loginAttempt env db r2 = some (a, false))
    (hlock : a.isLocked r2.now = false) (hact : a.isActive = true) :
    (postLogin env db now1 b1).1 = fail 401 "Invalid credentials" ∧
    (postLogin env db r2.now r2.body).1 = fail 401 "Invalid credentials" ∧
    (postLogin env db now1 b1).1 = (postLogin env db r2.now r2.body).1 := by
  have h1 : (postLogin env db now1 b1).1 = fail 401 "Invalid credentials" := by
    simp [postLogin, loginHandler, hv1, hnone]
  have h2 : (postLogin env db r2.now r2.body).1 = fail 401 "Invalid credentials" := by
    rw [postLogin_wrong env db r2 a hatt hlock hact]
  exact ⟨h1, h2, h1.trans h2.symm⟩

/-- Witness of C27: an unknown email and a wrong password for the COO account. -/
theorem unknown_email_answered_as_wrong_password_witness :
    (postLogin sampleEnv sampleDb 5 { email := "nobody@x.io", password := "Secret#12" }).1
      = (postLogin sampleEnv sampleDb 7 (sampleBadLogin 7).body).1 :=
  (unknown_email_answered_as_wrong_password sampleEnv sampleDb 5
    { email := "nobody@x.io", password := "Secret#12" }
    (sanitizeLoginBody { email := "nobody@x.io", password := "Secret#12" })
    (sampleBadLogin 7) sampleCoo (by decide) (by decide) (by decide) (by decide)
    (by decide)).2.2

/-! ## The last page of a listing -/

theorem ceilDiv_gt_iff (total size page : Nat) (hsize : 1 ≤ size) :
    page < ceilDiv total size ↔ page * size < total := by
  have hdecomp : total / size * size + total % size = total := by
    rw [Nat.mul_comm]
    exact Nat.div_add_mod total size
  have hlt : total % size < size := Nat.mod_lt _ (by omega)
  unfold ceilDiv
  by_cases hmod : total % size = 0
  · rw [if_pos hmod]
    constructor
    · intro h
      have := Nat.mul_le_mul_right size (Nat.succ_le_of_lt h)
      rw [Nat.succ_mul] at this
      omega
    · intro h
      by_contra hge
      have := Nat.mul_le_mul_right size (Nat.le_of_not_lt hge)
      omega
  · rw [if_neg hmod]
    constructor
    · intro h
      have := Nat.mul_le_mul_right size (Nat.le_of_lt_succ h)
      omega
    · intro h
      by_contra hge
      have := Nat.mul_le_mul_right size (Nat.le_of_not_lt hge)
      rw [Nat.succ_mul] at this
      omega

/-- C28.  For every page `page ≥ 1` and page size `size ≥ 1` the listing
reports `hasNextPage` exactly when `page * size` is below the number of
matching suggestions; when `hasNextPage` is false and the page is not beyond
`totalPages`, the page is the last page that is not empty: it is `totalPages`,
it holds a suggestion, and the page after it holds none (the sort keeping the
number of documents). -/
theorem hasNextPage_spec (qenv : QueryEnv) (cats : List Category) (subs : List Subcategory)
    (sdb : List Suggestion) (q : ListQuery) (page size : Nat) (matching : List Suggestion)
    (hp : q.page = some page) (hl : q.limit = some size) (hpage : 1 ≤ page) (hsize : 1 ≤ size)
    (hfind : findSuggestions qenv (listFilter cats subs q) sdb = some matching) :
    ∃ pg, (getSuggestionsHandler qenv cats subs sdb q).pagination = some pg ∧
      (pg.hasNextPage = true ↔ page * size < matching.length) ∧
      (pg.hasNextPage = false → page ≤ pg.totalPages →
        page = pg.totalPages ∧
        (page - 1) * size < matching.length ∧ matching.length ≤ page * size ∧
        ((qenv.sortSuggestions (q.sortBy.getD "createdAt")
            (decide (q.sortOrder.getD "desc" = "desc")) matching).length = matching.length →
          (getSuggestionsHandler qenv cats subs sdb q).suggestions ≠ [] ∧
          (getSuggestionsHandler qenv cats subs sdb
            { q with page := some (page + 1) }).suggestions = [])) := by
  have hres : getSuggestionsHandler qenv cats subs sdb q
      = { status := 200
          suggestions :=
            ((qenv.sortSuggestions (q.sortBy.getD "createdAt")
                (decide (q.sortOrder.getD "desc" = "desc")) matching).drop
              ((page - 1) * size)).take size
          pagination := some
            { currentPage := page
              totalPages := ceilDiv matching.length size
              totalItems := matching.length
              itemsPerPage := size
              hasNextPage := decide (page < ceilDiv matching.length size)
              hasPrevPage := decide (page > 1) } } := by
    simp only [getSuggestionsHandler, hfind, hp, hl, Option.getD_some]
  have hnext : (getSuggestionsHandler qenv cats subs sdb
        { q with page := some (page + 1) }).suggestions
      = ((qenv.sortSuggestions (q.sortBy.getD "createdAt")
            (decide (q.sortOrder.getD "desc" = "desc")) matching).drop
          (page * size)).take size := by
    have hf : listFilter cats subs { q with page := some (page + 1) } = listFilter cats subs q :=
      rfl
    unfold getSuggestionsHandler
    simp only [hf, hfind]
    simp only [hl, Option.getD_some, Nat.add_sub_cancel]
  rw [hnext, hres]
  refine ⟨_, rfl, ?_, ?_⟩
  · simp only [decide_eq_true_eq]
    exact ceilDiv_gt_iff _ _ _ hsize
  · simp only [decide_eq_false_iff_not]
    intro hno hle
    have hnot : ¬ page * size < matching.length := fun h =>
      hno ((ceilDiv_gt_iff _ _ _ hsize).mpr h)
    have hprev : (page - 1) * size < matching.length :=
      (ceilDiv_gt_iff _ _ _ hsize).mp (by omega)
    refine ⟨by omega, hprev, by omega, ?_⟩
    intro hsort
    constructor
    · intro hnil
      have hlen := congrArg List.length hnil
      simp only [List.length_take, List.length_drop, hsort, List.length_nil] at hlen
      omega
    · apply List.eq_nil_of_length_eq_zero
      simp only [List.length_take, List.length_drop, hsort]
      omega

/-- Witness of C28: page 3 of size 20 over the 45 sample suggestions is the
last page. -/
theorem hasNextPage_spec_witness :
    ∃ pg, (getSuggestionsHandler sampleQueryEnv sampleCategories sampleSubcategories
        sampleSuggestions { emptyListQuery with page := some 3, limit := some 20 }).pagination
        = some pg ∧
      (pg.hasNextPage = true ↔ 3 * 20 < sampleSuggestions.length) :=
  (hasNextPage_spec sampleQueryEnv sampleCategories sampleSubcategories sampleSuggestions
    { emptyListQuery with page := some 3, limit := some 20 } 3 20 sampleSuggestions
    rfl rfl (by decide) (by decide) (by decide)).imp fun _ h => ⟨h.1, h.2.1⟩

/-! ## Names of categories that are not known -/

theorem findActiveSubcategory_none {subs : List Subcategory} {name : String}
    (h : ∀ sc ∈ subs, sc.isActive = true → sc.name ≠ name) :
    findActiveSubcategory subs name = none := by
  unfold findActiveSubcategory
  rw [List.find?_eq_none]
  intro sc hsc hp
  simp only [Bool.and_eq_true, decide_eq_true_eq] at hp
  exact h sc hsc hp.2 hp.1

/-- C29.  A category name in the query of the listing that is the name of no
active category, and a subcategory name that is the name of no active
subcategory, add no constraint: the filter and the answer are those of the
same query without the name. -/
theorem unknown_name_adds_no_constraint (qenv : QueryEnv) (cats : List Category)
    (subs : List Subcategory) (sdb : List Suggestion) (q : ListQuery) :
    (∀ name, q.category = some name →
      (∀ c ∈ cats, c.isActive = true → c.name ≠ name) →
      (listFilter cats subs q).category = none ∧
      listFilter cats subs q = listFilter cats subs { q with category := none } ∧
      getSuggestionsHandler qenv cats subs sdb q
        = getSuggestionsHandler qenv cats subs sdb { q with category := none }) ∧
    (∀ name, q.subcategory = some name →
      (∀ sc ∈ subs, sc.isActive = true → sc.name ≠ name) →
      (listFilter cats subs q).subcategory = none ∧
      listFilter cats subs q = listFilter cats subs { q with subcategory := none } ∧
      getSuggestionsHandler qenv cats subs sdb q
        = getSuggestionsHandler qenv cats subs sdb { q with subcategory := none }) := by
  constructor
  · intro name hq hno
    have hc : (listFilter cats subs q).category = none := by
      simp only [listFilter, hq, truthy]
      by_cases he : name = ""
      · simp [he]
      · simp [he, findActiveCategory_none hno]
    have hf : listFilter cats subs q = listFilter cats subs { q with category := none } := by
      have h0 : (listFilter cats subs { q with category := none }).category = none := rfl
      simp only [listFilter, truthy, Filter.mk.injEq, and_true] at hc h0 ⊢
      rw [hc]
    refine ⟨hc, hf, ?_⟩
    simp only [getSuggestionsHandler, hf]
  · intro name hq hno
    have hc : (listFilter cats subs q).subcategory = none := by
      simp only [listFilter, hq, truthy]
      by_cases he : name = ""
      · simp [he]
      · simp [he, findActiveSubcategory_none hno]
    have hf : listFilter cats subs q = listFilter cats subs { q with subcategory := none } := by
      have h0 : (listFilter cats subs { q with subcategory := none }).subcategory = none := rfl
      simp only [listFilter, truthy, Filter.mk.injEq, and_true, true_and] at hc h0 ⊢
      rw [hc]
    refine ⟨hc, hf, ?_⟩
    simp only [getSuggestionsHandler, hf]

/-- Witness of C29: the name of the inactive sample category. -/
theorem unknown_name_adds_no_constraint_witness :
    getSuggestionsHandler sampleQueryEnv sampleCategories sampleSubcategories sampleSuggestions
        { emptyListQuery with category := some "Archive" }
      = getSuggestionsHandler sampleQueryEnv sampleCategories sampleSubcategories
          sampleSuggestions { emptyListQuery with category := none } :=
  ((unknown_name_adds_no_constraint sampleQueryEnv sampleCategories sampleSubcategories
    sampleSuggestions { emptyListQuery with category := some "Archive" }).1 "Archive" rfl
    (by decide)).2.2

/-! ## The status of an account and its `isActive` flag -/

/-- C24.  In the sample store every account has status `active` exactly when
it is active; after the toggle of the HR account by the COO, answered 200, the
HR account is stored inactive with the status `active`. -/
theorem status_toggle_leaves_status :
    (∀ d ∈ sampleDb, d.status = "active" ↔ d.isActive = true) ∧
    (patchAdminStatus sampleEnv sampleDb 5 sampleDeactivateHrReq).1.status = 200 ∧
    (patchAdminStatus sampleEnv sampleDb 5 sampleDeactivateHrReq).2
      = [sampleCoo, { sampleHr with isActive := false }] ∧
    ∃ d ∈ (patchAdminStatus sampleEnv sampleDb 5 sampleDeactivateHrReq).2,
      d.status = "active" ∧ d.isActive = false := by
  refine ⟨by decide, by decide, by decide, { sampleHr with isActive := false }, by decide,
    by decide, by decide⟩

/-! ## Creating an account and logging in -/

/-- C25.  The password `Abcdef1!/x` passes the password chain of
`validateAdminData`; the account created with it is stored active, not locked,
with the hash of that password, which `bcrypt.compare` accepts for it; and the
login with the same email and password is answered 401. -/
theorem created_account_cannot_log_in :
    passwordValid "Abcdef1!/x" = true ∧
    (postAdmins sampleEnvStrict sampleDb 5 9 sampleCreateSlashReq).1.status = 201 ∧
    (∃ d ∈ (postAdmins sampleEnvStrict sampleDb 5 9 sampleCreateSlashReq).2,
      d.email = sampleSlashLogin.email ∧ d.isActive = true ∧ d.isLocked 6 = false ∧
      d.password = some (sampleEnvStrict.bcryptHash 12 sampleSlashLogin.password) ∧
      sampleEnvStrict.bcryptCompare sampleSlashLogin.password
        (sampleEnvStrict.bcryptHash 12 sampleSlashLogin.password) = true) ∧
    (postLogin sampleEnvStrict (postAdmins sampleEnvStrict sampleDb 5 9 sampleCreateSlashReq).2 6
        sampleSlashLogin).1 = fail 401 "Invalid credentials" := by
  refine ⟨by decide, by decide,
    ⟨({ newAdmin 9 sampleCreateSlashReq.body with password := some "$12$Abcdef1!/x" } : Admin),
      by decide, by decide, by decide, by decide, by decide, by decide⟩, by decide⟩

/-! ## Creating accounts -/

theorem toLower_toLower (c : Char) : c.toLower.toLower = c.toLower := by
  by_cases h : 65 ≤ c.toNat ∧ c.toNat ≤ 90
  · have hc : c = Char.ofNat c.toNat := (Char.ofNat_toNat c).symm
    obtain ⟨h1, h2⟩ := h
    rw [hc]
    generalize c.toNat = n at h1 h2
    interval_cases n <;> rfl
  · have hc : c.toLower = c := by
      unfold Char.toLower
      simp only [ge_iff_le]
      rw [if_neg h]
    rw [hc, hc]

theorem toLowerCase_toLowerCase (s : String) : toLowerCase (toLowerCase s) = toLowerCase s := by
  unfold toLowerCase
  simp only [List.map_map]
  congr 1
  apply List.map_congr_left
  intro c _
  exact toLower_toLower c

theorem preSave_keeps {env : Env} {pm : Bool} {doc doc1 : Admin}
    (h : preSave env pm doc = some doc1) :
    doc1.email = doc.email ∧ doc1.permissions = doc.permissions ∧ doc1._id = doc._id := by
  unfold preSave at h
  cases pm <;> simp only [Bool.false_eq_true, if_true, if_false] at h <;>
    split at h <;> first | (cases h; exact ⟨rfl, rfl, rfl⟩) | cases h

theorem saveNew_some {env : Env} {db db1 : List Admin} {doc doc1 : Admin}
    (h : saveNew env db doc = some (doc1, db1)) :
    db1 = db ++ [doc1] ∧ doc1.email = doc.email ∧ doc1.permissions = doc.permissions ∧
      ∀ d ∈ db, d.email ≠ doc1.email := by
  unfold saveNew at h
  split at h
  · cases h
  · cases hp : preSave env true doc with
    | none => simp [hp] at h
    | some d1 =>
      simp only [hp] at h
      split at h
      · cases h
      · rename_i hany
        simp only [Option.some.injEq, Prod.mk.injEq] at h
        obtain ⟨rfl, rfl⟩ := h
        have hk := preSave_keeps hp
        refine ⟨rfl, hk.1, hk.2.1, ?_⟩
        intro d hd he
        apply hany
        rw [List.any_eq_true]
        exact ⟨d, hd, by simpa using he⟩

/-- The handler of `POST /admins` either leaves the store and answers with an
error, or stores the new document at the end. -/
theorem postAdminsHandler_cases (env : Env) (db : List Admin) (newId : ObjectId)
    (req : Req AdminBody) :
    ((postAdminsHandler env db newId req).2 = db ∧
      (postAdminsHandler env db newId req).1.status ≠ 201) ∨
    ∃ doc, saveNew env db (newAdmin newId req.body) = some (doc, db ++ [doc]) ∧
      (postAdminsHandler env db newId req).2 = db ++ [doc] ∧
      (postAdminsHandler env db newId req).1.status = 201 ∧
      (postAdminsHandler env db newId req).1.adminDoc = some doc.withoutPassword := by
  unfold postAdminsHandler
  cases he : req.body.email with
  | none => exact Or.inl ⟨rfl, by simp [fail]⟩
  | some e =>
    simp only
    cases hf : findByEmail db e with
    | some d => exact Or.inl ⟨rfl, by simp [fail]⟩
    | none =>
      simp only
      cases hs : saveNew env db (newAdmin newId req.body) with
      | none => exact Or.inl ⟨rfl, by simp [fail]⟩
      | some p =>
        obtain ⟨doc, db1⟩ := p
        have hdb := (saveNew_some hs).1
        subst hdb
        exact Or.inr ⟨doc, rfl, rfl, rfl, rfl⟩

/-- The route `POST /admins` either leaves the store and answers with an
error, or runs its handler on the validated body with the requester attached. -/
theorem postAdmins_cases (env : Env) (db : List Admin) (now : Nat) (newId : ObjectId)
    (req : Req AdminBody) :
    ((postAdmins env db now newId req).2 = db ∧
      (postAdmins env db now newId req).1.status ≠ 201) ∨
    ∃ a v, env.adminFieldsValid req.body = some v ∧
      postAdmins env db now newId req
        = postAdminsHandler env db newId
            { req with admin := some a, body := { v with role := some (trim (v.role.getD "")) } } := by
  unfold postAdmins
  cases hauth : authenticateToken env db now req with
  | respond r =>
    left
    have hr := authenticateToken_respond env db now req r hauth
    refine ⟨rfl, ?_⟩
    simp only [Step.andThen]
    omega
  | next req1 =>
    obtain ⟨t, c, a, _, _, _, _, _, rfl⟩ := (authenticateToken_next env db now req req1).mp hauth
    simp only [Step.andThen]
    by_cases hrole : a.withoutPassword.role = "COO"
    · have hskip : sanitizeSkipped "/admins" "POST" = true := by decide
      simp only [canManageAdmins, hrole, ne_eq, not_true_eq_false, if_false, sanitizeInputs, hskip,
        if_true, logAdminAction]
      unfold validateAdminData
      cases hv : env.adminFieldsValid req.body with
      | none => exact Or.inl ⟨rfl, by simp [fail]⟩
      | some v =>
        simp only
        by_cases hin : roles.contains (trim (v.role.getD "")) = true
        · rw [if_pos hin]
          exact Or.inr ⟨a.withoutPassword, v, rfl, rfl⟩
        · rw [if_neg hin]
          exact Or.inl ⟨rfl, by simp [fail]⟩
    · left
      simp [canManageAdmins, hrole, fail]

theorem emailsCanonical_postAdmins (env : Env) (db : List Admin) (now : Nat) (newId : ObjectId)
    (req : Req AdminBody) (h : emailsCanonical db) :
    emailsCanonical (postAdmins env db now newId req).2 := by
  rcases postAdmins_cases env db now newId req with ⟨hdb, _⟩ | ⟨a, v, _, heq⟩
  · rw [hdb]
    exact h
  · rw [heq]
    rcases postAdminsHandler_cases env db newId
        { req with admin := some a, body := { v with role := some (trim (v.role.getD "")) } }
      with ⟨hdb, _⟩ | ⟨doc, hsave, hdb, _, _⟩
    · rw [hdb]
      exact h
    · rw [hdb]
      obtain ⟨_, hemail, _, hfresh⟩ := saveNew_some hsave
      have hlow : toLowerCase doc.email = doc.email := by
        rw [hemail]
        exact toLowerCase_toLowerCase _
      constructor
      · intro d hd
        rcases List.mem_append.mp hd with hd | hd
        · exact h.1 d hd
        · rw [List.mem_singleton] at hd
          rw [hd]
          exact hlow
      · rw [List.map_append, List.nodup_append]
        refine ⟨h.2, List.nodup_singleton _, ?_⟩
        intro e he1 he2
        obtain ⟨d, hd, rfl⟩ := List.mem_map.mp he1
        simp only [List.map_cons, List.map_nil, List.mem_singleton] at he2
        exact hfresh d hd he2

theorem emailsCanonical_runCreates (env : Env) :
    ∀ (cs : List CreateReq) (db : List Admin), emailsCanonical db →
      emailsCanonical (runCreates env db cs) := by
  intro cs
  induction cs with
  | nil => intro db h; exact h
  | cons c cs ih =>
    intro db h
    exact ih _ (emailsCanonical_postAdmins env db c.now c.newId c.req h)

/-- C22.  On a store whose emails are in lower case and distinct, a request to
create an account whose email equals the email of a stored account up to
letter case is rejected and adds no account, with the answer 400 of the
handler when it reaches it; and after every sequence of create requests no
two stored accounts have emails that are equal ignoring letter case. -/
theorem create_keeps_emails_distinct (env : Env) (db : List Admin) (hdb : emailsCanonical db) :
    (∀ (now : Nat) (newId : ObjectId) (req : Req AdminBody) (v : AdminBody) (e : String)
      (d : Admin), env.adminFieldsValid req.body = some v → v.email = some e → d ∈ db →
      toLowerCase d.email = toLowerCase e →
      (postAdmins env db now newId req).2 = db ∧
      (postAdmins env db now newId req).1.status ≠ 201) ∧
    (∀ (newId : ObjectId) (req : Req AdminBody) (e : String) (d : Admin),
      req.body.email = some e → d ∈ db → toLowerCase d.email = toLowerCase e →
      postAdminsHandler env db newId req
        = (fail 400 "Admin with this email already exists", db)) ∧
    (∀ cs : List CreateReq,
      emailsCanonical (runCreates env db cs) ∧
      ((runCreates env db cs).map (fun d => toLowerCase d.email)).Nodup) := by
  have hhandler : ∀ (newId : ObjectId) (req : Req AdminBody) (e : String) (d : Admin),
      req.body.email = some e → d ∈ db → toLowerCase d.email = toLowerCase e →
      postAdminsHandler env db newId req
        = (fail 400 "Admin with this email already exists", db) := by
    intro newId req e d he hd hlow
    have hfind : (findByEmail db e).isSome = true := by
      unfold findByEmail findOneByEmail
      rw [List.find?_isSome]
      exact ⟨d, hd, by simpa using (hdb.1 d hd).symm.trans hlow⟩
    unfold postAdminsHandler
    cases hf : findByEmail db e with
    | none => simp [hf] at hfind
    | some d1 => simp only [he, hf]
  refine ⟨?_, hhandler, ?_⟩
  · intro now newId req v e d hv he hd hlow
    rcases postAdmins_cases env db now newId req with h | ⟨a, v1, hv1, heq⟩
    · exact h
    · rw [hv] at hv1
      cases hv1
      rw [heq, hhandler newId _ e d he hd hlow]
      exact ⟨rfl, by simp [fail]⟩
  · intro cs
    have hc := emailsCanonical_runCreates env cs db hdb
    refine ⟨hc, ?_⟩
    have hmap : (runCreates env db cs).map (fun d => toLowerCase d.email)
        = (runCreates env db cs).map (fun d => d.email) :=
      List.map_congr_left (fun d hd => hc.1 d hd)
    rw [hmap]
    exact hc.2

/-- Witness of C22: the sample store and a create request with the email of
the COO account in upper case. -/
theorem create_keeps_emails_distinct_witness :
    postAdminsHandler sampleEnv sampleDb 9
        { sampleCreateReq with body := { sampleCreateReq.body with email := some "COO@X.IO" } }
      = (fail 400 "Admin with this email already exists", sampleDb) :=
  (create_keeps_emails_distinct sampleEnv sampleDb ⟨by decide, by decide⟩).2.1 9
    { sampleCreateReq with body := { sampleCreateReq.body with email := some "COO@X.IO" } }
    "COO@X.IO" sampleCoo rfl (by decide) (by decide)

theorem applyPermissions_get (pb : PermissionsBody) (p : Permission) :
    (applyPermissions pb).get p = (pb.get p).getD (defaultPermissions.get p) := by
  cases p <;> rfl

/-- The account a successful `POST /admins` stores, when the field validators
leave `permissions` as it was sent. -/
theorem postAdmins_created (env : Env) (db : List Admin) (now : Nat) (newId : ObjectId)
    (req : Req AdminBody)
    (hv : ∀ b v, env.adminFieldsValid b = some v → v.permissions = b.permissions)
    (h : (postAdmins env db now newId req).1.status = 201) :
    ∃ d, (postAdmins env db now newId req).2 = db ++ [d] ∧
      (postAdmins env db now newId req).1.adminDoc = some d.withoutPassword ∧
      d.permissions
        = (match req.body.permissions with
           | some p => applyPermissions p
           | none => defaultPermissions) := by
  rcases postAdmins_cases env db now newId req with ⟨_, hne⟩ | ⟨a, v, hval, heq⟩
  · exact absurd h hne
  · rw [heq] at h ⊢
    rcases postAdminsHandler_cases env db newId
        { req with admin := some a, body := { v with role := some (trim (v.role.getD "")) } }
      with ⟨_, hne⟩ | ⟨doc, hsave, hdb, _, hdoc⟩
    · exact absurd h hne
    · refine ⟨doc, hdb, hdoc, ?_⟩
      rw [(saveNew_some hsave).2.2.1, ← hv _ _ hval]
      rfl

/-- C23.  Two requests to create an account that differ only in the role, each
served on the same store and answered 201, store accounts with equal
permission sets: each permission is the value given in the request, or its
schema default when the request does not give it (the field validators
leaving `permissions` as it was sent). -/
theorem created_permissions_ignore_role (env : Env) (db : List Admin) (now1 now2 : Nat)
    (id1 id2 : ObjectId) (req : Req AdminBody) (role2 : Option String)
    (hv : ∀ b v, env.adminFieldsValid b = some v → v.permissions = b.permissions)
    (h1 : (postAdmins env db now1 id1 req).1.status = 201)
    (h2 : (postAdmins env db now2 id2
      { req with body := { req.body with role := role2 } }).1.status = 201) :
    ∃ d1 d2,
      (postAdmins env db now1 id1 req).2 = db ++ [d1] ∧
      (postAdmins env db now2 id2 { req with body := { req.body with role := role2 } }).2
        = db ++ [d2] ∧
      d1.permissions = d2.permissions ∧
      (∀ p, d1.permissions.get p
        = ((req.body.permissions.bind (fun pb => pb.get p)).getD (defaultPermissions.get p))) ∧
      defaultPermissions
        = { viewSuggestions := true, editSuggestions := false, deleteSuggestions := false,
            manageSuggestions := false, manageAdmins := false, exportData := true,
            viewAnalytics := true } := by
  obtain ⟨d1, hs1, _, hp1⟩ := postAdmins_created env db now1 id1 req hv h1
  obtain ⟨d2, hs2, _, hp2⟩ := postAdmins_created env db now2 id2 _ hv h2
  refine ⟨d1, d2, hs1, hs2, hp1.trans hp2.symm, ?_, rfl⟩
  intro p
  rw [hp1]
  cases req.body.permissions with
  | none => rfl
  | some pb => exact applyPermissions_get pb p

/-- Witness of C23: the sample create request with the role CTO and with the
role HR. -/
theorem created_permissions_ignore_role_witness :
    ∃ d1 d2,
      (postAdmins sampleEnv sampleDb 5 9 sampleCreateReq).2 = sampleDb ++ [d1] ∧
      (postAdmins sampleEnv sampleDb 5 9
        { sampleCreateReq with body := { sampleCreateReq.body with role := some "HR" } }).2
        = sampleDb ++ [d2] ∧
      d1.permissions = d2.permissions :=
  (created_permissions_ignore_role sampleEnv sampleDb 5 5 9 9 sampleCreateReq (some "HR")
    (fun b v h => by simp [sampleEnv] at h; rw [← h.2]) (by decide) (by decide)).imp
    fun _ h => h.imp fun _ h => ⟨h.1, h.2.1, h.2.2.1⟩

/-! ## Escaping and decoding -/

theorem escapeChars_nil (s : List Char) : escapeChars [] s = s := by
  induction s with
  | nil => rfl
  | cons x xs ih => simp [escapeChars, ih]

theorem replaceAll_append (c : Char) (r m rest : List Char) (h : ∀ a ∈ m, a ≠ c) :
    replaceAll c r (m ++ rest) = m ++ replaceAll c r rest := by
  induction m with
  | nil => rfl
  | cons a m ih =>
    have ha : a ≠ c := h a (List.mem_cons_self _ _)
    show replaceAll c r (a :: (m ++ rest)) = a :: (m ++ replaceAll c r rest)
    simp only [replaceAll, ha, if_false]
    rw [ih (fun b hb => h b (List.mem_cons_of_mem _ hb))]

/-- One pass of `sanitize` writes one more character as its entity. -/
theorem replaceAll_escapeChars (c : Char) (E : List Char) (hcE : c ∉ E)
    (hent : ∀ y ∈ E, ∀ a ∈ entityOf y, a ≠ c) :
    ∀ s, replaceAll c (entityOf c) (escapeChars E s) = escapeChars (c :: E) s := by
  intro s
  induction s with
  | nil => rfl
  | cons x xs ih =>
    by_cases hx : x ∈ E
    · have hxc : x ≠ c := fun h => hcE (h ▸ hx)
      have hx1 : x ∈ c :: E := List.mem_cons_of_mem _ hx
      simp only [escapeChars, hx, hx1, if_true]
      rw [replaceAll_append c _ _ _ (hent x hx), ih]
    · by_cases hxc : x = c
      · subst hxc
        simp only [escapeChars, hx, if_false, List.mem_cons, true_or, if_true,
          List.singleton_append, replaceAll]
        rw [ih]
      · have hx1 : x ∉ c :: E := by
          simp only [List.mem_cons, not_or]
          exact ⟨hxc, hx⟩
        simp only [escapeChars, hx, hx1, if_false, List.singleton_append, replaceAll, hxc]
        rw [ih]

/-- The function `sanitize` writes each of the four characters as its entity. -/
theorem sanitize_eq_escapeChars (s : String) :
    (sanitize s).data = escapeChars ['/', '"', '>', '<'] s.data := by
  unfold sanitize
  simp only
  have h0 : s.data = escapeChars [] s.data := (escapeChars_nil _).symm
  have h1 := replaceAll_escapeChars '<' [] (by decide) (by decide) s.data
  have h2 := replaceAll_escapeChars '>' ['<'] (by decide) (by decide) s.data
  have h3 := replaceAll_escapeChars '"' ['>', '<'] (by decide) (by decide) s.data
  have h4 := replaceAll_escapeChars '/' ['"', '>', '<'] (by decide) (by decide) s.data
  rw [← h4, ← h3, ← h2, ← h1, ← h0]
  rfl

theorem clash_isPrefixOf : ∀ (p e : List Char), clash p e = true →
    ∀ rest, p.isPrefixOf (e ++ rest) = false := by
  intro p
  induction p with
  | nil => intro e h; simp [clash] at h
  | cons a p ih =>
    intro e h rest
    cases e with
    | nil => simp [clash] at h
    | cons b e =>
      simp only [clash, Bool.or_eq_true, bne_iff_ne, ne_eq] at h
      simp only [List.cons_append, List.isPrefixOf, Bool.and_eq_false_imp, beq_iff_eq]
      intro hab
      rcases h with h | h
      · exact absurd hab h
      · exact ih e h rest

theorem replaceLiteral_skip (p r : List Char) : ∀ (pre rest : List Char),
    replaceLiteral p r pre.length (pre ++ rest) = replaceLiteral p r 0 rest := by
  intro pre
  induction pre with
  | nil => intro rest; rfl
  | cons a pre ih =>
    intro rest
    simp only [List.length_cons, List.cons_append, replaceLiteral]
    exact ih rest

theorem replaceLiteral_through (h : Char) (q r : List Char) : ∀ (m rest : List Char),
    (∀ a ∈ m, a ≠ h) →
    replaceLiteral (h :: q) r 0 (m ++ rest) = m ++ replaceLiteral (h :: q) r 0 rest := by
  intro m
  induction m with
  | nil => intro rest _; rfl
  | cons a m ih =>
    intro rest hm
    have ha : h ≠ a := fun e => hm a (List.mem_cons_self _ _) e.symm
    have hpre : (h :: q).isPrefixOf (a :: (m ++ rest)) = false := by
      simp [List.isPrefixOf, ha]
    show replaceLiteral (h :: q) r 0 (a :: (m ++ rest))
      = a :: (m ++ replaceLiteral (h :: q) r 0 rest)
    simp only [replaceLiteral, hpre, Bool.false_eq_true, if_false]
    rw [ih rest (fun b hb => hm b (List.mem_cons_of_mem _ hb))]

/-- A text without `&` and without escaped characters is a prefix of an
escaped text exactly when it is a prefix of the text. -/
theorem isPrefixOf_escapeChars (E : List Char)
    (hE : ∀ y ∈ E, (entityOf y).head? = some '&') :
    ∀ (q xs : List Char), (∀ a ∈ q, a ≠ '&' ∧ a ∉ E) →
      q.isPrefixOf (escapeChars E xs) = q.isPrefixOf xs := by
  intro q
  induction q with
  | nil => intro xs _; simp [List.isPrefixOf]
  | cons a q ih =>
    intro xs hq
    have ha := hq a (List.mem_cons_self _ _)
    cases xs with
    | nil => simp [escapeChars, List.isPrefixOf]
    | cons y ys =>
      by_cases hy : y ∈ E
      · have hay : a ≠ y := fun e => ha.2 (e ▸ hy)
        have hhead := hE y hy
        cases hent : entityOf y with
        | nil => simp [hent] at hhead
        | cons b m =>
          simp only [hent, List.head?_cons, Option.some.injEq] at hhead
          subst hhead
          have h1 : (a == '&') = false := by simp [ha.1]
          have h2 : (a == y) = false := by simp [hay]
          simp [escapeChars, hy, hent, List.isPrefixOf, h1, h2]
      · simp only [escapeChars, hy, if_false, List.singleton_append, List.isPrefixOf]
        rw [ih ys (fun b hb => hq b (List.mem_cons_of_mem _ hb))]

theorem isPrefixOf_self_append (p rest : List Char) : p.isPrefixOf (p ++ rest) = true := by
  induction p with
  | nil => simp [List.isPrefixOf]
  | cons a p ih => simp [List.isPrefixOf, ih]

/-- One pass of `decodeHtmlEntities` over an escaped text that has no entity
of its own: the character of the pass is written as itself again and the
other entities stay. -/
theorem replaceLiteral_escapeChars (q : List Char) (c : Char) (E : List Char)
    (hq : ∀ a ∈ q, a ≠ '&' ∧ a ∉ E)
    (hE : ∀ y ∈ E, (entityOf y).head? = some '&' ∧ ∀ a ∈ (entityOf y).tail, a ≠ '&')
    (hclash : ∀ y ∈ E, y ≠ c → clash ('&' :: q) (entityOf y) = true)
    (hc : c ∈ E → entityOf c = '&' :: q) :
    ∀ s, includes s ('&' :: q) = false →
      replaceLiteral ('&' :: q) [c] 0 (escapeChars E s)
        = escapeChars (E.filter (fun y => decide (y ≠ c))) s := by
  intro s
  induction s with
  | nil => intro _; rfl
  | cons x xs ih =>
    intro hinc
    simp only [includes, Bool.or_eq_false_iff] at hinc
    obtain ⟨hpre, hrest⟩ := hinc
    have ih1 := ih hrest
    by_cases hx : x ∈ E
    · by_cases hxc : x = c
      · subst hxc
        have hx1 : x ∉ E.filter (fun y => decide (y ≠ x)) := by simp
        simp only [escapeChars, hx, hx1, if_true, if_false, hc hx, List.cons_append,
          List.singleton_append, List.nil_append]
        have hp := isPrefixOf_self_append ('&' :: q) (escapeChars E xs)
        simp only [List.cons_append] at hp
        simp only [replaceLiteral, hp, if_true, List.length_cons, Nat.add_sub_cancel,
          List.singleton_append]
        rw [replaceLiteral_skip, ih1]
      · have hx1 : x ∈ E.filter (fun y => decide (y ≠ c)) := by simp [hx, hxc]
        simp only [escapeChars, hx, hx1, if_true]
        have hno := clash_isPrefixOf _ _ (hclash x hx hxc) (escapeChars E xs)
        obtain ⟨hhead, htail⟩ := hE x hx
        cases hent : entityOf x with
        | nil => simp [hent] at hhead
        | cons b m =>
          simp only [hent, List.head?_cons, Option.some.injEq, List.tail_cons] at hhead htail hno
          subst hhead
          simp only [List.cons_append] at hno ⊢
          simp only [replaceLiteral, hno, Bool.false_eq_true, if_false]
          rw [replaceLiteral_through _ _ _ _ _ htail, ih1]
    · have hx1 : x ∉ E.filter (fun y => decide (y ≠ c)) := by simp [hx]
      simp only [escapeChars, hx, hx1, if_false, List.singleton_append]
      have hno : ('&' :: q).isPrefixOf (x :: escapeChars E xs) = false := by
        have h1 := isPrefixOf_escapeChars E (fun y hy => (hE y hy).1) q xs hq
        simp only [List.isPrefixOf] at hpre ⊢
        rw [h1]
        exact hpre
      simp only [replaceLiteral, hno, Bool.false_eq_true, if_false]
      rw [ih1]

/-- The function `decodeHtmlEntities` undoes the escaping of a text that
contains none of the six entities. -/
theorem decodeChars_escapeChars (s : List Char) (h : hasEntity s = false) :
    decodeChars (escapeChars ['/', '"', '>', '<'] s) = s := by
  simp only [hasEntity, htmlEntities, List.any_cons, List.any_nil, Bool.or_false,
    Bool.or_eq_false_iff] at h
  obtain ⟨ha, hl, hg, hqu, hap, hsl⟩ := h
  have h1 := replaceLiteral_escapeChars "amp;".data '&' ['/', '"', '>', '<']
    (by decide) (by decide) (by decide) (by decide) s ha
  have h2 := replaceLiteral_escapeChars "lt;".data '<' ['/', '"', '>', '<']
    (by decide) (by decide) (by decide) (by decide) s hl
  have h3 := replaceLiteral_escapeChars "gt;".data '>' ['/', '"', '>']
    (by decide) (by decide) (by decide) (by decide) s hg
  have h4 := replaceLiteral_escapeChars "quot;".data '"' ['/', '"']
    (by decide) (by decide) (by decide) (by decide) s hqu
  have h5 := replaceLiteral_escapeChars "#x27;".data (Char.ofNat 39) ['/']
    (by decide) (by decide) (by decide) (by decide) s hap
  have h6 := replaceLiteral_escapeChars "#x2F;".data '/' ['/']
    (by decide) (by decide) (by decide) (by decide) s hsl
  unfold decodeChars
  have e1 : "&amp;".data = '&' :: "amp;".data := rfl
  have e2 : "&lt;".data = '&' :: "lt;".data := rfl
  have e3 : "&gt;".data = '&' :: "gt;".data := rfl
  have e4 : "&quot;".data = '&' :: "quot;".data := rfl
  have e5 : "&#x27;".data = '&' :: "#x27;".data := rfl
  have e6 : "&#x2F;".data = '&' :: "#x2F;".data := rfl
  rw [e1, e2, e3, e4, e5, e6, h1]
  have f1 : List.filter (fun y => decide (y ≠ '&')) ['/', '"', '>', '<'] = ['/', '"', '>', '<'] := by
    decide
  rw [f1, h2]
  have f2 : List.filter (fun y => decide (y ≠ '<')) ['/', '"', '>', '<'] = ['/', '"', '>'] := by
    decide
  rw [f2, h3]
  have f3 : List.filter (fun y => decide (y ≠ '>')) ['/', '"', '>'] = ['/', '"'] := by decide
  rw [f3, h4]
  have f4 : List.filter (fun y => decide (y ≠ '"')) ['/', '"'] = ['/'] := by decide
  rw [f4, h5]
  have f5 : List.filter (fun y => decide (y ≠ Char.ofNat 39)) ['/'] = ['/'] := by decide
  rw [f5, h6]
  have f6 : List.filter (fun y => decide (y ≠ '/')) ['/'] = [] := by decide
  rw [f6, escapeChars_nil]

/-- C30, as the code has it.  For every string that contains none of the six
entities `decodeHtmlEntities` knows, decoding the sanitized string gives the
string back. -/
theorem decode_sanitize_roundtrip (s : String) (h : hasEntity s.data = false) :
    decodeHtmlEntities (sanitize s) = s := by
  unfold decodeHtmlEntities
  rw [sanitize_eq_escapeChars, decodeChars_escapeChars s.data h]

/-- Witness of C30 as amended: a text with the four escaped characters. -/
theorem decode_sanitize_roundtrip_witness :
    hasEntity "<a>/b & c".data = false ∧
    decodeHtmlEntities (sanitize "<a>/b & c") = "<a>/b & c" :=
  ⟨by decide, decode_sanitize_roundtrip "<a>/b & c" (by decide)⟩

/-- C30 fails for a text that is an entity: `sanitize` leaves `&lt;` as it is
and `decodeHtmlEntities` turns it into `<`. -/
theorem decode_sanitize_entity_text :
    sanitize "&lt;" = "&lt;" ∧ decodeHtmlEntities (sanitize "&lt;") = "<" ∧
    ¬ (∀ s : String, decodeHtmlEntities (sanitize s) = s) := by
  refine ⟨by decide, by decide, ?_⟩
  intro h
  exact absurd (h "&lt;") (by decide)

end GhostFeedback
